import Mathlib

/-!
# Falcor D3D program reflection — a shallow embedding

The definitions below follow `Framework/Source/API/D3D/D3DProgramReflection.cpp`
function by function; two short sections at the end of the definitions follow
`ShaderStorageBuffer::readBlob` (`Core/OpenGL/ShaderStorageBufferGL.cpp`) and
`getD3DFeatureLevel` (`Core/D3D/D3D12/D3D12Device.cpp`).  Conventions of the
embedding:

* `std::map<K, V>` is the list of its `(key, value)` pairs in iteration order
  (ascending keys); `m[k] = v` is `StdMap.set`, `m.find(k)` is `StdMap.find`,
  `m.size()` is `List.length`, `m.begin()` is the head of the list.
* `std::string` is `String`; `operator<` on strings compares the character
  sequences lexicographically (`strLt`); `std::to_string` on an index is the
  decimal rendering `toString`.
* `size_t` / `uint32_t` quantities are byte offsets, counts and register slots
  of a GPU constant buffer; they are far below the word size and are modelled
  by `Nat`.  The arguments of `readBlob` are arbitrary 64-bit values: there the
  sum is taken modulo `2 ^ 64` (`sizeModulus`).
* `assert(...)` and `should_not_get_here()` expand to nothing in a build with
  `NDEBUG`; the functions give the behaviour of such a build and the asserted
  conditions are stated as separate predicates (`..._assert`).
* A call into the driver that fails, or a dereference the C++ leaves
  undefined, makes the enclosing loop return `none`.
-/

namespace Falcor

/-! ## `std::string` and `std::map` -/

/-- Lexicographic comparison of two character sequences.  `std::string`
compares bytes; on UTF-8 text the byte order is the order of the code points,
which is what is compared here. -/
def lexLt : List Char → List Char → Bool
  | [], [] => false
  | [], _ :: _ => true
  | _ :: _, [] => false
  | a :: as, b :: bs =>
    if a.toNat < b.toNat then true
    else if a.toNat = b.toNat then lexLt as bs
    else false

/-- The ordering `std::less<std::string>` used by the string-keyed maps. -/
def strLt (a b : String) : Bool := lexLt a.data b.data

/-- Key orderings of the `std::map` instances used by the reflection code. -/
class MapKey (κ : Type) where
  keyLt : κ → κ → Bool

instance : MapKey String := ⟨strLt⟩

instance : MapKey Nat := ⟨fun a b => decide (a < b)⟩

/-- A `std::map<κ, α>`: its entries in iteration (ascending key) order. -/
abbrev StdMap (κ : Type) (α : Type) := List (κ × α)

namespace StdMap

variable {κ α : Type}

/-- Lookup `m.find(k)`: the mapped value, or `none` for `m.end()`. -/
def find [DecidableEq κ] : StdMap κ α → κ → Option α
  | [], _ => none
  | (k1, v1) :: rest, k => if k = k1 then some v1 else find rest k

/-- Assignment `m[k] = v`: insert at the key's position, or overwrite. -/
def set [DecidableEq κ] [MapKey κ] : StdMap κ α → κ → α → StdMap κ α
  | [], k, v => [(k, v)]
  | (k1, v1) :: rest, k, v =>
    if MapKey.keyLt k k1 then (k, v) :: (k1, v1) :: rest
    else if k = k1 then (k, v) :: rest
    else (k1, v1) :: set rest k v

end StdMap

/-! ## Well-formed maps -/

/-- The strict total ordering that `std::map` requires of its key comparison. -/
structure LawfulMapKey (κ : Type) [MapKey κ] : Prop where
  irrefl : ∀ a : κ, MapKey.keyLt a a = false
  trans : ∀ a b c : κ, MapKey.keyLt a b = true → MapKey.keyLt b c = true →
    MapKey.keyLt a c = true
  total : ∀ a b : κ, MapKey.keyLt a b = false → a ≠ b → MapKey.keyLt b a = true

/-- The representation invariant of a `std::map`: strictly ascending keys. -/
def StdMap.Sorted {κ α : Type} [MapKey κ] (m : StdMap κ α) : Prop :=
  m.Pairwise (fun a b => MapKey.keyLt a.1 b.1 = true)

instance {κ α : Type} [MapKey κ] (m : StdMap κ α) : Decidable (StdMap.Sorted m) :=
  List.instDecidablePairwise m

/-! ## Data model (`ProgramReflection::Variable`) -/

/-- Modelled from the spec: the closed enumeration `ProgramReflection::Variable::Type`
(declared in `API/ProgramReflection.h`, which is not among the sources). -/
inductive VariableType where
  | Unknown
  | Bool | Bool2 | Bool3 | Bool4
  | Uint | Uint2 | Uint3 | Uint4
  | Int | Int2 | Int3 | Int4
  | Float | Float2 | Float3 | Float4
  | Float2x2 | Float2x3 | Float2x4
  | Float3x2 | Float3x3 | Float3x4
  | Float4x2 | Float4x3 | Float4x4
  | GpuPtr
deriving DecidableEq, Repr

/-- Modelled from the spec: `ProgramReflection::Variable` (declared in
`API/ProgramReflection.h`).  `arrayStride` is compared by
`validateBufferDeclaration` and never assigned by `reflectType`, so every
variable carries the default value of the field. -/
structure Variable where
  location : Nat := 0
  arraySize : Nat := 0
  arrayStride : Nat := 0
  isRowMajor : Bool := false
  type : VariableType := VariableType.Unknown
deriving DecidableEq, Repr

/-- The alias `ProgramReflection::VariableMap`, a `std::map<std::string, Variable>`. -/
abbrev VariableMap := StdMap String Variable

/-! ## Driver-side reflection data (`d3d12shader.h`) -/

/-- The scalar kinds of `D3D_SHADER_VARIABLE_TYPE` that a buffer member can have. -/
inductive D3D_SHADER_VARIABLE_TYPE where
  | D3D_SVT_VOID | D3D_SVT_BOOL | D3D_SVT_INT | D3D_SVT_FLOAT
  | D3D_SVT_STRING | D3D_SVT_UINT | D3D_SVT_DOUBLE
deriving DecidableEq, Repr

/-- The enumeration `D3D_SHADER_VARIABLE_CLASS`. -/
inductive D3D_SHADER_VARIABLE_CLASS where
  | D3D_SVC_SCALAR | D3D_SVC_VECTOR | D3D_SVC_MATRIX_ROWS | D3D_SVC_MATRIX_COLUMNS
  | D3D_SVC_OBJECT | D3D_SVC_STRUCT | D3D_SVC_INTERFACE_CLASS | D3D_SVC_INTERFACE_POINTER
deriving DecidableEq, Repr

/-- The fields of `D3D_SHADER_TYPE_DESC` read by `reflectType`; `Members` is
the length of the member sequence of the node, `Type_` is the field `Type`. -/
structure D3D_SHADER_TYPE_DESC where
  Class : D3D_SHADER_VARIABLE_CLASS
  Type_ : D3D_SHADER_VARIABLE_TYPE
  Rows : Nat
  Columns : Nat
  Elements : Nat
  Offset : Nat
deriving DecidableEq, Repr

mutual
/-- A type-tree node `ID3DShaderReflectionType`: its description and the
members reached through `GetMemberTypeByIndex` / `GetMemberTypeName`. -/
inductive ShaderReflectionType where
  | mk (typeDesc : D3D_SHADER_TYPE_DESC) (members : MemberList)
/-- The member sequence of a type-tree node, in index order. -/
inductive MemberList where
  | nil
  | cons (memberName : String) (pMember : ShaderReflectionType) (rest : MemberList)
end

/-! ## Leaf classification and struct size -/

/-- Source: `getVariableType`.  The trailing `should_not_get_here(); return Unknown`
is the catch-all of every `switch`. -/
def getVariableType (dxType : D3D_SHADER_VARIABLE_TYPE) (rows columns : Nat) : VariableType :=
  match dxType with
  | .D3D_SVT_BOOL =>
    match columns with
    | 1 => .Bool | 2 => .Bool2 | 3 => .Bool3 | 4 => .Bool4
    | _ => .Unknown
  | .D3D_SVT_UINT =>
    match columns with
    | 1 => .Uint | 2 => .Uint2 | 3 => .Uint3 | 4 => .Uint4
    | _ => .Unknown
  | .D3D_SVT_INT =>
    match columns with
    | 1 => .Int | 2 => .Int2 | 3 => .Int3 | 4 => .Int4
    | _ => .Unknown
  | .D3D_SVT_FLOAT =>
    match rows with
    | 1 =>
      match columns with
      | 1 => .Float | 2 => .Float2 | 3 => .Float3 | 4 => .Float4
      | _ => .Unknown
    | 2 =>
      match columns with
      | 2 => .Float2x2 | 3 => .Float2x3 | 4 => .Float2x4
      | _ => .Unknown
    | 3 =>
      match columns with
      | 2 => .Float3x2 | 3 => .Float3x3 | 4 => .Float3x4
      | _ => .Unknown
    | 4 =>
      match columns with
      | 2 => .Float4x2 | 3 => .Float4x3 | 4 => .Float4x4
      | _ => .Unknown
    | _ => .Unknown
  | _ => .Unknown

/-! ### The recognised leaf shapes -/

/-- The conditions asserted inside `getVariableType`: `assert(rows == 1)` in the
branches of `D3D_SVT_BOOL`, `D3D_SVT_UINT` and `D3D_SVT_INT`, and the trailing
`should_not_get_here()` not being reached. -/
def getVariableType_assert (dxType : D3D_SHADER_VARIABLE_TYPE) (rows columns : Nat) : Bool :=
  match dxType with
  | .D3D_SVT_BOOL | .D3D_SVT_UINT | .D3D_SVT_INT =>
    rows == 1 && (columns == 1 || columns == 2 || columns == 3 || columns == 4)
  | .D3D_SVT_FLOAT =>
    (rows == 1 && (columns == 1 || columns == 2 || columns == 3 || columns == 4))
    || ((rows == 2 || rows == 3 || rows == 4)
        && (columns == 2 || columns == 3 || columns == 4))
  | _ => false

/-- The 25 combinations `(scalar kind, rows, columns)` of a scalar, a vector or a
float matrix: bool, uint and int with 1 row and 1..4 columns, float with 1 row
and 1..4 columns, float with 2..4 rows and 2..4 columns. -/
def recognisedCombos : List (D3D_SHADER_VARIABLE_TYPE × Nat × Nat) :=
  [D3D_SHADER_VARIABLE_TYPE.D3D_SVT_BOOL, .D3D_SVT_UINT, .D3D_SVT_INT].flatMap
      (fun kind => [1, 2, 3, 4].map (fun c => (kind, 1, c)))
  ++ [1, 2, 3, 4].map (fun c => (D3D_SHADER_VARIABLE_TYPE.D3D_SVT_FLOAT, 1, c))
  ++ [2, 3, 4].flatMap
      (fun r => [2, 3, 4].map (fun c => (D3D_SHADER_VARIABLE_TYPE.D3D_SVT_FLOAT, r, c)))

/-- Source: `getRowCountFromType`. -/
def getRowCountFromType (type : VariableType) : Nat :=
  match type with
  | .Unknown => 0
  | .Bool | .Bool2 | .Bool3 | .Bool4
  | .Uint | .Uint2 | .Uint3 | .Uint4
  | .Int | .Int2 | .Int3 | .Int4
  | .Float | .Float2 | .Float3 | .Float4 => 1
  | .Float2x2 | .Float2x3 | .Float2x4 => 2
  | .Float3x2 | .Float3x3 | .Float3x4 => 3
  | .Float4x2 | .Float4x3 | .Float4x4 => 4
  | _ => 0

/-- One iteration of the loop of `calcStructSize`, on the pair `(maxOffset, type)`. -/
def calcStructSizeStep (acc : Nat × VariableType) (a : String × Variable) : Nat × VariableType :=
  if a.2.location > acc.1 then (a.2.location, a.2.type) else acc

/-- Source: `calcStructSize`.  `type` starts as the type of `varMap.begin()`
(reading it is undefined for an empty map, see `calcStructSize_defined`). -/
def calcStructSize (varMap : VariableMap) : Nat :=
  let type0 : VariableType :=
    match varMap.head? with
    | some a => a.2.type
    | none => VariableType.Unknown
  let r := varMap.foldl calcStructSizeStep (0, type0)
  if r.1 > 0 then r.1 + getRowCountFromType r.2 * 16 else r.1

/-- The precondition of `calcStructSize`: `varMap.begin()` can be dereferenced. -/
def calcStructSize_defined (varMap : VariableMap) : Bool := !varMap.isEmpty

/-! ## The type walker -/

mutual
/-- Source: `reflectType`. -/
def reflectType : ShaderReflectionType → VariableMap → String → Nat → VariableMap
  | .mk typeDesc members, varMap, name, offset =>
    let offset := offset + typeDesc.Offset
    if typeDesc.Class = D3D_SHADER_VARIABLE_CLASS.D3D_SVC_STRUCT then
      -- Calculate the structure size
      let structVarMap := reflectStructMembers members []
      let structSize := calcStructSize structVarMap
      -- Parse the internal variables
      reflectMembers members typeDesc.Elements structSize varMap name offset
    else
      varMap.set name
        { arraySize := typeDesc.Elements
          isRowMajor := decide (typeDesc.Class = D3D_SHADER_VARIABLE_CLASS.D3D_SVC_MATRIX_ROWS)
          location := offset
          type := getVariableType typeDesc.Type_ typeDesc.Rows typeDesc.Columns }
/-- The first member loop of `reflectType`: every member flattened into the
scratch map `structVarMap` under its own name at offset 0. -/
def reflectStructMembers : MemberList → VariableMap → VariableMap
  | .nil, structVarMap => structVarMap
  | .cons memberName pMember rest, structVarMap =>
    reflectStructMembers rest (reflectType pMember structVarMap memberName 0)
/-- The second member loop of `reflectType`: every member flattened into the
destination map, once per array element when the struct is an array. -/
def reflectMembers : MemberList → Nat → Nat → VariableMap → String → Nat → VariableMap
  | .nil, _, _, varMap, _, _ => varMap
  | .cons memberName pMember rest, elements, structSize, varMap, name, offset =>
    let varMap1 :=
      if elements > 0 then
        (List.range elements).foldl
          (fun vm i =>
            reflectType pMember vm (name ++ "[" ++ toString i ++ "]." ++ memberName)
              (offset + structSize * i))
          varMap
      else
        reflectType pMember varMap (name ++ "." ++ memberName) offset
    reflectMembers rest elements structSize varMap1 name offset
end

/-! ## The assignments performed by the type walker -/

/-- The map after the assignments `varMap[w.1] = w.2`, in list order. -/
def applyWrites (varMap : VariableMap) (ws : List (String × Variable)) : VariableMap :=
  ws.foldl (fun m w => m.set w.1 w.2) varMap

/-- An assignment moved under the name prefix `pre` and by `delta` bytes. -/
def relocate (pre : String) (delta : Nat) (w : String × Variable) : String × Variable :=
  (pre ++ w.1, { w.2 with location := w.2.location + delta })

mutual
/-- The assignments `varMap[name] = desc` that `reflectType` performs, in order. -/
def typeWrites : ShaderReflectionType → String → Nat → List (String × Variable)
  | .mk typeDesc members, name, offset =>
    let offset := offset + typeDesc.Offset
    if typeDesc.Class = D3D_SHADER_VARIABLE_CLASS.D3D_SVC_STRUCT then
      let structSize := calcStructSize (reflectStructMembers members [])
      memberWrites members typeDesc.Elements structSize name offset
    else
      [(name,
        { arraySize := typeDesc.Elements
          isRowMajor := decide (typeDesc.Class = D3D_SHADER_VARIABLE_CLASS.D3D_SVC_MATRIX_ROWS)
          location := offset
          type := getVariableType typeDesc.Type_ typeDesc.Rows typeDesc.Columns })]
/-- The assignments that the second member loop of `reflectType` performs. -/
def memberWrites : MemberList → Nat → Nat → String → Nat → List (String × Variable)
  | .nil, _, _, _, _ => []
  | .cons memberName pMember rest, elements, structSize, name, offset =>
    (if elements > 0 then
        (List.range elements).flatMap
          (fun i =>
            typeWrites pMember (name ++ "[" ++ toString i ++ "]." ++ memberName)
              (offset + structSize * i))
      else
        typeWrites pMember (name ++ "." ++ memberName) offset)
    ++ memberWrites rest elements structSize name offset
end

/-- The assignments that the first member loop of `reflectType` performs on the
scratch map. -/
def scratchWrites : MemberList → List (String × Variable)
  | .nil => []
  | .cons memberName pMember rest => typeWrites pMember memberName 0 ++ scratchWrites rest

/-- The value last assigned to the key `k` by the assignments `ws`. -/
def lastWrite : List (String × Variable) → String → Option Variable
  | [], _ => none
  | w :: ws, k =>
    match lastWrite ws k with
    | some v => some v
    | none => if w.1 = k then some w.2 else none

/-- The value of a most-significant-first decimal digit sequence, continued from `acc`. -/
def digitsValue (acc : Nat) (ds : List Char) : Nat :=
  ds.foldl (fun a c => a * 10 + (c.toNat - 48)) acc

/-- The description `D3D_SHADER_TYPE_DESC` returned by `GetDesc` on a type node. -/
def ShaderReflectionType.typeDesc : ShaderReflectionType → D3D_SHADER_TYPE_DESC
  | .mk typeDesc _ => typeDesc

/-- The members of a type node as pairs `(GetMemberTypeName i, GetMemberTypeByIndex i)`. -/
def MemberList.toList : MemberList → List (String × ShaderReflectionType)
  | .nil => []
  | .cons memberName pMember rest => (memberName, pMember) :: rest.toList

/-! ## Buffers -/

/-- The enumeration `D3D_CBUFFER_TYPE`. -/
inductive D3D_CBUFFER_TYPE where
  | D3D_CT_CBUFFER | D3D_CT_TBUFFER | D3D_CT_INTERFACE_POINTERS | D3D_CT_RESOURCE_BIND_INFO
deriving DecidableEq, Repr

/-- A variable handle `ID3DShaderReflectionVariable`: the fields of
`D3D_SHADER_VARIABLE_DESC` read by `reflectVariable` and the result of `GetType`. -/
structure ShaderReflectionVariable where
  Name : String
  StartOffset : Nat
  pType : ShaderReflectionType

/-- A buffer handle `ID3DShaderReflectionConstantBuffer`: the fields of
`D3D_SHADER_BUFFER_DESC` and the variables reached through `GetVariableByIndex`. -/
structure ShaderReflectionConstantBuffer where
  Name : String
  Type_ : D3D_CBUFFER_TYPE
  Size : Nat
  variableList : List ShaderReflectionVariable

/-- The field `D3D_SHADER_BUFFER_DESC::Variables`, the number of variables of the buffer. -/
def ShaderReflectionConstantBuffer.Variables (pBuffer : ShaderReflectionConstantBuffer) : Nat :=
  pBuffer.variableList.length

/-- Source: `reflectVariable`. -/
def reflectVariable (pVar : ShaderReflectionVariable) (varMap : VariableMap) : VariableMap :=
  reflectType pVar.pType varMap pVar.Name pVar.StartOffset

/-- Source: `initializeBufferVariables` (the loop over the variables). -/
def initializeBufferVariables (pReflector : ShaderReflectionConstantBuffer)
    (varMap : VariableMap) : VariableMap :=
  pReflector.variableList.foldl (fun vm pVar => reflectVariable pVar vm) varMap

/-- The condition asserted at the end of `initializeBufferVariables`:
`assert(calcStructSize(varMap) == desc.Size)`. -/
def initializeBufferVariables_assert (pReflector : ShaderReflectionConstantBuffer) : Bool :=
  calcStructSize (initializeBufferVariables pReflector []) == pReflector.Size

/-- The enumeration `ProgramReflection::BufferReflection::Type`, which indexes `mBuffers`. -/
inductive BufferType where
  | Constant | UnorderedAccess
deriving DecidableEq, Repr

/-- Modelled from the spec: `ProgramReflection::BufferReflection` (declared in
`API/ProgramReflection.h`): the values handed to `BufferReflection::create`, read
back by `getVariableCount`, `varBegin`/`varEnd` and `getShaderMask`, and the
shader mask written by `setShaderMask` (0 on creation).  The resource map handed
to `create` is always empty and is left out. -/
structure BufferReflection where
  name : String
  regIndex : Nat
  type : BufferType
  sizeInBytes : Nat
  variableCount : Nat
  varMap : VariableMap
  shaderMask : Nat := 0
deriving DecidableEq, Repr

/-- The accessor `BufferReflection::getVariableCount`. -/
def BufferReflection.getVariableCount (b : BufferReflection) : Nat := b.variableCount

/-- The macro `error_msg` of the two validators. -/
def error_msg (msg : String) : String := msg ++ " mismatch.\n"

/-- The macro `test_field` of `validateBufferDeclaration` on the pair `(match, log)`:
`differs` is the outcome of `prevVar->second.field_ != curVar->second.field_`. -/
def test_field (name : String) (differs : Bool) (msg : String) (s : Bool × String) :
    Bool × String :=
  if differs then (false, s.2 ++ error_msg (name ++ " " ++ msg)) else s

/-- The body of the loop of `validateBufferDeclaration` over the previous variables. -/
def validateBufferVariable (varMap : VariableMap) (s : Bool × String)
    (prevVar : String × Variable) : Bool × String :=
  let name := prevVar.1
  match varMap.find name with
  | none => (s.1, s.2 ++ "Can't find variable '" ++ name ++ "' in the new definitions")
  | some curVar =>
    let s := test_field name (prevVar.2.location != curVar.location) "offset" s
    let s := test_field name (prevVar.2.arraySize != curVar.arraySize) "array size" s
    let s := test_field name (prevVar.2.arrayStride != curVar.arrayStride) "array stride" s
    let s := test_field name (prevVar.2.isRowMajor != curVar.isRowMajor) "row major" s
    test_field name (prevVar.2.type != curVar.type) "Type" s

/-- Source: `validateBufferDeclaration`; the result is `(match, log)`. -/
def validateBufferDeclaration (pPrevDesc : BufferReflection) (varMap : VariableMap)
    (log : String) : Bool × String :=
  let s : Bool × String :=
    if pPrevDesc.getVariableCount ≠ varMap.length then
      (false, log ++ error_msg "Variable count")
    else (true, log)
  pPrevDesc.varMap.foldl (validateBufferVariable varMap) s

/-- The fields of `D3D_SHADER_INPUT_TYPE` distinguished by the reflection code. -/
inductive D3D_SHADER_INPUT_TYPE where
  | D3D_SIT_CBUFFER | D3D_SIT_TBUFFER | D3D_SIT_TEXTURE | D3D_SIT_SAMPLER
  | D3D_SIT_UAV_RWTYPED | D3D_SIT_STRUCTURED
deriving DecidableEq, Repr

/-- The enumeration `D3D_RESOURCE_RETURN_TYPE` (`NONE` is the value 0 of a
binding without a return type). -/
inductive D3D_RESOURCE_RETURN_TYPE where
  | D3D_RETURN_TYPE_NONE
  | D3D_RETURN_TYPE_UNORM | D3D_RETURN_TYPE_SNORM | D3D_RETURN_TYPE_SINT
  | D3D_RETURN_TYPE_UINT | D3D_RETURN_TYPE_FLOAT | D3D_RETURN_TYPE_MIXED
  | D3D_RETURN_TYPE_DOUBLE | D3D_RETURN_TYPE_CONTINUED
deriving DecidableEq, Repr

/-- The enumeration `D3D_SRV_DIMENSION`. -/
inductive D3D_SRV_DIMENSION where
  | D3D_SRV_DIMENSION_UNKNOWN | D3D_SRV_DIMENSION_BUFFER
  | D3D_SRV_DIMENSION_TEXTURE1D | D3D_SRV_DIMENSION_TEXTURE1DARRAY
  | D3D_SRV_DIMENSION_TEXTURE2D | D3D_SRV_DIMENSION_TEXTURE2DARRAY
  | D3D_SRV_DIMENSION_TEXTURE2DMS | D3D_SRV_DIMENSION_TEXTURE2DMSARRAY
  | D3D_SRV_DIMENSION_TEXTURE3D | D3D_SRV_DIMENSION_TEXTURECUBE
  | D3D_SRV_DIMENSION_TEXTURECUBEARRAY | D3D_SRV_DIMENSION_BUFFEREX
deriving DecidableEq, Repr

/-- The structure `D3D12_SHADER_INPUT_BIND_DESC`, one entry of a stage's
resource-binding table. -/
structure D3D_SHADER_INPUT_BIND_DESC where
  Name : String
  Type_ : D3D_SHADER_INPUT_TYPE
  BindPoint : Nat
  BindCount : Nat
  ReturnType : D3D_RESOURCE_RETURN_TYPE
  Dimension : D3D_SRV_DIMENSION
  Space : Nat
deriving DecidableEq, Repr

/-- A stage's reflection interface `ID3D12ShaderReflection`: the count
`D3D12_SHADER_DESC::ConstantBuffers`, the buffers reached through
`GetConstantBufferByIndex` (index order) and the binding table reached through
`GetResourceBindingDesc` (index order, `BoundResources` entries). -/
structure ShaderReflection where
  ConstantBuffers : Nat
  constantBuffers : List ShaderReflectionConstantBuffer
  boundResources : List D3D_SHADER_INPUT_BIND_DESC

/-- The driver call `GetResourceBindingDescByName`; `none` when the call fails. -/
def ShaderReflection.GetResourceBindingDescByName (pReflection : ShaderReflection)
    (name : String) : Option D3D_SHADER_INPUT_BIND_DESC :=
  pReflection.boundResources.find? (fun d => d.Name = name)

/-- A program version: entry `shader` is the reflection interface of
`getShader((ShaderType)shader)`, `none` when the program has no such shader;
the length of the list is `ShaderType::Count`. -/
abbrev ProgramVersion := List (Option ShaderReflection)

/-- The structure `ProgramReflection::BufferData`: the buffers by bind point
and the name index. -/
structure BufferData where
  descMap : StdMap Nat BufferReflection := []
  nameMap : StdMap String Nat := []
deriving DecidableEq

/-! ## Resources (data model) -/

/-- Modelled from the spec: `ProgramReflection::Resource::ResourceType`. -/
inductive ResourceType where
  | Unknown | Texture | Sampler
deriving DecidableEq, Repr

/-- Modelled from the spec: `ProgramReflection::Resource::Dimensions`. -/
inductive Dimensions where
  | Unknown
  | Texture1D | Texture1DArray | Texture2D | Texture2DArray
  | Texture2DMS | Texture2DMSArray | Texture3D
  | TextureCube | TextureCubeArray | TextureBuffer
deriving DecidableEq, Repr

/-- Modelled from the spec: `ProgramReflection::Resource::ReturnType`. -/
inductive ReturnType where
  | Unknown | Float | Double | Int | Uint
deriving DecidableEq, Repr

/-- Modelled from the spec: `ProgramReflection::Resource` (declared in
`API/ProgramReflection.h`) with the values of a default-constructed record:
`Unknown` for the three enumerations and 0 for the integers. -/
structure Resource where
  type : ResourceType := ResourceType.Unknown
  dims : Dimensions := Dimensions.Unknown
  retType : ReturnType := ReturnType.Unknown
  regIndex : Nat := 0
  registerSpace : Nat := 0
  arraySize : Nat := 0
  shaderMask : Nat := 0
deriving DecidableEq, Repr

/-- The alias `ProgramReflection::ResourceMap`, a `std::map<std::string, Resource>`. -/
abbrev ResourceMap := StdMap String Resource

/-- The members of `ProgramReflection` written by the reflection pass:
`mBuffers[Constant]`, `mBuffers[UnorderedAccess]` and `mResources`. -/
structure ProgramReflection where
  mBuffersConstant : BufferData := {}
  mBuffersUnorderedAccess : BufferData := {}
  mResources : ResourceMap := []
deriving DecidableEq

/-- The array access `mBuffers[(uint32_t)bufferType]`. -/
def ProgramReflection.mBuffers (self : ProgramReflection) (bufferType : BufferType) :
    BufferData :=
  match bufferType with
  | .Constant => self.mBuffersConstant
  | .UnorderedAccess => self.mBuffersUnorderedAccess

/-- Writing through the reference `BufferData& bufferDesc = mBuffers[(uint32_t)bufferType]`. -/
def ProgramReflection.setBuffers (self : ProgramReflection) (bufferType : BufferType)
    (bufferDesc : BufferData) : ProgramReflection :=
  match bufferType with
  | .Constant => { self with mBuffersConstant := bufferDesc }
  | .UnorderedAccess => { self with mBuffersUnorderedAccess := bufferDesc }

/-! ## `ProgramReflection::reflectBuffers` -/

/-- The statement pair "Update the shader mask" of `reflectBuffers`:
`descMap[BindPoint]->setShaderMask(descMap[BindPoint]->getShaderMask() | (1 << shader))`.
`none` when `descMap[BindPoint]` is a null pointer. -/
def updateShaderMask (bufferDesc : BufferData) (bindPoint shader : Nat) : Option BufferData :=
  match bufferDesc.descMap.find bindPoint with
  | none => none
  | some pBuffer =>
    let mask := pBuffer.shaderMask ||| (1 <<< shader)
    some { bufferDesc with
      descMap := bufferDesc.descMap.set bindPoint { pBuffer with shaderMask := mask } }

/-- The body of the probe loop of `reflectBuffers` for one buffer of kind
`D3D_CT_CBUFFER` or `D3D_CT_TBUFFER`.  The result is `(go, self, log)`:
`go = false` is the statement `return false`, `go = true` falls through to
`found++`. -/
def reflectBuffer (pReflection : ShaderReflection) (shader : Nat)
    (pBuffer : ShaderReflectionConstantBuffer) (self : ProgramReflection) (log : String) :
    Option (Bool × ProgramReflection × String) :=
  match pReflection.GetResourceBindingDescByName pBuffer.Name with
  | none => none
  | some bindDesc =>
    let bufferType : BufferType :=
      if pBuffer.Type_ = D3D_CBUFFER_TYPE.D3D_CT_CBUFFER then BufferType.Constant
      else BufferType.UnorderedAccess
    let varMap := initializeBufferVariables pBuffer []
    -- If the buffer already exists in the program, make sure the definitions match
    let bufferDesc := self.mBuffers bufferType
    match bufferDesc.nameMap.find pBuffer.Name with
    | some prevDef =>
      if bindDesc.BindPoint ≠ prevDef then
        some (false, self, log ++ ("Constant buffer '" ++ pBuffer.Name ++ "' has different bind locations between different shader stages. Falcor do not support that. Use explicit bind locations to avoid this error"))
      else
        match bufferDesc.descMap.find bindDesc.BindPoint with
        | none => none
        | some pPrevBuffer =>
          let r := validateBufferDeclaration pPrevBuffer varMap ""
          if r.1 = false then
            some (false, self, log ++ ("Constant buffer '" ++ pBuffer.Name ++ "' has different definitions between different shader stages. " ++ r.2))
          else
            match updateShaderMask bufferDesc bindDesc.BindPoint shader with
            | none => none
            | some bufferDesc1 => some (true, self.setBuffers bufferType bufferDesc1, log)
    | none =>
      -- Create the buffer reflection
      let bufferDesc1 : BufferData :=
        { nameMap := bufferDesc.nameMap.set pBuffer.Name bindDesc.BindPoint
          descMap := bufferDesc.descMap.set bindDesc.BindPoint
            { name := pBuffer.Name
              regIndex := bindDesc.BindPoint
              type := BufferType.Constant
              sizeInBytes := pBuffer.Size
              variableCount := pBuffer.Variables
              varMap := varMap } }
      match updateShaderMask bufferDesc1 bindDesc.BindPoint shader with
      | none => none
      | some bufferDesc2 => some (true, self.setBuffers bufferType bufferDesc2, log)

/-- The conditions asserted in the body of the probe loop for one buffer:
`assert(bindDesc.BindCount == 1)`, `assert(d3dBufDesc.Type == D3D_CT_CBUFFER)`
and the size check of `initializeBufferVariables`. -/
def reflectBuffer_assert (pReflection : ShaderReflection)
    (pBuffer : ShaderReflectionConstantBuffer) : Bool :=
  (match pReflection.GetResourceBindingDescByName pBuffer.Name with
    | none => false
    | some bindDesc => bindDesc.BindCount == 1)
  && decide (pBuffer.Type_ = D3D_CBUFFER_TYPE.D3D_CT_CBUFFER)
  && initializeBufferVariables_assert pBuffer

/-- The probe loop `for (found = 0, cbIndex = 0; found < ConstantBuffers; cbIndex++)`
of `reflectBuffers`, started at the current `found` with the buffers from index
`cbIndex` on.  `none` when the probe runs past the last buffer the driver has. -/
def reflectStageBuffers (pReflection : ShaderReflection) (shader : Nat) :
    Nat → List ShaderReflectionConstantBuffer → ProgramReflection → String →
    Option (Bool × ProgramReflection × String)
  | found, buffers, self, log =>
    if found < pReflection.ConstantBuffers then
      match buffers with
      | [] => none
      | pBuffer :: rest =>
        if pBuffer.Type_ = D3D_CBUFFER_TYPE.D3D_CT_TBUFFER
            ∨ pBuffer.Type_ = D3D_CBUFFER_TYPE.D3D_CT_CBUFFER then
          match reflectBuffer pReflection shader pBuffer self log with
          | none => none
          | some (false, self1, log1) => some (false, self1, log1)
          | some (true, self1, log1) =>
            reflectStageBuffers pReflection shader (found + 1) rest self1 log1
        else
          reflectStageBuffers pReflection shader found rest self log
    else some (true, self, log)

/-- The stage loop `for (shader = 0; shader < ShaderType::Count; shader++)` of
`reflectBuffers`, started at stage index `shader` with the stages from there on. -/
def reflectBuffersFrom : List (Option ShaderReflection) → Nat → ProgramReflection → String →
    Option (Bool × ProgramReflection × String)
  | [], _, self, log => some (true, self, log)
  | none :: rest, shader, self, log => reflectBuffersFrom rest (shader + 1) self log
  | some pReflection :: rest, shader, self, log =>
    match reflectStageBuffers pReflection shader 0 pReflection.constantBuffers self log with
    | none => none
    | some (false, self1, log1) => some (false, self1, log1)
    | some (true, self1, log1) => reflectBuffersFrom rest (shader + 1) self1 log1

/-- Source: `ProgramReflection::reflectBuffers`; the result is
`(return value, *this, log)`. -/
def reflectBuffers (pProgVer : ProgramVersion) (self : ProgramReflection) (log : String) :
    Option (Bool × ProgramReflection × String) :=
  reflectBuffersFrom pProgVer 0 self log

/-! ### The probe loop cut before a declaration -/

/-- The test `(Type == D3D_CT_TBUFFER) || (Type == D3D_CT_CBUFFER)` of the probe loop. -/
def isBufferKind (pBuffer : ShaderReflectionConstantBuffer) : Bool :=
  decide (pBuffer.Type_ = D3D_CBUFFER_TYPE.D3D_CT_TBUFFER
    ∨ pBuffer.Type_ = D3D_CBUFFER_TYPE.D3D_CT_CBUFFER)

/-- The stage cut right before the buffer that follows `before`: the probe loop
visits the buffers `before` and stops, the binding table is unchanged. -/
def ShaderReflection.cutAt (pReflection : ShaderReflection)
    (before : List ShaderReflectionConstantBuffer) : ShaderReflection :=
  { pReflection with
    ConstantBuffers := before.countP isBufferKind
    constantBuffers := before }

/-- The body of the probe loop run on the given buffers one after the other,
stopping at the first `return false`. -/
def reflectBufferList (pReflection : ShaderReflection) (shader : Nat) :
    List ShaderReflectionConstantBuffer → ProgramReflection → String →
    Option (Bool × ProgramReflection × String)
  | [], self, log => some (true, self, log)
  | pBuffer :: rest, self, log =>
    match reflectBuffer pReflection shader pBuffer self log with
    | none => none
    | some (false, self1, log1) => some (false, self1, log1)
    | some (true, self1, log1) => reflectBufferList pReflection shader rest self1 log1

/-! ## `ProgramReflection::reflectResources` -/

/-- The macro `test_field` of `verifyResourceDefinition` on the pair `(match, log)`:
`differs` is the outcome of `prev.field_ != current.field_` and `field` is `#field_`. -/
def test_resource_field (differs : Bool) (field : String) (s : Bool × String) :
    Bool × String :=
  if differs then (false, s.2 ++ error_msg field) else s

/-- Source: `verifyResourceDefinition`; the result is `(match, log)`. -/
def verifyResourceDefinition (prev current : Resource) (log : String) : Bool × String :=
  let s : Bool × String := (true, log)
  let s := test_resource_field (prev.type != current.type) "type" s
  let s := test_resource_field (prev.dims != current.dims) "dims" s
  let s := test_resource_field (prev.retType != current.retType) "retType" s
  let s := test_resource_field (prev.regIndex != current.regIndex) "regIndex" s
  let s := test_resource_field (prev.registerSpace != current.registerSpace) "registerSpace" s
  test_resource_field (prev.arraySize != current.arraySize) "arraySize" s

/-- Source: `getResourceDimensions`. -/
def getResourceDimensions (dims : D3D_SRV_DIMENSION) : Dimensions :=
  match dims with
  | .D3D_SRV_DIMENSION_BUFFER => .TextureBuffer
  | .D3D_SRV_DIMENSION_TEXTURE1D => .Texture1D
  | .D3D_SRV_DIMENSION_TEXTURE1DARRAY => .Texture1DArray
  | .D3D_SRV_DIMENSION_TEXTURE2D => .Texture2D
  | .D3D_SRV_DIMENSION_TEXTURE2DARRAY => .Texture2DArray
  | .D3D_SRV_DIMENSION_TEXTURE2DMS => .Texture2DMS
  | .D3D_SRV_DIMENSION_TEXTURE2DMSARRAY => .Texture2DMSArray
  | .D3D_SRV_DIMENSION_TEXTURE3D => .Texture3D
  | .D3D_SRV_DIMENSION_TEXTURECUBE => .TextureCube
  | .D3D_SRV_DIMENSION_TEXTURECUBEARRAY => .TextureCubeArray
  | _ => .Unknown

/-- Source: `getResourceType`. -/
def getResourceType (type : D3D_SHADER_INPUT_TYPE) : ResourceType :=
  match type with
  | .D3D_SIT_TEXTURE => .Texture
  | .D3D_SIT_SAMPLER => .Sampler
  | _ => .Unknown

/-- Source: `getReturnType`. -/
def getReturnType (type : D3D_RESOURCE_RETURN_TYPE) : ReturnType :=
  match type with
  | .D3D_RETURN_TYPE_UNORM | .D3D_RETURN_TYPE_SNORM | .D3D_RETURN_TYPE_FLOAT => .Float
  | .D3D_RETURN_TYPE_SINT => .Int
  | .D3D_RETURN_TYPE_UINT => .Uint
  | .D3D_RETURN_TYPE_DOUBLE => .Double
  | _ => .Unknown

/-- The record `falcorDesc` that `reflectResources` builds from one entry of the
binding table.  `isArray` tests the last character of the name (the name of a
bound resource is not empty). -/
def makeResource (InputDesc : D3D_SHADER_INPUT_BIND_DESC) : Resource :=
  let falcorDesc : Resource := {}
  let name := InputDesc.Name
  let falcorDesc := { falcorDesc with type := getResourceType InputDesc.Type_ }
  let falcorDesc :=
    if falcorDesc.type ≠ ResourceType.Sampler then
      { falcorDesc with
        retType := getReturnType InputDesc.ReturnType
        dims := getResourceDimensions InputDesc.Dimension }
    else falcorDesc
  let isArray : Bool := name.data.getLast? == some ']'
  { falcorDesc with
    regIndex := InputDesc.BindPoint
    arraySize := if isArray then InputDesc.BindCount else 0 }

/-- The statement `mResources[name].shaderMask |= (1 << shader)`. -/
def updateResourceMask (mResources : ResourceMap) (name : String) (shader : Nat) :
    ResourceMap :=
  let r : Resource := (mResources.find name).getD {}
  mResources.set name { r with shaderMask := r.shaderMask ||| (1 <<< shader) }

/-- The body of the loop of `reflectResources` over the bound resources of one
stage.  The result is `(go, mResources, log)`: `go = false` is `return false`. -/
def reflectResource (shader : Nat) (InputDesc : D3D_SHADER_INPUT_BIND_DESC)
    (mResources : ResourceMap) (log : String) : Bool × ResourceMap × String :=
  -- Ignore constant buffers
  if InputDesc.Type_ = D3D_SHADER_INPUT_TYPE.D3D_SIT_CBUFFER then (true, mResources, log)
  else
    let falcorDesc := makeResource InputDesc
    let name := InputDesc.Name
    -- If this already exists, definitions should match
    match mResources.find name with
    | none =>
      -- New resource
      (true, updateResourceMask (mResources.set name falcorDesc) name shader, log)
    | some prevDef =>
      let r := verifyResourceDefinition prevDef falcorDesc ""
      if r.1 = false then
        (false, mResources, log ++ ("Shader resource '" ++ name ++ "' has different definitions between different shader stages. " ++ r.2))
      else
        (true, updateResourceMask mResources name shader, log)

/-- The loop `for (i = 0; i < shaderDesc.BoundResources; i++)` of `reflectResources`. -/
def reflectStageResources (shader : Nat) :
    List D3D_SHADER_INPUT_BIND_DESC → ResourceMap → String → Bool × ResourceMap × String
  | [], mResources, log => (true, mResources, log)
  | InputDesc :: rest, mResources, log =>
    match reflectResource shader InputDesc mResources log with
    | (false, mResources1, log1) => (false, mResources1, log1)
    | (true, mResources1, log1) => reflectStageResources shader rest mResources1 log1

/-- The stage loop `for (shader = 0; shader < ShaderType::Count; shader++)` of
`reflectResources`, started at stage index `shader`. -/
def reflectResourcesFrom : List (Option ShaderReflection) → Nat → ResourceMap → String →
    Bool × ResourceMap × String
  | [], _, mResources, log => (true, mResources, log)
  | none :: rest, shader, mResources, log => reflectResourcesFrom rest (shader + 1) mResources log
  | some pReflection :: rest, shader, mResources, log =>
    match reflectStageResources shader pReflection.boundResources mResources log with
    | (false, mResources1, log1) => (false, mResources1, log1)
    | (true, mResources1, log1) => reflectResourcesFrom rest (shader + 1) mResources1 log1

/-- Source: `ProgramReflection::reflectResources`; the result is
`(return value, *this, log)`. -/
def reflectResources (pProgVer : ProgramVersion) (self : ProgramReflection) (log : String) :
    Bool × ProgramReflection × String :=
  let r := reflectResourcesFrom pProgVer 0 self.mResources log
  (r.1, { self with mResources := r.2.1 }, r.2.2)

/-! ### The bindings visited by `reflectResources` -/

/-- The six fields of a resource record that `verifyResourceDefinition` compares. -/
def resourceKey (r : Resource) :
    ResourceType × Dimensions × ReturnType × Nat × Nat × Nat :=
  (r.type, r.dims, r.retType, r.regIndex, r.registerSpace, r.arraySize)

/-- The test `InputDesc.Type == D3D_SIT_CBUFFER` of `reflectResources`, negated. -/
def isResourceBinding (InputDesc : D3D_SHADER_INPUT_BIND_DESC) : Bool :=
  decide (InputDesc.Type_ ≠ D3D_SHADER_INPUT_TYPE.D3D_SIT_CBUFFER)

/-- The entries that `reflectResources` does not skip, in the order it visits them. -/
def programBindings : List (Option ShaderReflection) → List D3D_SHADER_INPUT_BIND_DESC
  | [] => []
  | none :: rest => programBindings rest
  | some pReflection :: rest =>
    pReflection.boundResources.filter isResourceBinding ++ programBindings rest

/-- Any two of the given bindings that share a name yield records that agree on
the six compared fields. -/
def bindingsAgree (l : List D3D_SHADER_INPUT_BIND_DESC) : Prop :=
  ∀ d1 ∈ l, ∀ d2 ∈ l, d1.Name = d2.Name →
    resourceKey (makeResource d1) = resourceKey (makeResource d2)

/-- The table holds, for exactly the names of the bindings `l`, a record that
agrees with every binding of that name on the six compared fields. -/
def resourcesTrack (T : ResourceMap) (l : List D3D_SHADER_INPUT_BIND_DESC) : Prop :=
  ∀ n : String,
    (∀ r, T.find n = some r →
      ∃ d ∈ l, d.Name = n ∧ resourceKey (makeResource d) = resourceKey r)
    ∧ (∀ d ∈ l, d.Name = n →
      ∃ r, T.find n = some r ∧ resourceKey r = resourceKey (makeResource d))

/-- The entries that `reflectResources` does not skip, each with the index of
the stage that binds it, in the order of the visit that starts at stage
index `shader`. -/
def stageBindings : List (Option ShaderReflection) → Nat →
    List (Nat × D3D_SHADER_INPUT_BIND_DESC)
  | [], _ => []
  | none :: rest, shader => stageBindings rest (shader + 1)
  | some pReflection :: rest, shader =>
    (pReflection.boundResources.filter isResourceBinding).map (fun d => (shader, d))
      ++ stageBindings rest (shader + 1)

/-- Every visited binding has its name in the table, and bit `s` of the mask of
a table entry is set exactly when stage `s` is among the stages of the visited
bindings of that name. -/
def masksTrack (T : ResourceMap) (W : List (Nat × D3D_SHADER_INPUT_BIND_DESC)) : Prop :=
  (∀ w ∈ W, (StdMap.find T w.2.Name).isSome = true)
  ∧ (∀ (n : String) (r : Resource), StdMap.find T n = some r →
      ∀ s : Nat, r.shaderMask.testBit s = true ↔ ∃ w ∈ W, w.1 = s ∧ w.2.Name = n)

/-- The stage cut right before the entry of the binding table that follows
`before`: `reflectResources` visits the entries `before` and stops. -/
def ShaderReflection.cutResourcesAt (pReflection : ShaderReflection)
    (before : List D3D_SHADER_INPUT_BIND_DESC) : ShaderReflection :=
  { pReflection with boundResources := before }

/-! ## Concrete reflection data used by the scenarios -/

/-- A `float4` leaf at the given offset inside its parent. -/
def float4At (offset : Nat) : ShaderReflectionType :=
  .mk ⟨.D3D_SVC_VECTOR, .D3D_SVT_FLOAT, 1, 4, 0, offset⟩ .nil

/-- The entry of a stage's binding table for a constant buffer bound once. -/
def cbufferBinding (name : String) (bindPoint : Nat) : D3D_SHADER_INPUT_BIND_DESC :=
  ⟨name, .D3D_SIT_CBUFFER, bindPoint, 1, .D3D_RETURN_TYPE_NONE, .D3D_SRV_DIMENSION_UNKNOWN, 0⟩

/-- The buffer `cbuffer Globals { float4 color; }`: 16 bytes, one variable at offset 0. -/
def globalsBuffer : ShaderReflectionConstantBuffer :=
  ⟨"Globals", .D3D_CT_CBUFFER, 16, [⟨"color", 0, float4At 0⟩]⟩

/-- A stage that declares `Globals` at the given bind point and nothing else. -/
def globalsStage (bindPoint : Nat) : ShaderReflection :=
  ⟨1, [globalsBuffer], [cbufferBinding "Globals" bindPoint]⟩

/-- The buffer `cbuffer Globals { float4 tint; }`: the layout of `globalsBuffer`
with another variable name. -/
def tintBuffer : ShaderReflectionConstantBuffer :=
  ⟨"Globals", .D3D_CT_CBUFFER, 16, [⟨"tint", 0, float4At 0⟩]⟩

/-- A stage that declares `tintBuffer` at the given bind point and nothing else. -/
def tintStage (bindPoint : Nat) : ShaderReflection :=
  ⟨1, [tintBuffer], [cbufferBinding "Globals" bindPoint]⟩

/-- The type `struct Light { float4 position; float4 intensity; }`. -/
def lightStruct : ShaderReflectionType :=
  .mk ⟨.D3D_SVC_STRUCT, .D3D_SVT_VOID, 1, 8, 0, 0⟩
    (.cons "position" (float4At 0) (.cons "intensity" (float4At 16) .nil))

/-- The buffer `cbuffer PerFrame { Light light; }`: 32 bytes, one variable. -/
def perFrameBuffer : ShaderReflectionConstantBuffer :=
  ⟨"PerFrame", .D3D_CT_CBUFFER, 32, [⟨"light", 0, lightStruct⟩]⟩

/-- A stage that declares `PerFrame` at bind point 0 and nothing else. -/
def perFrameStage : ShaderReflection :=
  ⟨1, [perFrameBuffer], [cbufferBinding "PerFrame" 0]⟩

/-- The table entry created for `Globals` at bind point 0, with the given shader mask. -/
def globalsEntry (shaderMask : Nat) : BufferReflection :=
  { name := "Globals", regIndex := 0, type := .Constant, sizeInBytes := 16,
    variableCount := 1, varMap := [("color", { location := 0, type := .Float4 })],
    shaderMask := shaderMask }

/-- The table entry created for `PerFrame`, with the given shader mask. -/
def perFrameEntry (shaderMask : Nat) : BufferReflection :=
  { name := "PerFrame", regIndex := 0, type := .Constant, sizeInBytes := 32,
    variableCount := 1,
    varMap := [("light.intensity", { location := 16, type := .Float4 }),
               ("light.position", { location := 0, type := .Float4 })],
    shaderMask := shaderMask }

/-- A sampler and two textures bound under the names `gSampler` and `gTex`. -/
def samplerBinding : D3D_SHADER_INPUT_BIND_DESC :=
  ⟨"gSampler", .D3D_SIT_SAMPLER, 0, 1, .D3D_RETURN_TYPE_NONE, .D3D_SRV_DIMENSION_UNKNOWN, 0⟩

/-- The texture `gTex` at register 0 with the given dimension. -/
def textureBinding (dims : D3D_SRV_DIMENSION) : D3D_SHADER_INPUT_BIND_DESC :=
  ⟨"gTex", .D3D_SIT_TEXTURE, 0, 1, .D3D_RETURN_TYPE_FLOAT, dims, 0⟩

/-- A stage without buffers that binds `gTex` with the given dimension and `gSampler`. -/
def textureStage (dims : D3D_SRV_DIMENSION) : ShaderReflection :=
  ⟨0, [], [textureBinding dims, samplerBinding]⟩

/-- The struct `Light` as an array of three elements. -/
def lightArray : ShaderReflectionType :=
  .mk ⟨.D3D_SVC_STRUCT, .D3D_SVT_VOID, 1, 8, 3, 0⟩
    (.cons "position" (float4At 0) (.cons "intensity" (float4At 16) .nil))

/-- The type `struct Scene { float4 ambient; Light lights[3]; }`, the array at offset 16. -/
def sceneStruct : ShaderReflectionType :=
  .mk ⟨.D3D_SVC_STRUCT, .D3D_SVT_VOID, 1, 28, 0, 0⟩
    (.cons "ambient" (float4At 0)
      (.cons "lights"
        (.mk ⟨.D3D_SVC_STRUCT, .D3D_SVT_VOID, 1, 8, 3, 16⟩
          (.cons "position" (float4At 0) (.cons "intensity" (float4At 16) .nil)))
        .nil))

/-- The buffer `Globals` with the single variable `v` at offset 0, a leaf of the
given class, scalar kind, rows and columns. -/
def leafBuffer (cls : D3D_SHADER_VARIABLE_CLASS) (kind : D3D_SHADER_VARIABLE_TYPE)
    (rows columns size : Nat) : ShaderReflectionConstantBuffer :=
  ⟨"Globals", .D3D_CT_CBUFFER, size, [⟨"v", 0, .mk ⟨cls, kind, rows, columns, 0, 0⟩ .nil⟩]⟩

/-- A stage that declares `leafBuffer` at bind point 0 and nothing else. -/
def leafStage (cls : D3D_SHADER_VARIABLE_CLASS) (kind : D3D_SHADER_VARIABLE_TYPE)
    (rows columns size : Nat) : ShaderReflection :=
  ⟨1, [leafBuffer cls kind rows columns size], [cbufferBinding "Globals" 0]⟩

/-- A `float` leaf at the given offset inside its parent. -/
def floatAt (offset : Nat) : ShaderReflectionType :=
  .mk ⟨.D3D_SVC_SCALAR, .D3D_SVT_FLOAT, 1, 1, 0, offset⟩ .nil

/-- The buffer `cbuffer Pair { float a; float b; }` with the given declared size:
`a` at offset 0 and `b` at offset 4. -/
def pairBuffer (size : Nat) : ShaderReflectionConstantBuffer :=
  ⟨"Pair", .D3D_CT_CBUFFER, size, [⟨"a", 0, floatAt 0⟩, ⟨"b", 4, floatAt 0⟩]⟩

/-- The 2D texture `gTex` at register 0 as the driver reports it in the given
register space. -/
def textureBindingInSpace (space : Nat) : D3D_SHADER_INPUT_BIND_DESC :=
  ⟨"gTex", .D3D_SIT_TEXTURE, 0, 1, .D3D_RETURN_TYPE_FLOAT, .D3D_SRV_DIMENSION_TEXTURE2D, space⟩

/-- A stage without buffers that binds `gTex` in the given register space. -/
def textureStageInSpace (space : Nat) : ShaderReflection :=
  ⟨0, [], [textureBindingInSpace space]⟩

/-- The buffer `cbuffer Material { float4 tint; }`, 16 bytes. -/
def materialBuffer : ShaderReflectionConstantBuffer :=
  ⟨"Material", .D3D_CT_CBUFFER, 16, [⟨"tint", 0, float4At 0⟩]⟩

/-- A stage that declares `Material` at the given bind point and nothing else. -/
def materialStage (bindPoint : Nat) : ShaderReflection :=
  ⟨1, [materialBuffer], [cbufferBinding "Material" bindPoint]⟩

/-- The buffer `cbuffer Globals { float color; }`: the name and variable name of
`globalsBuffer` with another variable type. -/
def scalarGlobalsBuffer : ShaderReflectionConstantBuffer :=
  ⟨"Globals", .D3D_CT_CBUFFER, 16, [⟨"color", 0, floatAt 0⟩]⟩

/-- A stage that declares `scalarGlobalsBuffer` at the given bind point. -/
def scalarGlobalsStage (bindPoint : Nat) : ShaderReflection :=
  ⟨1, [scalarGlobalsBuffer], [cbufferBinding "Globals" bindPoint]⟩

/-- An entry of the indexed buffer sequence that is neither a constant nor a
texture buffer (the binding information of a structured resource). -/
def bindInfoBuffer : ShaderReflectionConstantBuffer :=
  ⟨"gParticles", .D3D_CT_RESOURCE_BIND_INFO, 0, []⟩

/-- A stage that reports 2 constant buffers; its indexed sequence is `Globals`,
the entry of another kind, `Material` and `PerFrame`, and only `Globals` and
`Material` are in its binding table. -/
def sparseStage : ShaderReflection :=
  ⟨2, [globalsBuffer, bindInfoBuffer, materialBuffer, perFrameBuffer],
    [cbufferBinding "Globals" 0, cbufferBinding "Material" 1]⟩

/-- The texture buffer `tbuffer Noise { float4 scale; float4 bias; }`, 32 bytes. -/
def noiseBuffer : ShaderReflectionConstantBuffer :=
  ⟨"Noise", .D3D_CT_TBUFFER, 32, [⟨"scale", 0, float4At 0⟩, ⟨"bias", 16, float4At 0⟩]⟩

/-- A stage that declares the texture buffer `Noise` at bind point 0 and nothing else. -/
def noiseStage : ShaderReflection :=
  ⟨1, [noiseBuffer],
    [⟨"Noise", .D3D_SIT_TBUFFER, 0, 1, .D3D_RETURN_TYPE_NONE, .D3D_SRV_DIMENSION_UNKNOWN, 0⟩]⟩

/-! ### Counting the lines of a validation log -/

/-- Whether a line, given by its characters in reverse order, ends in `mismatch.`. -/
def endsInMismatch (revLine : List Char) : Bool :=
  "mismatch.".data.reverse.isPrefixOf revLine

/-- The number of lines ending in `mismatch.` in the rest of a text whose lines
are separated by line breaks; `revLine` holds the characters of the current
line read so far, in reverse order. -/
def countMismatchLinesFrom (revLine : List Char) : List Char → Nat
  | [] => if endsInMismatch revLine then 1 else 0
  | c :: cs =>
    if c = '\n' then
      (if endsInMismatch revLine then 1 else 0) + countMismatchLinesFrom [] cs
    else countMismatchLinesFrom (c :: revLine) cs

/-- The number of lines of `text` that end in `mismatch.`. -/
def countMismatchLines (text : String) : Nat := countMismatchLinesFrom [] text.data

/-- The number of fields among location, array size, array stride, row-major
flag and type on which two variables differ. -/
def differingFields (prevVar curVar : Variable) : Nat :=
  (if prevVar.location ≠ curVar.location then 1 else 0)
    + (if prevVar.arraySize ≠ curVar.arraySize then 1 else 0)
    + (if prevVar.arrayStride ≠ curVar.arrayStride then 1 else 0)
    + (if prevVar.isRowMajor ≠ curVar.isRowMajor then 1 else 0)
    + (if prevVar.type ≠ curVar.type then 1 else 0)

/-- The number of differing (variable, field) pairs over the previous variables
that are present in the new map. -/
def differingPairs (prevMap varMap : VariableMap) : Nat :=
  (prevMap.map (fun prevVar =>
    match varMap.find prevVar.1 with
    | none => 0
    | some curVar => differingFields prevVar.2 curVar)).sum

/-- A text that, read from a position where the current line does not end in
`mismatch.`, contributes `n` lines ending in `mismatch.` and leaves the reader
at such a position again. -/
def writesMismatchLines (text : List Char) (n : Nat) : Prop :=
  ∀ revLine, endsInMismatch revLine = false →
    ∃ revLine1, endsInMismatch revLine1 = false
      ∧ ∀ rest, countMismatchLinesFrom revLine (text ++ rest)
          = n + countMismatchLinesFrom revLine1 rest

/-- A recorded entry of `cbuffer Frame { float4 a; float4 b; float4 c; }`. -/
def frameEntry : BufferReflection :=
  { name := "Frame", regIndex := 0, type := .Constant, sizeInBytes := 48,
    variableCount := 3,
    varMap := [("a", { location := 0, type := .Float4 }),
               ("b", { location := 16, type := .Float4 }),
               ("c", { location := 32, type := .Float4 })] }

/-- The variable map of a later view `cbuffer Frame { float a; float4 c; }` with
`a` at offset 4 and `c` at offset 32. -/
def laterFrameMap : VariableMap :=
  [("a", { location := 4, type := .Float }), ("c", { location := 32, type := .Float4 })]

/-! ## `ShaderStorageBuffer::readBlob` (`Core/OpenGL/ShaderStorageBufferGL.cpp`) -/

/-- The number of values of `size_t`: arithmetic on offsets and sizes of
`ShaderStorageBuffer` wraps around modulo this number. -/
def sizeModulus : Nat := 2 ^ 64

/-- Modelled from the spec: the class is declared in `ShaderStorageBuffer.h` and
`UniformBuffer.h`, which are not among the sources.  The two members are taken
as `readBlob` and `readFromGPU` use them: the buffer size `mSize`, compared
with `size_t` values, and the mutable flag `mGpuCopyDirty`. -/
structure ShaderStorageBuffer where
  mSize : Nat
  mGpuCopyDirty : Bool
deriving DecidableEq, Repr

/-- Source: `ShaderStorageBuffer::readFromGPU`.  The result is the object after
the call and the arguments `(offset, size)` of the call `mpBuffer->readData`,
when it is made.  The test `size == -1` compares with the largest `size_t`. -/
def ShaderStorageBuffer.readFromGPU (self : ShaderStorageBuffer) (offset size : Nat) :
    ShaderStorageBuffer × Option (Nat × Nat) :=
  let size :=
    if size = sizeModulus - 1 then (self.mSize + sizeModulus - offset) % sizeModulus
    else size
  if (size + offset) % sizeModulus > self.mSize then (self, none)
  else if self.mGpuCopyDirty then
    ({ self with mGpuCopyDirty := false }, some (offset, size))
  else (self, none)

/-- Source: `ShaderStorageBuffer::readBlob`, for `offset` and `size` below
`sizeModulus`.  The result is the object after the call and the arguments
`(offset, size)` of `memcpy(pDest, mData.data() + offset, size)` when the copy
is made, `none` when the call is ignored.  The call `readFromGPU()` takes the
default arguments of the declaration in the header, which is not among the
sources; offset 0 and size -1, the value `readFromGPU` tests for, are used.
Whether the copy is made does not depend on them. -/
def ShaderStorageBuffer.readBlob (self : ShaderStorageBuffer) (offset size : Nat) :
    ShaderStorageBuffer × Option (Nat × Nat) :=
  if (size + offset) % sizeModulus > self.mSize then (self, none)
  else
    let r := self.readFromGPU 0 (sizeModulus - 1)
    (r.1, some (offset, size))

/-! ## `getD3DFeatureLevel` (`Core/D3D/D3D12/D3D12Device.cpp`) -/

/-- The enumeration `D3D_FEATURE_LEVEL` of `d3dcommon.h` by its numeric values;
`(D3D_FEATURE_LEVEL)0` is the value 0. -/
abbrev D3D_FEATURE_LEVEL := Nat

/-- The enumerator `D3D_FEATURE_LEVEL_9_1`. -/
def D3D_FEATURE_LEVEL_9_1 : D3D_FEATURE_LEVEL := 0x9100
/-- The enumerator `D3D_FEATURE_LEVEL_9_2`. -/
def D3D_FEATURE_LEVEL_9_2 : D3D_FEATURE_LEVEL := 0x9200
/-- The enumerator `D3D_FEATURE_LEVEL_9_3`. -/
def D3D_FEATURE_LEVEL_9_3 : D3D_FEATURE_LEVEL := 0x9300
/-- The enumerator `D3D_FEATURE_LEVEL_10_0`. -/
def D3D_FEATURE_LEVEL_10_0 : D3D_FEATURE_LEVEL := 0xa000
/-- The enumerator `D3D_FEATURE_LEVEL_10_1`. -/
def D3D_FEATURE_LEVEL_10_1 : D3D_FEATURE_LEVEL := 0xa100
/-- The enumerator `D3D_FEATURE_LEVEL_11_0`. -/
def D3D_FEATURE_LEVEL_11_0 : D3D_FEATURE_LEVEL := 0xb000
/-- The enumerator `D3D_FEATURE_LEVEL_11_1`. -/
def D3D_FEATURE_LEVEL_11_1 : D3D_FEATURE_LEVEL := 0xb100
/-- The enumerator `D3D_FEATURE_LEVEL_12_0`. -/
def D3D_FEATURE_LEVEL_12_0 : D3D_FEATURE_LEVEL := 0xc000
/-- The enumerator `D3D_FEATURE_LEVEL_12_1`. -/
def D3D_FEATURE_LEVEL_12_1 : D3D_FEATURE_LEVEL := 0xc100

/-- Source: `getD3DFeatureLevel`.  A `switch` without a matching case falls
out of the `if` chain to the final `return (D3D_FEATURE_LEVEL)0`. -/
def getD3DFeatureLevel (majorVersion minorVersion : Nat) : D3D_FEATURE_LEVEL :=
  if majorVersion = 12 then
    match minorVersion with
    | 0 => D3D_FEATURE_LEVEL_12_0
    | 1 => D3D_FEATURE_LEVEL_12_1
    | _ => 0
  else if majorVersion = 11 then
    match minorVersion with
    | 0 => D3D_FEATURE_LEVEL_11_1
    | 1 => D3D_FEATURE_LEVEL_11_0
    | _ => 0
  else if majorVersion = 10 then
    match minorVersion with
    | 0 => D3D_FEATURE_LEVEL_10_0
    | 1 => D3D_FEATURE_LEVEL_10_1
    | _ => 0
  else if majorVersion = 9 then
    match minorVersion with
    | 1 => D3D_FEATURE_LEVEL_9_1
    | 2 => D3D_FEATURE_LEVEL_9_2
    | 3 => D3D_FEATURE_LEVEL_9_3
    | _ => 0
  else 0

/-- The pairs `(major, minor)` for which `getD3DFeatureLevel` has a `case`,
each with the value that case returns. -/
def featureLevelCases : List ((Nat × Nat) × D3D_FEATURE_LEVEL) :=
  [((12, 0), D3D_FEATURE_LEVEL_12_0), ((12, 1), D3D_FEATURE_LEVEL_12_1),
   ((11, 0), D3D_FEATURE_LEVEL_11_1), ((11, 1), D3D_FEATURE_LEVEL_11_0),
   ((10, 0), D3D_FEATURE_LEVEL_10_0), ((10, 1), D3D_FEATURE_LEVEL_10_1),
   ((9, 1), D3D_FEATURE_LEVEL_9_1), ((9, 2), D3D_FEATURE_LEVEL_9_2),
   ((9, 3), D3D_FEATURE_LEVEL_9_3)]

/-- A stage that declares `Globals` and `Material`, both at bind point 0. -/
def sharedSlotStage : ShaderReflection :=
  ⟨2, [globalsBuffer, materialBuffer],
    [cbufferBinding "Globals" 0, cbufferBinding "Material" 0]⟩

/-- The type `struct Probe { float4 a; float4 b[3]; }` as an array of two
elements: `a` at offset 0 and the array `b` at offset 16 of an element, which
is 64 bytes long. -/
def probeArray : ShaderReflectionType :=
  .mk ⟨.D3D_SVC_STRUCT, .D3D_SVT_VOID, 1, 16, 2, 0⟩
    (.cons "a" (float4At 0)
      (.cons "b" (.mk ⟨.D3D_SVC_VECTOR, .D3D_SVT_FLOAT, 1, 4, 3, 16⟩ .nil) .nil))

/-- The buffer `cbuffer Probes { Probe probes[2]; }`, 128 bytes. -/
def probesBuffer : ShaderReflectionConstantBuffer :=
  ⟨"Probes", .D3D_CT_CBUFFER, 128, [⟨"probes", 0, probeArray⟩]⟩

/-! ### The calls of `calcStructSize` -/

mutual
/-- Every call `calcStructSize(structVarMap)` made while `reflectType` flattens
the node, in either member loop and at any depth, receives a map whose
`begin()` can be dereferenced.  The scratch map of a struct node depends on its
members only, not on the name or the offset passed to `reflectType`. -/
def reflectType_defined : ShaderReflectionType → Bool
  | .mk typeDesc members =>
    if typeDesc.Class = D3D_SHADER_VARIABLE_CLASS.D3D_SVC_STRUCT then
      reflectMembers_defined members
        && calcStructSize_defined (reflectStructMembers members [])
    else true
/-- The calls of `calcStructSize` made while the members are flattened. -/
def reflectMembers_defined : MemberList → Bool
  | .nil => true
  | .cons _ pMember rest => reflectType_defined pMember && reflectMembers_defined rest
end

/-- Every call of `calcStructSize` made by `initializeBufferVariables` in a build
with assertions is defined: the calls made while the variables are flattened
and the call in `assert(calcStructSize(varMap) == desc.Size)`. -/
def initializeBufferVariables_defined (pReflector : ShaderReflectionConstantBuffer) : Bool :=
  pReflector.variableList.all (fun pVar => reflectType_defined pVar.pType)
    && calcStructSize_defined (initializeBufferVariables pReflector [])

mutual
/-- Every struct node of the type tree has at least one member. -/
def everyStructHasMembers : ShaderReflectionType → Bool
  | .mk typeDesc members =>
    if typeDesc.Class = D3D_SHADER_VARIABLE_CLASS.D3D_SVC_STRUCT then
      (match members with
        | .nil => false
        | .cons _ _ _ => true)
      && everyMemberHasMembers members
    else true
/-- Every struct node below the members has at least one member. -/
def everyMemberHasMembers : MemberList → Bool
  | .nil => true
  | .cons _ pMember rest => everyStructHasMembers pMember && everyMemberHasMembers rest
end

/-- The type `struct Empty { }`, a struct node without members. -/
def emptyStruct : ShaderReflectionType :=
  .mk ⟨.D3D_SVC_STRUCT, .D3D_SVT_VOID, 1, 0, 0, 0⟩ .nil

/-- The buffer `cbuffer Tagged { float4 color; Empty tag; }`, 16 bytes. -/
def taggedBuffer : ShaderReflectionConstantBuffer :=
  ⟨"Tagged", .D3D_CT_CBUFFER, 16, [⟨"color", 0, float4At 0⟩, ⟨"tag", 16, emptyStruct⟩]⟩

/-- A buffer `cbuffer Nothing { }` without variables. -/
def nothingBuffer : ShaderReflectionConstantBuffer :=
  ⟨"Nothing", .D3D_CT_CBUFFER, 0, []⟩

/-! ### The outcome of a reflection pass on the caller's log -/

/-- The two ways a reflection pass ends: it goes on (or returns true) with the
log as it was, or it returns false after appending a message that starts with
`opening`, names one of the `named` declarations and says that it
`has different` bind locations or definitions. -/
def reportsFailure (opening : String) (named : String → Prop) (log : String)
    (go : Bool) (log1 : String) : Prop :=
  (go = true ∧ log1 = log)
  ∨ (go = false ∧ ∃ name : String, named name
      ∧ ∃ rest : String, log1 = log ++ (opening ++ name ++ "' has different " ++ rest))

/-! # Theorems -/

/-! ## `std::string` ordering and `std::map` -/

theorem char_toNat_inj {a b : Char} (h : a.toNat = b.toNat) : a = b := by
  apply Char.ext
  apply UInt32.ext
  exact h

theorem lexLt_irrefl : ∀ a : List Char, lexLt a a = false
  | [] => rfl
  | a :: as => by simp [lexLt, lexLt_irrefl as]

theorem lexLt_trans :
    ∀ a b c : List Char, lexLt a b = true → lexLt b c = true → lexLt a c = true
  | [], [], _ => by simp [lexLt]
  | [], _ :: _, [] => by simp [lexLt]
  | [], _ :: _, _ :: _ => by simp [lexLt]
  | _ :: _, [], _ => by simp [lexLt]
  | _ :: _, _ :: _, [] => by simp [lexLt]
  | a :: as, b :: bs, c :: cs => by
    have ih := lexLt_trans as bs cs
    simp only [lexLt]
    intro h1 h2
    split at h1
    · split at h2
      · rw [if_pos (by omega)]
      · split at h2
        · rw [if_pos (by omega)]
        · simp at h2
    · split at h1
      · split at h2
        · rw [if_pos (by omega)]
        · split at h2
          · rw [if_neg (by omega), if_pos (by omega)]
            exact ih h1 h2
          · simp at h2
      · simp at h1

theorem lexLt_total : ∀ a b : List Char, lexLt a b = false → a ≠ b → lexLt b a = true
  | [], [] => by simp
  | [], _ :: _ => by simp [lexLt]
  | _ :: _, [] => by simp [lexLt]
  | a :: as, b :: bs => by
    have ih := lexLt_total as bs
    simp only [lexLt]
    intro h1 hne
    split at h1
    · simp at h1
    · split at h1
      · rename_i hlt heq
        have hab : a = b := char_toNat_inj heq
        rw [if_neg (by omega), if_pos (by omega)]
        apply ih h1
        intro h
        exact hne (by rw [hab, h])
      · rw [if_pos (by omega)]

theorem lawfulMapKey_string : LawfulMapKey String where
  irrefl a := lexLt_irrefl a.data
  trans a b c := lexLt_trans a.data b.data c.data
  total a b h hne := lexLt_total a.data b.data h (fun hd => hne (String.ext hd))

theorem lawfulMapKey_nat : LawfulMapKey Nat where
  irrefl a := by simp [MapKey.keyLt]
  trans a b c := by simp only [MapKey.keyLt, decide_eq_true_eq]; omega
  total a b := by simp only [MapKey.keyLt, decide_eq_false_iff_not, decide_eq_true_eq]; omega

namespace StdMap

variable {κ α : Type} [DecidableEq κ] [MapKey κ]

theorem find_set_self (m : StdMap κ α) (k : κ) (v : α) : (m.set k v).find k = some v := by
  induction m with
  | nil => simp [set, find]
  | cons a m ih =>
    obtain ⟨k1, v1⟩ := a
    unfold set
    split
    · simp [find]
    · split
      · simp [find]
      · rename_i hne
        simp [find, hne, ih]

theorem find_set_of_ne (m : StdMap κ α) (k k' : κ) (v : α) (h : k' ≠ k) :
    (m.set k v).find k' = m.find k' := by
  induction m with
  | nil => simp [set, find, h]
  | cons a m ih =>
    obtain ⟨k1, v1⟩ := a
    unfold set
    split
    · simp [find, h]
    · split
      · rename_i heq
        subst heq
        simp [find, h]
      · simp [find, ih]

theorem mem_set (m : StdMap κ α) (k : κ) (v : α) (a : κ × α) (h : a ∈ m.set k v) :
    a = (k, v) ∨ a ∈ m := by
  induction m with
  | nil => simpa [set] using h
  | cons b m ih =>
    obtain ⟨k1, v1⟩ := b
    unfold set at h
    split at h
    · simpa using h
    · split at h
      · rcases List.mem_cons.1 h with h | h
        · exact Or.inl h
        · exact Or.inr (List.mem_cons_of_mem _ h)
      · rcases List.mem_cons.1 h with h | h
        · exact Or.inr (h ▸ List.mem_cons_self _ _)
        · rcases ih h with h | h
          · exact Or.inl h
          · exact Or.inr (List.mem_cons_of_mem _ h)

theorem sorted_set (hκ : LawfulMapKey κ) (m : StdMap κ α) (k : κ) (v : α) (hm : m.Sorted) :
    (m.set k v).Sorted := by
  induction m with
  | nil => simp [set, Sorted]
  | cons b m ih =>
    obtain ⟨k1, v1⟩ := b
    have hm' := List.pairwise_cons.1 hm
    unfold set
    split
    · rename_i hlt
      refine List.pairwise_cons.2 ⟨?_, hm⟩
      intro a ha
      rcases List.mem_cons.1 ha with ha | ha
      · rw [ha]; exact hlt
      · exact hκ.trans _ _ _ hlt (hm'.1 a ha)
    · split
      · rename_i heq
        subst heq
        exact List.pairwise_cons.2 ⟨hm'.1, hm'.2⟩
      · rename_i hnlt hne
        refine List.pairwise_cons.2 ⟨?_, ih hm'.2⟩
        intro a ha
        rcases mem_set m k v a ha with ha | ha
        · rw [ha]
          exact hκ.total _ _ (by simpa using hnlt) hne
        · exact hm'.1 a ha

end StdMap

/-! ## `calcStructSize` -/

theorem calcStructSize_foldl_le (l : List (String × Variable)) :
    ∀ acc : Nat × VariableType, (∀ a ∈ l, a.2.location ≤ acc.1) →
      l.foldl calcStructSizeStep acc = acc := by
  induction l with
  | nil => intro acc _; rfl
  | cons a l ih =>
    intro acc h
    have ha : a.2.location ≤ acc.1 := h a (List.mem_cons_self _ _)
    have hstep : calcStructSizeStep acc a = acc := by
      unfold calcStructSizeStep
      rw [if_neg (by omega)]
    rw [List.foldl_cons, hstep]
    exact ih acc (fun b hb => h b (List.mem_cons_of_mem _ hb))

theorem calcStructSize_foldl_max (m : Nat) (e : String × Variable)
    (l : List (String × Variable)) :
    ∀ acc : Nat × VariableType, acc.1 < m → (∀ a ∈ l, a.2.location ≤ m) →
      l.find? (fun a => a.2.location == m) = some e →
      l.foldl calcStructSizeStep acc = (m, e.2.type) := by
  induction l with
  | nil => intro acc _ _ h; simp at h
  | cons a l ih =>
    intro acc hacc hle hfind
    have hal : ∀ b ∈ l, b.2.location ≤ m := fun b hb => hle b (List.mem_cons_of_mem _ hb)
    rw [List.foldl_cons]
    by_cases ham : a.2.location = m
    · have hea : e = a := by
        rw [List.find?_cons_of_pos _ (by simp [ham])] at hfind
        exact (Option.some.inj hfind).symm
      have hstep : calcStructSizeStep acc a = (m, a.2.type) := by
        unfold calcStructSizeStep
        rw [if_pos (by omega), ham]
      rw [hstep, hea]
      exact calcStructSize_foldl_le l (m, a.2.type) hal
    · rw [List.find?_cons_of_neg _ (by simp [ham])] at hfind
      have hlt : a.2.location < m :=
        lt_of_le_of_ne (hle a (List.mem_cons_self _ _)) ham
      refine ih _ ?_ hal hfind
      unfold calcStructSizeStep
      split
      · exact hlt
      · exact hacc

/-- The value of `calcStructSize` in terms of the largest location `m` and the
first entry `e` (in iteration order) stored at `m`. -/
theorem calcStructSize_eq_of_max (varMap : VariableMap) (m : Nat) (e : String × Variable)
    (hmax : ∀ a ∈ varMap, a.2.location ≤ m)
    (hfirst : varMap.find? (fun a => a.2.location == m) = some e)
    (hpos : 0 < m) :
    calcStructSize varMap = m + 16 * getRowCountFromType e.2.type := by
  unfold calcStructSize
  simp only []
  rw [calcStructSize_foldl_max m e varMap _ hpos hmax hfirst]
  simp only [gt_iff_lt, hpos, if_true]
  omega

theorem find?_eq_of_sorted_least {κ α : Type} [MapKey κ] (hκ : LawfulMapKey κ)
    (p : κ × α → Bool) (e : κ × α) (l : StdMap κ α) (hsorted : l.Sorted)
    (hmem : e ∈ l) (hp : p e = true)
    (hleast : ∀ a ∈ l, p a = true → a = e ∨ MapKey.keyLt e.1 a.1 = true) :
    l.find? p = some e := by
  induction l with
  | nil => simp at hmem
  | cons a l ih =>
    have hs := List.pairwise_cons.1 hsorted
    by_cases hpa : p a = true
    · rw [List.find?_cons_of_pos _ hpa]
      rcases hleast a (List.mem_cons_self _ _) hpa with h | h
      · rw [h]
      · exfalso
        rcases List.mem_cons.1 hmem with h' | h'
        · rw [h', hκ.irrefl] at h
          exact Bool.false_ne_true h
        · have h1 := hκ.trans _ _ _ h (hs.1 e h')
          rw [hκ.irrefl] at h1
          exact Bool.false_ne_true h1
    · rw [List.find?_cons_of_neg _ hpa]
      have hne : e ≠ a := fun h => hpa (h ▸ hp)
      have hmem' : e ∈ l := by
        rcases List.mem_cons.1 hmem with h | h
        · exact absurd h hne
        · exact h
      exact ih hs.2 hmem' (fun b hb => hleast b (List.mem_cons_of_mem _ hb))

/-- C7: for a variable map (ascending names) whose largest location `m` is
positive, `calcStructSize` returns `m + 16 * rows(t)`, where `t` is the type of
the entry `e` stored at `m` that comes first in name order, and `rows` is 1 on
the scalar and vector types and `r` on the `r`-by-`c` float matrices; nothing
else of the map enters the result. -/
theorem calcStructSize_max_location (varMap : VariableMap) (m : Nat) (e : String × Variable)
    (hsorted : StdMap.Sorted varMap)
    (hmem : e ∈ varMap) (hloc : e.2.location = m)
    (hmax : ∀ a ∈ varMap, a.2.location ≤ m)
    (hfirst : ∀ a ∈ varMap, a.2.location = m → a = e ∨ strLt e.1 a.1 = true)
    (hpos : 0 < m) :
    calcStructSize varMap = m + 16 * getRowCountFromType e.2.type
    ∧ (∀ t ∈ [VariableType.Bool, .Bool2, .Bool3, .Bool4, .Uint, .Uint2, .Uint3, .Uint4,
          .Int, .Int2, .Int3, .Int4, .Float, .Float2, .Float3, .Float4],
        getRowCountFromType t = 1)
    ∧ (∀ t ∈ [VariableType.Float2x2, .Float2x3, .Float2x4], getRowCountFromType t = 2)
    ∧ (∀ t ∈ [VariableType.Float3x2, .Float3x3, .Float3x4], getRowCountFromType t = 3)
    ∧ (∀ t ∈ [VariableType.Float4x2, .Float4x3, .Float4x4], getRowCountFromType t = 4) := by
  refine ⟨?_, by decide, by decide, by decide, by decide⟩
  apply calcStructSize_eq_of_max varMap m e hmax _ hpos
  apply find?_eq_of_sorted_least lawfulMapKey_string _ e varMap hsorted hmem
  · simp [hloc]
  · intro a ha hpa
    exact hfirst a ha (by simpa using hpa)

/-- Witness of C7: a `float4` at 0, a `float2x2` and a `float4x4` both at 16;
the entry named `b` decides, the size is 16 + 2 * 16. -/
theorem calcStructSize_max_location_witness :
    calcStructSize
        [("a", { location := 0, type := .Float4 }),
         ("b", { location := 16, type := .Float2x2 }),
         ("c", { location := 16, arraySize := 3, isRowMajor := true, type := .Float4x4 })]
      = 48 :=
  (calcStructSize_max_location
    [("a", { location := 0, type := .Float4 }),
     ("b", { location := 16, type := .Float2x2 }),
     ("c", { location := 16, arraySize := 3, isRowMajor := true, type := .Float4x4 })]
    16 ("b", { location := 16, type := .Float2x2 })
    (by decide) (by decide) rfl (by decide) (by decide) (by decide)).1

/-- C8: on a map in which every location is 0 the loop of `calcStructSize`
never raises `maxOffset`, and the function returns 0, not the footprint of the
entry: 0 for a single `float4` at offset 0 (footprint 16) and for a single
`float` (footprint 4).  The assertion of `initializeBufferVariables` on the
16-byte buffer `Globals` is therefore false. -/
theorem calcStructSize_all_zero_locations :
    calcStructSize [("color", { location := 0, type := .Float4 })] = 0
    ∧ calcStructSize [("x", { location := 0, type := .Float })] = 0
    ∧ initializeBufferVariables globalsBuffer [] = [("color", { location := 0, type := .Float4 })]
    ∧ initializeBufferVariables_assert globalsBuffer = false := by
  decide

/-! ## `reflectBuffers` on the scenarios -/

theorem reflectBuffersFrom_inactive (n : Nat) :
    ∀ (shader : Nat) (self : ProgramReflection) (log : String),
      reflectBuffersFrom (List.replicate n none) shader self log = some (true, self, log) := by
  induction n with
  | zero => intro shader self log; rfl
  | succ n ih =>
    intro shader self log
    rw [List.replicate_succ, reflectBuffersFrom]
    exact ih _ _ _

/-- C1: the buffer `PerFrame`, whose only variable is a struct of two members,
is accepted when one stage declares it, and is rejected when the vertex and the
fragment stage declare it identically: its recorded variable count is the
declared count 1, the flattened map of the second declaration has 2 entries, and
the variable-count check of `validateBufferDeclaration` compares the two. -/
theorem reflectBuffers_identical_struct_buffers :
    perFrameStage.GetResourceBindingDescByName "PerFrame" = some (cbufferBinding "PerFrame" 0)
    ∧ reflectBuffer_assert perFrameStage perFrameBuffer = true
    ∧ reflectBuffers [some perFrameStage] {} ""
        = some (true,
            { mBuffersConstant :=
                { descMap := [(0, perFrameEntry 1)], nameMap := [("PerFrame", 0)] } },
            "")
    ∧ reflectBuffers [some perFrameStage, some perFrameStage] {} ""
        = some (false,
            { mBuffersConstant :=
                { descMap := [(0, perFrameEntry 1)], nameMap := [("PerFrame", 0)] } },
            "Constant buffer 'PerFrame' has different definitions between different shader stages. Variable count mismatch.\n") := by
  decide

/-- C2: in the scenario of two stages declaring `Globals` (bind point 0, 16
bytes, one `float4` named `color` at offset 0) the size check of
`initializeBufferVariables` does not hold, because `calcStructSize` of the
flattened map is 0; with the assertions compiled out `reflectBuffers` returns
true, the table has the single entry with bind point 0, variable count 1, size 16
and mask `1 ||| 2`, and the log stays empty, whatever the number of further
inactive stages. -/
theorem reflectBuffers_globals_scenario (n : Nat) :
    calcStructSize (initializeBufferVariables globalsBuffer []) = 0
    ∧ globalsBuffer.Size = 16
    ∧ initializeBufferVariables_assert globalsBuffer = false
    ∧ reflectBuffer_assert (globalsStage 0) globalsBuffer = false
    ∧ reflectBuffers (some (globalsStage 0) :: some (globalsStage 0) :: List.replicate n none)
          {} ""
        = some (true,
            { mBuffersConstant :=
                { descMap := [(0, globalsEntry ((1 <<< 0) ||| (1 <<< 1)))],
                  nameMap := [("Globals", 0)] } },
            "") := by
  refine ⟨by decide, by decide, by decide, by decide, ?_⟩
  have h2 : reflectBuffers [some (globalsStage 0), some (globalsStage 0)] {} ""
      = some (true,
          { mBuffersConstant :=
              { descMap := [(0, globalsEntry ((1 <<< 0) ||| (1 <<< 1)))],
                nameMap := [("Globals", 0)] } },
          "") := by decide
  have h1 : reflectStageBuffers (globalsStage 0) 0 0 (globalsStage 0).constantBuffers {} ""
      = some (true,
          { mBuffersConstant :=
              { descMap := [(0, globalsEntry 1)], nameMap := [("Globals", 0)] } },
          "") := by decide
  have h3 : reflectStageBuffers (globalsStage 0) 1 0 (globalsStage 0).constantBuffers
        { mBuffersConstant :=
            { descMap := [(0, globalsEntry 1)], nameMap := [("Globals", 0)] } } ""
      = some (true,
          { mBuffersConstant :=
              { descMap := [(0, globalsEntry ((1 <<< 0) ||| (1 <<< 1)))],
                nameMap := [("Globals", 0)] } },
          "") := by decide
  unfold reflectBuffers
  rw [reflectBuffersFrom, h1]
  simp only []
  rw [reflectBuffersFrom, h3]
  simp only []
  exact reflectBuffersFrom_inactive n _ _ _

/-- C4: the vertex stage declares `Globals` with the variable `color`, the
fragment stage declares `Globals` at the same bind point with the variable
`tint`; `reflectBuffers` returns true although the two flattened variable maps
have different names. -/
theorem reflectBuffers_accepts_different_variable_names :
    reflectBuffers [some (globalsStage 0), some (tintStage 0)] {} ""
        = some (true,
            { mBuffersConstant :=
                { descMap := [(0, globalsEntry 3)], nameMap := [("Globals", 0)] } },
            "")
    ∧ initializeBufferVariables globalsBuffer [] = [("color", { location := 0, type := .Float4 })]
    ∧ initializeBufferVariables tintBuffer [] = [("tint", { location := 0, type := .Float4 })]
    ∧ StdMap.find (initializeBufferVariables tintBuffer []) "color" = none := by
  decide

/-- C6: the check that the previous variable `color` exists in the new map
fails, and `validateBufferDeclaration` still returns true; the missing name is
written to the log only. -/
theorem validateBufferDeclaration_missing_name :
    StdMap.find (initializeBufferVariables tintBuffer []) "color" = none
    ∧ validateBufferDeclaration (globalsEntry 1) (initializeBufferVariables tintBuffer []) ""
        = (true, "Can't find variable 'color' in the new definitions") := by
  decide

/-! ## The loops of `reflectBuffers` -/

theorem reflectBuffersFrom_append_inv (pre rest : List (Option ShaderReflection)) :
    ∀ (shader : Nat) (self0 : ProgramReflection) (log0 : String)
      (self : ProgramReflection) (log : String),
      reflectBuffersFrom (pre ++ rest) shader self0 log0 = some (true, self, log) →
      ∃ self1 log1, reflectBuffersFrom pre shader self0 log0 = some (true, self1, log1)
        ∧ reflectBuffersFrom rest (shader + pre.length) self1 log1 = some (true, self, log) := by
  induction pre with
  | nil =>
    intro shader self0 log0 self log h
    exact ⟨self0, log0, rfl, by simpa using h⟩
  | cons st pre ih =>
    intro shader self0 log0 self log h
    cases st with
    | none =>
      rw [List.cons_append, reflectBuffersFrom] at h
      obtain ⟨self1, log1, h1, h2⟩ := ih _ _ _ _ _ h
      refine ⟨self1, log1, ?_, ?_⟩
      · rw [reflectBuffersFrom]; exact h1
      · rw [List.length_cons, ← h2]; congr 1; omega
    | some pReflection =>
      rw [List.cons_append, reflectBuffersFrom] at h
      rw [reflectBuffersFrom]
      rcases hst : reflectStageBuffers pReflection shader 0 pReflection.constantBuffers
          self0 log0 with _ | ⟨go, selfA, logA⟩
      · rw [hst] at h; simp at h
      · rw [hst] at h
        cases go with
        | false => simp at h
        | true =>
          simp only [] at h ⊢
          obtain ⟨self1, log1, h1, h2⟩ := ih _ _ _ _ _ h
          refine ⟨self1, log1, h1, ?_⟩
          rw [List.length_cons, ← h2]; congr 1; omega

theorem reflectBuffersFrom_append (pre rest : List (Option ShaderReflection)) :
    ∀ (shader : Nat) (self0 : ProgramReflection) (log0 : String)
      (self1 : ProgramReflection) (log1 : String),
      reflectBuffersFrom pre shader self0 log0 = some (true, self1, log1) →
      reflectBuffersFrom (pre ++ rest) shader self0 log0
        = reflectBuffersFrom rest (shader + pre.length) self1 log1 := by
  induction pre with
  | nil =>
    intro shader self0 log0 self1 log1 h
    simp only [reflectBuffersFrom, Option.some.injEq, Prod.mk.injEq, true_and] at h
    simp [h.1, h.2]
  | cons st pre ih =>
    intro shader self0 log0 self1 log1 h
    cases st with
    | none =>
      rw [reflectBuffersFrom] at h
      rw [List.cons_append, reflectBuffersFrom, ih _ _ _ _ _ h, List.length_cons]
      congr 1; omega
    | some pReflection =>
      rw [reflectBuffersFrom] at h
      rw [List.cons_append, reflectBuffersFrom]
      rcases hst : reflectStageBuffers pReflection shader 0 pReflection.constantBuffers
          self0 log0 with _ | ⟨go, selfA, logA⟩
      · rw [hst] at h; simp at h
      · rw [hst] at h
        cases go with
        | false => simp at h
        | true =>
          simp only [] at h ⊢
          rw [ih _ _ _ _ _ h, List.length_cons]
          congr 1; omega

theorem reflectStageBuffers_done (pReflection : ShaderReflection) (shader found : Nat)
    (buffers : List ShaderReflectionConstantBuffer) (self : ProgramReflection) (log : String)
    (h : ¬ found < pReflection.ConstantBuffers) :
    reflectStageBuffers pReflection shader found buffers self log = some (true, self, log) := by
  cases buffers <;> simp [reflectStageBuffers, h]

theorem reflectBuffer_congr (pReflection pCut : ShaderReflection)
    (hbr : pCut.boundResources = pReflection.boundResources) (shader : Nat)
    (pBuffer : ShaderReflectionConstantBuffer) (self : ProgramReflection) (log : String) :
    reflectBuffer pCut shader pBuffer self log
      = reflectBuffer pReflection shader pBuffer self log := by
  unfold reflectBuffer ShaderReflection.GetResourceBindingDescByName
  rw [hbr]

theorem reflectStageBuffers_append (pReflection pCut : ShaderReflection)
    (hbr : pCut.boundResources = pReflection.boundResources) (shader : Nat)
    (before : List ShaderReflectionConstantBuffer) :
    ∀ (found : Nat) (self : ProgramReflection) (log : String)
      (s : ProgramReflection) (l : String) (tail : List ShaderReflectionConstantBuffer),
      pCut.ConstantBuffers = found + before.countP isBufferKind →
      reflectStageBuffers pCut shader found before self log = some (true, s, l) →
      found + before.countP isBufferKind < pReflection.ConstantBuffers →
      reflectStageBuffers pReflection shader found (before ++ tail) self log
        = reflectStageBuffers pReflection shader (found + before.countP isBufferKind) tail s l := by
  induction before with
  | nil =>
    intro found self log s l tail hlim hrun _
    rw [reflectStageBuffers_done _ _ _ _ _ _ (by simp [hlim])] at hrun
    simp only [Option.some.injEq, Prod.mk.injEq, true_and] at hrun
    simp [hrun.1, hrun.2]
  | cons b before ih =>
    intro found self log s l tail hlim hrun hlt
    by_cases hb : isBufferKind b = true
    · have hcount : (b :: before).countP isBufferKind = before.countP isBufferKind + 1 :=
        List.countP_cons_of_pos _ _ hb
      have hb' : b.Type_ = D3D_CBUFFER_TYPE.D3D_CT_TBUFFER
          ∨ b.Type_ = D3D_CBUFFER_TYPE.D3D_CT_CBUFFER := by simpa [isBufferKind] using hb
      rw [hcount] at hlim hlt ⊢
      rw [reflectStageBuffers, if_pos (by omega), if_pos hb',
        reflectBuffer_congr pReflection pCut hbr] at hrun
      rw [List.cons_append, reflectStageBuffers, if_pos (by omega), if_pos hb']
      rcases hrb : reflectBuffer pReflection shader b self log with _ | ⟨go, selfA, logA⟩
      · rw [hrb] at hrun; simp at hrun
      · rw [hrb] at hrun
        cases go with
        | false => simp at hrun
        | true =>
          have := ih (found + 1) selfA logA s l tail (by omega) hrun (by omega)
          show reflectStageBuffers pReflection shader (found + 1) (before ++ tail) selfA logA = _
          rw [this]
          congr 1; omega
    · have hcount : (b :: before).countP isBufferKind = before.countP isBufferKind :=
        List.countP_cons_of_neg _ _ hb
      have hb' : ¬ (b.Type_ = D3D_CBUFFER_TYPE.D3D_CT_TBUFFER
          ∨ b.Type_ = D3D_CBUFFER_TYPE.D3D_CT_CBUFFER) := by simpa [isBufferKind] using hb
      rw [hcount] at hlim hlt ⊢
      rw [List.cons_append, reflectStageBuffers, if_pos (by omega), if_neg hb']
      apply ih found self log s l tail hlim _ hlt
      by_cases hfl : found < pCut.ConstantBuffers
      · rw [reflectStageBuffers, if_pos hfl, if_neg hb'] at hrun
        exact hrun
      · rw [reflectStageBuffers_done _ _ _ _ _ _ hfl] at hrun
        rw [reflectStageBuffers_done _ _ _ _ _ _ hfl]
        exact hrun

/-- The body of the probe loop on a declaration whose name is in the name index
at another bind point. -/
theorem reflectBuffer_bind_conflict (pReflection : ShaderReflection) (shader : Nat)
    (pBuffer : ShaderReflectionConstantBuffer) (self : ProgramReflection) (log : String)
    (bindDesc : D3D_SHADER_INPUT_BIND_DESC) (b : Nat)
    (hbind : pReflection.GetResourceBindingDescByName pBuffer.Name = some bindDesc)
    (hname : (self.mBuffers
        (if pBuffer.Type_ = D3D_CBUFFER_TYPE.D3D_CT_CBUFFER then BufferType.Constant
          else BufferType.UnorderedAccess)).nameMap.find pBuffer.Name = some b)
    (hne : bindDesc.BindPoint ≠ b) :
    reflectBuffer pReflection shader pBuffer self log
      = some (false, self, log ++ ("Constant buffer '" ++ pBuffer.Name ++ "' has different bind locations between different shader stages. Falcor do not support that. Use explicit bind locations to avoid this error")) := by
  unfold reflectBuffer
  rw [hbind]
  simp only []
  rw [hname]
  simp only []
  rw [if_pos hne]

/-- C3: a program is cut right before one buffer declaration of a stage, and the
cut program is accepted with table `self` and log `log`.  When the name of that
declaration is in the name index of `self` at a bind point `b` and the
declaration's bind point differs from `b`, `reflectBuffers` on the whole program
returns false, and the table it leaves is `self`: the name index and every
entry (name, bind point, size, variable count, variable map, shader mask) are
as they were before the declaration was processed. -/
theorem reflectBuffers_bind_point_conflict
    (pre post : List (Option ShaderReflection)) (pReflection : ShaderReflection)
    (before after : List ShaderReflectionConstantBuffer)
    (pBuffer : ShaderReflectionConstantBuffer) (bindDesc : D3D_SHADER_INPUT_BIND_DESC)
    (b : Nat) (self0 self : ProgramReflection) (log0 log : String)
    (hsplit : pReflection.constantBuffers = before ++ pBuffer :: after)
    (hkind : isBufferKind pBuffer = true)
    (hreach : before.countP isBufferKind < pReflection.ConstantBuffers)
    (hbind : pReflection.GetResourceBindingDescByName pBuffer.Name = some bindDesc)
    (hcut : reflectBuffers (pre ++ [some (pReflection.cutAt before)]) self0 log0
      = some (true, self, log))
    (hname : (self.mBuffers
        (if pBuffer.Type_ = D3D_CBUFFER_TYPE.D3D_CT_CBUFFER then BufferType.Constant
          else BufferType.UnorderedAccess)).nameMap.find pBuffer.Name = some b)
    (hne : bindDesc.BindPoint ≠ b) :
    reflectBuffers (pre ++ some pReflection :: post) self0 log0
      = some (false, self, log ++ ("Constant buffer '" ++ pBuffer.Name ++ "' has different bind locations between different shader stages. Falcor do not support that. Use explicit bind locations to avoid this error")) := by
  unfold reflectBuffers at hcut ⊢
  obtain ⟨self1, log1, hpre, hlast⟩ := reflectBuffersFrom_append_inv _ _ _ _ _ _ _ hcut
  rw [reflectBuffersFrom_append _ _ _ _ _ _ _ hpre, reflectBuffersFrom, hsplit]
  rw [reflectBuffersFrom] at hlast
  have hstage : reflectStageBuffers (pReflection.cutAt before) (0 + pre.length) 0 before
      self1 log1 = some (true, self, log) := by
    rcases hst : reflectStageBuffers (pReflection.cutAt before) (0 + pre.length) 0
        (pReflection.cutAt before).constantBuffers self1 log1 with _ | ⟨go, selfA, logA⟩
    · rw [hst] at hlast; simp at hlast
    · rw [hst] at hlast
      cases go with
      | false => simp at hlast
      | true =>
        simp only [reflectBuffersFrom, Option.some.injEq, Prod.mk.injEq, true_and] at hlast
        rw [← hlast.1, ← hlast.2]
        exact hst
  rw [reflectStageBuffers_append pReflection (pReflection.cutAt before) rfl _ before 0
    self1 log1 self log (pBuffer :: after) (by simp [ShaderReflection.cutAt]) hstage
    (by omega)]
  have hkind' : pBuffer.Type_ = D3D_CBUFFER_TYPE.D3D_CT_TBUFFER
      ∨ pBuffer.Type_ = D3D_CBUFFER_TYPE.D3D_CT_CBUFFER := by
    simpa [isBufferKind] using hkind
  rw [reflectStageBuffers, if_pos (by omega), if_pos hkind',
    reflectBuffer_bind_conflict pReflection _ pBuffer self log bindDesc b hbind hname hne]

/-- Witness of C3: the vertex stage declares `Globals` at bind point 0, the
fragment stage declares it at bind point 2. -/
theorem reflectBuffers_bind_point_conflict_witness :
    reflectBuffers [some (globalsStage 0), some (globalsStage 2)] {} ""
      = some (false,
          { mBuffersConstant :=
              { descMap := [(0, globalsEntry 1)], nameMap := [("Globals", 0)] } },
          "" ++ ("Constant buffer '" ++ globalsBuffer.Name ++ "' has different bind locations between different shader stages. Falcor do not support that. Use explicit bind locations to avoid this error")) :=
  reflectBuffers_bind_point_conflict [some (globalsStage 0)] [] (globalsStage 2)
    [] [] globalsBuffer (cbufferBinding "Globals" 2) 0 {}
    { mBuffersConstant := { descMap := [(0, globalsEntry 1)], nameMap := [("Globals", 0)] } }
    "" "" rfl (by decide) (by decide) (by decide) (by decide) (by decide) (by decide)

/-! ## `reflectResources` -/

theorem verifyResourceDefinition_true_iff (prev current : Resource) (log : String) :
    (verifyResourceDefinition prev current log).1 = true
      ↔ resourceKey prev = resourceKey current := by
  unfold verifyResourceDefinition test_resource_field resourceKey
  by_cases h1 : prev.type = current.type <;>
  by_cases h2 : prev.dims = current.dims <;>
  by_cases h3 : prev.retType = current.retType <;>
  by_cases h4 : prev.regIndex = current.regIndex <;>
  by_cases h5 : prev.registerSpace = current.registerSpace <;>
  by_cases h6 : prev.arraySize = current.arraySize <;>
  simp [h1, h2, h3, h4, h5, h6]

theorem find_updateResourceMask (T : ResourceMap) (name : String) (shader : Nat)
    (n : String) :
    (StdMap.find (updateResourceMask T name shader) n).map resourceKey
      = if n = name then some (resourceKey ((StdMap.find T name).getD {}))
        else (StdMap.find T n).map resourceKey := by
  unfold updateResourceMask
  by_cases h : n = name
  · subst h
    rw [StdMap.find_set_self, if_pos rfl]
    rfl
  · rw [StdMap.find_set_of_ne _ _ _ _ h, if_neg h]

theorem bindingsAgree_of_track (T : ResourceMap) (l : List D3D_SHADER_INPUT_BIND_DESC)
    (h : resourcesTrack T l) : bindingsAgree l := by
  intro d1 h1 d2 h2 hn
  obtain ⟨r1, hr1, hk1⟩ := (h d1.Name).2 d1 h1 rfl
  obtain ⟨r2, hr2, hk2⟩ := (h d1.Name).2 d2 h2 hn.symm
  rw [hr1] at hr2
  rw [← hk1, ← hk2, Option.some.inj hr2]

theorem bindingsAgree_mono (l l' : List D3D_SHADER_INPUT_BIND_DESC)
    (hsub : ∀ d ∈ l, d ∈ l') (h : bindingsAgree l') : bindingsAgree l :=
  fun d1 h1 d2 h2 hn => h d1 (hsub d1 h1) d2 (hsub d2 h2) hn

theorem resourcesTrack_of_find (T T' : ResourceMap) (l : List D3D_SHADER_INPUT_BIND_DESC)
    (d : D3D_SHADER_INPUT_BIND_DESC) (h : resourcesTrack T l)
    (hfind : ∀ n, (StdMap.find T' n).map resourceKey
      = if n = d.Name then some (resourceKey (makeResource d))
        else (StdMap.find T n).map resourceKey)
    (hold : ∀ r, StdMap.find T d.Name = some r → resourceKey r = resourceKey (makeResource d)) :
    resourcesTrack T' (l ++ [d]) := by
  intro n
  have hf := hfind n
  by_cases hn : n = d.Name
  · rw [if_pos hn] at hf
    constructor
    · intro r hr
      rw [hr] at hf
      exact ⟨d, by simp, hn.symm, (Option.some.inj hf).symm⟩
    · intro d' _ _
      rcases hT' : StdMap.find T' n with _ | r
      · rw [hT'] at hf; simp at hf
      · rw [hT'] at hf
        refine ⟨r, rfl, ?_⟩
        rw [Option.some.inj hf]
        rcases List.mem_append.1 ‹d' ∈ l ++ [d]› with hd' | hd'
        · obtain ⟨r0, hr0, hk0⟩ := (h n).2 d' hd' ‹d'.Name = n›
          rw [hn] at hr0
          rw [← hk0, hold r0 hr0]
        · rw [List.mem_singleton.1 hd']
  · rw [if_neg hn] at hf
    constructor
    · intro r hr
      rw [hr] at hf
      rcases hT : StdMap.find T n with _ | r0
      · rw [hT] at hf; simp at hf
      · rw [hT] at hf
        obtain ⟨d0, hd0, hn0, hk0⟩ := (h n).1 r0 hT
        refine ⟨d0, List.mem_append_left _ hd0, hn0, ?_⟩
        rw [hk0]
        exact (Option.some.inj hf).symm
    · intro d' hd' hdn
      rcases List.mem_append.1 hd' with hd' | hd'
      · obtain ⟨r0, hr0, hk0⟩ := (h n).2 d' hd' hdn
        rw [hr0] at hf
        rcases hT' : StdMap.find T' n with _ | r
        · rw [hT'] at hf; simp at hf
        · rw [hT'] at hf
          exact ⟨r, rfl, by rw [Option.some.inj hf, hk0]⟩
      · rw [List.mem_singleton.1 hd'] at hdn
        exact absurd hdn.symm hn

theorem reflectResource_skip (shader : Nat) (d : D3D_SHADER_INPUT_BIND_DESC)
    (T : ResourceMap) (log : String) (hd : isResourceBinding d = false) :
    reflectResource shader d T log = (true, T, log) := by
  unfold reflectResource
  rw [if_pos (by simpa [isResourceBinding] using hd)]

theorem reflectResource_spec (shader : Nat) (d : D3D_SHADER_INPUT_BIND_DESC)
    (T : ResourceMap) (log : String) (l : List D3D_SHADER_INPUT_BIND_DESC)
    (hd : isResourceBinding d = true) (h : resourcesTrack T l) :
    ((reflectResource shader d T log).1 = true
      ∧ resourcesTrack (reflectResource shader d T log).2.1 (l ++ [d]))
    ∨ ((reflectResource shader d T log).1 = false
      ∧ ∃ d0 ∈ l, d0.Name = d.Name
        ∧ resourceKey (makeResource d0) ≠ resourceKey (makeResource d)) := by
  have hd' : ¬ d.Type_ = D3D_SHADER_INPUT_TYPE.D3D_SIT_CBUFFER := by
    simpa [isResourceBinding] using hd
  unfold reflectResource
  rw [if_neg hd']
  simp only []
  rcases hfind : StdMap.find T d.Name with _ | prev
  · left
    refine ⟨rfl, ?_⟩
    apply resourcesTrack_of_find T _ l d h
    · intro n
      rw [find_updateResourceMask]
      by_cases hn : n = d.Name
      · rw [if_pos hn, if_pos hn, StdMap.find_set_self]
        rfl
      · rw [if_neg hn, if_neg hn, StdMap.find_set_of_ne _ _ _ _ hn]
    · intro r hr
      rw [hfind] at hr
      exact absurd hr (by simp)
  · simp only []
    by_cases hv : (verifyResourceDefinition prev (makeResource d) "").1 = true
    · rw [if_neg (by simp [hv])]
      have hk := (verifyResourceDefinition_true_iff _ _ _).1 hv
      left
      refine ⟨rfl, ?_⟩
      apply resourcesTrack_of_find T _ l d h
      · intro n
        rw [find_updateResourceMask]
        by_cases hn : n = d.Name
        · rw [if_pos hn, if_pos hn, hfind]
          simp [hk]
        · rw [if_neg hn, if_neg hn]
      · intro r hr
        rw [hfind] at hr
        rw [← Option.some.inj hr]
        exact hk
    · rw [if_pos (by simpa using hv)]
      right
      refine ⟨rfl, ?_⟩
      obtain ⟨d0, hd0, hn0, hk0⟩ := (h d.Name).1 prev hfind
      refine ⟨d0, hd0, hn0, ?_⟩
      rw [hk0]
      intro hk
      exact hv ((verifyResourceDefinition_true_iff _ _ _).2 hk)

theorem reflectStageResources_spec (shader : Nat) (L : List D3D_SHADER_INPUT_BIND_DESC) :
    ∀ (T : ResourceMap) (log : String) (l : List D3D_SHADER_INPUT_BIND_DESC),
      resourcesTrack T l →
      ((reflectStageResources shader L T log).1 = true
        ↔ bindingsAgree (l ++ L.filter isResourceBinding))
      ∧ ((reflectStageResources shader L T log).1 = true →
        resourcesTrack (reflectStageResources shader L T log).2.1
          (l ++ L.filter isResourceBinding)) := by
  induction L with
  | nil =>
    intro T log l h
    simp only [reflectStageResources, List.filter_nil, List.append_nil, true_iff]
    exact ⟨bindingsAgree_of_track T l h, fun _ => h⟩
  | cons d L ih =>
    intro T log l h
    by_cases hd : isResourceBinding d = true
    · rw [List.filter_cons_of_pos hd]
      have happ : l ++ d :: L.filter isResourceBinding
          = (l ++ [d]) ++ L.filter isResourceBinding := by simp
      rcases reflectResource_spec shader d T log l hd h with ⟨hgo, htrack⟩ | ⟨hgo, d0, hd0, hn0, hk0⟩
      · rcases hres : reflectResource shader d T log with ⟨go, T1, log1⟩
        rw [hres] at hgo htrack
        simp only [] at hgo htrack
        subst hgo
        rw [reflectStageResources, hres, happ]
        exact ih T1 log1 (l ++ [d]) htrack
      · rcases hres : reflectResource shader d T log with ⟨go, T1, log1⟩
        rw [hres] at hgo
        simp only [] at hgo
        subst hgo
        rw [reflectStageResources, hres]
        simp only [Bool.false_eq_true, false_iff, false_implies, and_true]
        intro hagree
        exact hk0 (hagree d0 (List.mem_append_left _ hd0) d
          (List.mem_append_right _ (List.mem_cons_self _ _)) hn0)
    · have hd' : isResourceBinding d = false := by simpa using hd
      rw [List.filter_cons_of_neg hd, reflectStageResources,
        reflectResource_skip shader d T log hd']
      exact ih T log l h

theorem reflectResourcesFrom_spec (stages : List (Option ShaderReflection)) :
    ∀ (shader : Nat) (T : ResourceMap) (log : String) (l : List D3D_SHADER_INPUT_BIND_DESC),
      resourcesTrack T l →
      ((reflectResourcesFrom stages shader T log).1 = true
        ↔ bindingsAgree (l ++ programBindings stages))
      ∧ ((reflectResourcesFrom stages shader T log).1 = true →
        resourcesTrack (reflectResourcesFrom stages shader T log).2.1
          (l ++ programBindings stages)) := by
  induction stages with
  | nil =>
    intro shader T log l h
    simp only [reflectResourcesFrom, programBindings, List.append_nil, true_iff]
    exact ⟨bindingsAgree_of_track T l h, fun _ => h⟩
  | cons st stages ih =>
    intro shader T log l h
    cases st with
    | none =>
      rw [reflectResourcesFrom, programBindings]
      exact ih _ T log l h
    | some pReflection =>
      rw [reflectResourcesFrom, programBindings, ← List.append_assoc]
      have hstage := reflectStageResources_spec shader pReflection.boundResources T log l h
      rcases hres : reflectStageResources shader pReflection.boundResources T log
        with ⟨go, T1, log1⟩
      rw [hres] at hstage
      simp only [] at hstage
      cases go with
      | true =>
        simp only []
        exact ih _ T1 log1 _ (hstage.2 rfl)
      | false =>
        simp only [Bool.false_eq_true, false_iff, false_implies, and_true]
        intro hagree
        have := hstage.1.2 (bindingsAgree_mono _ _
          (fun d hd => List.mem_append_left _ hd) hagree)
        exact Bool.false_ne_true this

theorem mem_programBindings (stages : List (Option ShaderReflection))
    (d : D3D_SHADER_INPUT_BIND_DESC) :
    d ∈ programBindings stages
      ↔ ∃ s, some s ∈ stages ∧ d ∈ s.boundResources
          ∧ d.Type_ ≠ D3D_SHADER_INPUT_TYPE.D3D_SIT_CBUFFER := by
  induction stages with
  | nil => simp [programBindings]
  | cons st stages ih =>
    cases st with
    | none => simp [programBindings, ih]
    | some s0 =>
      rw [programBindings, List.mem_append, ih, List.mem_filter]
      constructor
      · rintro (⟨h1, h2⟩ | ⟨s, hs, h1, h2⟩)
        · exact ⟨s0, List.mem_cons_self _ _, h1, by simpa [isResourceBinding] using h2⟩
        · exact ⟨s, List.mem_cons_of_mem _ hs, h1, h2⟩
      · rintro ⟨s, hs, h1, h2⟩
        rcases List.mem_cons.1 hs with hs | hs
        · left
          rw [← Option.some.inj hs]
          exact ⟨h1, by simpa [isResourceBinding] using h2⟩
        · exact Or.inr ⟨s, hs, h1, h2⟩

theorem reflectResources_iff_bindingsAgree (pProgVer : ProgramVersion)
    (self : ProgramReflection) (log : String) (hempty : self.mResources = []) :
    (reflectResources pProgVer self log).1 = true
      ↔ bindingsAgree (programBindings pProgVer) := by
  have htrack : resourcesTrack ([] : ResourceMap) [] := by
    intro n
    constructor
    · intro r hr
      simp [StdMap.find] at hr
    · intro d hd
      simp at hd
  have h := (reflectResourcesFrom_spec pProgVer 0 [] log [] htrack).1
  unfold reflectResources
  rw [hempty]
  simpa using h

/-- C5: on an empty resource table `reflectResources` returns true exactly when
any two entries of the binding tables of the active stages (of two stages or of
one) that are not of constant-buffer kind and share a name yield records equal
on the six compared fields `type`, `dims`, `retType`, `regIndex`,
`registerSpace`, `arraySize`; the returned value is the same for every
reordering of the stages. -/
theorem reflectResources_true_iff (pProgVer : ProgramVersion) (self : ProgramReflection)
    (log : String) (hempty : self.mResources = []) :
    ((reflectResources pProgVer self log).1 = true
      ↔ ∀ (s1 s2 : ShaderReflection) (d1 d2 : D3D_SHADER_INPUT_BIND_DESC),
          some s1 ∈ pProgVer → some s2 ∈ pProgVer →
          d1 ∈ s1.boundResources → d2 ∈ s2.boundResources →
          d1.Type_ ≠ D3D_SHADER_INPUT_TYPE.D3D_SIT_CBUFFER →
          d2.Type_ ≠ D3D_SHADER_INPUT_TYPE.D3D_SIT_CBUFFER →
          d1.Name = d2.Name →
          resourceKey (makeResource d1) = resourceKey (makeResource d2))
    ∧ (∀ (reordered : ProgramVersion) (log' : String), reordered.Perm pProgVer →
        (reflectResources reordered self log').1 = (reflectResources pProgVer self log).1) := by
  have hiff : ∀ (P : ProgramVersion) (lg : String),
      (reflectResources P self lg).1 = true
        ↔ ∀ (s1 s2 : ShaderReflection) (d1 d2 : D3D_SHADER_INPUT_BIND_DESC),
          some s1 ∈ P → some s2 ∈ P →
          d1 ∈ s1.boundResources → d2 ∈ s2.boundResources →
          d1.Type_ ≠ D3D_SHADER_INPUT_TYPE.D3D_SIT_CBUFFER →
          d2.Type_ ≠ D3D_SHADER_INPUT_TYPE.D3D_SIT_CBUFFER →
          d1.Name = d2.Name →
          resourceKey (makeResource d1) = resourceKey (makeResource d2) := by
    intro P lg
    rw [reflectResources_iff_bindingsAgree P self lg hempty]
    constructor
    · intro h s1 s2 d1 d2 hs1 hs2 hd1 hd2 hc1 hc2 hn
      exact h d1 ((mem_programBindings P d1).2 ⟨s1, hs1, hd1, hc1⟩)
        d2 ((mem_programBindings P d2).2 ⟨s2, hs2, hd2, hc2⟩) hn
    · intro h d1 h1 d2 h2 hn
      obtain ⟨s1, hs1, hd1, hc1⟩ := (mem_programBindings P d1).1 h1
      obtain ⟨s2, hs2, hd2, hc2⟩ := (mem_programBindings P d2).1 h2
      exact h s1 s2 d1 d2 hs1 hs2 hd1 hd2 hc1 hc2 hn
  refine ⟨hiff pProgVer log, ?_⟩
  intro reordered log' hperm
  rw [Bool.eq_iff_iff, hiff reordered log', hiff pProgVer log]
  constructor
  · intro h s1 s2 d1 d2 hs1 hs2
    exact h s1 s2 d1 d2 (hperm.mem_iff.2 hs1) (hperm.mem_iff.2 hs2)
  · intro h s1 s2 d1 d2 hs1 hs2
    exact h s1 s2 d1 d2 (hperm.mem_iff.1 hs1) (hperm.mem_iff.1 hs2)

/-- Witness of C5: `gTex` bound as a 2D texture by the first stage and as a
cube texture by the third, on the empty table. -/
theorem reflectResources_true_iff_witness :
    (reflectResources
        [some (textureStage .D3D_SRV_DIMENSION_TEXTURE2D), none,
          some (textureStage .D3D_SRV_DIMENSION_TEXTURECUBE)] {} "").1 = false
    ∧ ¬ (∀ (s1 s2 : ShaderReflection) (d1 d2 : D3D_SHADER_INPUT_BIND_DESC),
          some s1 ∈ [some (textureStage .D3D_SRV_DIMENSION_TEXTURE2D), none,
            some (textureStage .D3D_SRV_DIMENSION_TEXTURECUBE)] →
          some s2 ∈ [some (textureStage .D3D_SRV_DIMENSION_TEXTURE2D), none,
            some (textureStage .D3D_SRV_DIMENSION_TEXTURECUBE)] →
          d1 ∈ s1.boundResources → d2 ∈ s2.boundResources →
          d1.Type_ ≠ D3D_SHADER_INPUT_TYPE.D3D_SIT_CBUFFER →
          d2.Type_ ≠ D3D_SHADER_INPUT_TYPE.D3D_SIT_CBUFFER →
          d1.Name = d2.Name →
          resourceKey (makeResource d1) = resourceKey (makeResource d2)) := by
  have hfalse : (reflectResources
        [some (textureStage .D3D_SRV_DIMENSION_TEXTURE2D), none,
          some (textureStage .D3D_SRV_DIMENSION_TEXTURECUBE)] {} "").1 = false := by decide
  refine ⟨hfalse, fun h => ?_⟩
  have htrue := (reflectResources_true_iff
    [some (textureStage .D3D_SRV_DIMENSION_TEXTURE2D), none,
      some (textureStage .D3D_SRV_DIMENSION_TEXTURECUBE)] {} "" rfl).1.2 h
  rw [hfalse] at htrue
  exact Bool.false_ne_true htrue

/-! ## `reflectType` as a sequence of assignments -/

theorem applyWrites_append (vm : VariableMap) (a b : List (String × Variable)) :
    applyWrites vm (a ++ b) = applyWrites (applyWrites vm a) b := by
  unfold applyWrites
  rw [List.foldl_append]

theorem applyWrites_flatMap {ι : Type} (f : ι → List (String × Variable))
    (g : VariableMap → ι → VariableMap)
    (hg : ∀ vm i, g vm i = applyWrites vm (f i)) (is : List ι) :
    ∀ vm : VariableMap, is.foldl g vm = applyWrites vm (is.flatMap f) := by
  induction is with
  | nil => intro vm; rfl
  | cons i is ih =>
    intro vm
    rw [List.foldl_cons, List.flatMap_cons, applyWrites_append, ih, hg]

mutual
theorem reflectType_eq_applyWrites :
    ∀ (t : ShaderReflectionType) (vm : VariableMap) (name : String) (offset : Nat),
      reflectType t vm name offset = applyWrites vm (typeWrites t name offset)
  | .mk typeDesc members, vm, name, offset => by
    unfold reflectType typeWrites
    simp only []
    split
    · exact reflectMembers_eq_applyWrites members _ _ vm name _
    · rfl
theorem reflectMembers_eq_applyWrites :
    ∀ (ms : MemberList) (elements structSize : Nat) (vm : VariableMap) (name : String)
      (offset : Nat),
      reflectMembers ms elements structSize vm name offset
        = applyWrites vm (memberWrites ms elements structSize name offset)
  | .nil, _, _, vm, _, _ => by
    unfold reflectMembers memberWrites
    rfl
  | .cons memberName pMember rest, elements, structSize, vm, name, offset => by
    unfold reflectMembers memberWrites
    simp only []
    rw [applyWrites_append, reflectMembers_eq_applyWrites rest]
    congr 1
    split
    · exact applyWrites_flatMap
        (fun i => typeWrites pMember (name ++ "[" ++ toString i ++ "]." ++ memberName)
          (offset + structSize * i))
        (fun vm i => reflectType pMember vm (name ++ "[" ++ toString i ++ "]." ++ memberName)
          (offset + structSize * i))
        (fun vm i => reflectType_eq_applyWrites pMember vm _ _) _ vm
    · exact reflectType_eq_applyWrites pMember vm _ _
end

theorem reflectStructMembers_eq_applyWrites :
    ∀ (ms : MemberList) (vm : VariableMap),
      reflectStructMembers ms vm = applyWrites vm (scratchWrites ms)
  | .nil, vm => by
    unfold reflectStructMembers scratchWrites
    rfl
  | .cons memberName pMember rest, vm => by
    unfold reflectStructMembers scratchWrites
    rw [applyWrites_append, reflectStructMembers_eq_applyWrites rest,
      reflectType_eq_applyWrites]

/-! ## Every map built by the type walker is a well-formed `std::map` -/

theorem sorted_applyWrites (ws : List (String × Variable)) :
    ∀ vm : VariableMap, StdMap.Sorted vm → StdMap.Sorted (applyWrites vm ws) := by
  induction ws with
  | nil => intro vm h; exact h
  | cons w ws ih =>
    intro vm h
    exact ih _ (StdMap.sorted_set lawfulMapKey_string vm w.1 w.2 h)

theorem sorted_reflectType (t : ShaderReflectionType) (vm : VariableMap) (name : String)
    (offset : Nat) (h : StdMap.Sorted vm) : StdMap.Sorted (reflectType t vm name offset) := by
  rw [reflectType_eq_applyWrites]
  exact sorted_applyWrites _ vm h

theorem sorted_reflectStructMembers (ms : MemberList) :
    StdMap.Sorted (reflectStructMembers ms []) := by
  rw [reflectStructMembers_eq_applyWrites]
  exact sorted_applyWrites _ [] List.Pairwise.nil

theorem sorted_initializeBufferVariables (pReflector : ShaderReflectionConstantBuffer) :
    StdMap.Sorted (initializeBufferVariables pReflector []) := by
  unfold initializeBufferVariables
  generalize pReflector.variableList = vars
  have hgen : ∀ (vm : VariableMap), StdMap.Sorted vm →
      StdMap.Sorted (vars.foldl (fun vm pVar => reflectVariable pVar vm) vm) := by
    induction vars with
    | nil => intro vm h; exact h
    | cons pVar vars ih =>
      intro vm h
      exact ih _ (sorted_reflectType _ _ _ _ h)
  exact hgen [] List.Pairwise.nil

mutual
theorem typeWrites_relocate :
    ∀ (t : ShaderReflectionType) (pre name : String) (offset delta : Nat),
      typeWrites t (pre ++ name) (offset + delta)
        = (typeWrites t name offset).map (relocate pre delta)
  | .mk typeDesc members, pre, name, offset, delta => by
    unfold typeWrites
    simp only []
    split
    · have h : offset + delta + typeDesc.Offset = offset + typeDesc.Offset + delta := by omega
      rw [h]
      exact memberWrites_relocate members _ _ pre name _ delta
    · have h : offset + delta + typeDesc.Offset = offset + typeDesc.Offset + delta := by omega
      simp [relocate, h]
theorem memberWrites_relocate :
    ∀ (ms : MemberList) (elements structSize : Nat) (pre name : String) (offset delta : Nat),
      memberWrites ms elements structSize (pre ++ name) (offset + delta)
        = (memberWrites ms elements structSize name offset).map (relocate pre delta)
  | .nil, _, _, _, _, _, _ => by
    unfold memberWrites
    rfl
  | .cons memberName pMember rest, elements, structSize, pre, name, offset, delta => by
    unfold memberWrites
    rw [List.map_append, memberWrites_relocate rest]
    congr 1
    split
    · rw [List.map_flatMap]
      congr 1
      funext i
      have h1 : pre ++ name ++ "[" ++ toString i ++ "]." ++ memberName
          = pre ++ (name ++ "[" ++ toString i ++ "]." ++ memberName) := by
        simp only [String.append_assoc]
      have h2 : offset + delta + structSize * i = offset + structSize * i + delta := by omega
      rw [h1, h2]
      exact typeWrites_relocate pMember pre _ _ delta
    · have h1 : pre ++ name ++ "." ++ memberName = pre ++ (name ++ "." ++ memberName) := by
        simp only [String.append_assoc]
      rw [h1]
      exact typeWrites_relocate pMember pre _ _ delta
end

/-! ## The last assignment to a key -/

theorem find_applyWrites (ws : List (String × Variable)) :
    ∀ (vm : VariableMap) (k : String),
      StdMap.find (applyWrites vm ws) k
        = match lastWrite ws k with
          | some v => some v
          | none => StdMap.find vm k := by
  induction ws with
  | nil => intro vm k; rfl
  | cons w ws ih =>
    intro vm k
    have h : applyWrites vm (w :: ws) = applyWrites (StdMap.set vm w.1 w.2) ws := rfl
    rw [h, ih, lastWrite]
    rcases lastWrite ws k with _ | v
    · simp only []
      by_cases hk : w.1 = k
      · rw [if_pos hk, ← hk, StdMap.find_set_self]
      · rw [if_neg hk, StdMap.find_set_of_ne _ _ _ _ (fun h => hk h.symm)]
    · rfl

theorem lastWrite_append (a b : List (String × Variable)) (k : String) :
    lastWrite (a ++ b) k
      = match lastWrite b k with
        | some v => some v
        | none => lastWrite a k := by
  induction a with
  | nil =>
    rw [List.nil_append]
    rcases lastWrite b k with _ | v <;> rfl
  | cons w a ih =>
    rw [List.cons_append, lastWrite, ih, lastWrite]
    rcases lastWrite b k with _ | v <;> rfl

theorem string_append_left_cancel (p a b : String) (h : p ++ a = p ++ b) : a = b := by
  apply String.ext
  have := congrArg String.data h
  simpa using this

theorem lastWrite_relocate (pre : String) (delta : Nat) (ws : List (String × Variable))
    (q : String) :
    lastWrite (ws.map (relocate pre delta)) (pre ++ q)
      = (lastWrite ws q).map (fun v => { v with location := v.location + delta }) := by
  induction ws with
  | nil => rfl
  | cons w ws ih =>
    rw [List.map_cons, lastWrite, ih, lastWrite]
    rcases lastWrite ws q with _ | v
    · simp only [Option.map_none']
      by_cases hk : w.1 = q
      · rw [if_pos hk, if_pos (by simp [relocate, hk])]
        rfl
      · rw [if_neg hk, if_neg]
        · rfl
        · intro h
          exact hk (string_append_left_cancel pre _ _ h)
    · rfl

theorem lastWrite_eq_none (ws : List (String × Variable)) (k : String)
    (h : ∀ w ∈ ws, w.1 ≠ k) : lastWrite ws k = none := by
  induction ws with
  | nil => rfl
  | cons w ws ih =>
    rw [lastWrite, ih (fun w' hw' => h w' (List.mem_cons_of_mem _ hw'))]
    simp only []
    rw [if_neg (h w (List.mem_cons_self _ _))]

/-! ## `std::to_string` on element indices -/

theorem toString_data (i : Nat) : (toString i).data = Nat.toDigits 10 i := rfl

theorem digitChar_ne_bracket (m : Nat) (h : m < 10) : Nat.digitChar m ≠ ']' := by
  interval_cases m <;> decide

theorem digitChar_value (m : Nat) (h : m < 10) : (Nat.digitChar m).toNat - 48 = m := by
  interval_cases m <;> rfl

theorem toDigitsCore_no_bracket (fuel : Nat) :
    ∀ (n : Nat) (ds : List Char), (∀ c ∈ ds, c ≠ ']') →
      ∀ c ∈ Nat.toDigitsCore 10 fuel n ds, c ≠ ']' := by
  induction fuel with
  | zero => intro n ds h; simpa [Nat.toDigitsCore] using h
  | succ fuel ih =>
    intro n ds h
    have hd : ∀ c ∈ Nat.digitChar (n % 10) :: ds, c ≠ ']' := by
      intro c hc
      rcases List.mem_cons.1 hc with hc | hc
      · rw [hc]; exact digitChar_ne_bracket _ (Nat.mod_lt _ (by decide))
      · exact h c hc
    unfold Nat.toDigitsCore
    simp only []
    split
    · exact hd
    · exact ih _ _ hd

theorem digitsValue_eq (ds : List Char) :
    ∀ acc : Nat, digitsValue acc ds = acc * 10 ^ ds.length + digitsValue 0 ds := by
  induction ds with
  | nil => intro acc; simp [digitsValue]
  | cons d ds ih =>
    intro acc
    have h1 : digitsValue acc (d :: ds) = digitsValue (acc * 10 + (d.toNat - 48)) ds := rfl
    have h2 : digitsValue 0 (d :: ds) = digitsValue (0 * 10 + (d.toNat - 48)) ds := rfl
    rw [h1, h2, ih, ih (0 * 10 + (d.toNat - 48)), List.length_cons, pow_succ]
    ring

theorem digitsValue_toDigitsCore (fuel : Nat) :
    ∀ (n : Nat) (ds : List Char), n < fuel →
      digitsValue 0 (Nat.toDigitsCore 10 fuel n ds) = n * 10 ^ ds.length + digitsValue 0 ds := by
  induction fuel with
  | zero => intro n ds h; omega
  | succ fuel ih =>
    intro n ds h
    have hcons : digitsValue 0 (Nat.digitChar (n % 10) :: ds)
        = (n % 10) * 10 ^ ds.length + digitsValue 0 ds := by
      have h2 : digitsValue 0 (Nat.digitChar (n % 10) :: ds)
          = digitsValue (0 * 10 + ((Nat.digitChar (n % 10)).toNat - 48)) ds := rfl
      rw [h2, digitsValue_eq, digitChar_value _ (Nat.mod_lt _ (by decide))]
      simp
    unfold Nat.toDigitsCore
    simp only []
    split
    · rename_i h0
      rw [hcons]
      have : n % 10 = n := by omega
      rw [this]
    · rename_i h0
      rw [ih (n / 10) _ (by omega), hcons, List.length_cons, pow_succ]
      have : n = 10 * (n / 10) + n % 10 := (Nat.div_add_mod n 10).symm
      generalize 10 ^ ds.length = P at *
      generalize digitsValue 0 ds = V at *
      generalize n / 10 = q at *
      generalize n % 10 = r at *
      subst this
      ring

theorem toString_nat_injective (i k : Nat) (h : (toString i).data = (toString k).data) :
    i = k := by
  rw [toString_data, toString_data] at h
  have hi := digitsValue_toDigitsCore (i + 1) i [] (by omega)
  have hk := digitsValue_toDigitsCore (k + 1) k [] (by omega)
  unfold Nat.toDigits at h
  rw [h] at hi
  rw [hi] at hk
  simpa [digitsValue] using hk

theorem toString_nat_no_bracket (i : Nat) : ∀ c ∈ (toString i).data, c ≠ ']' := by
  rw [toString_data]
  exact toDigitsCore_no_bracket _ _ _ (by simp)

theorem append_bracket_cancel (a b r s : List Char)
    (ha : ∀ c ∈ a, c ≠ ']') (hb : ∀ c ∈ b, c ≠ ']')
    (h : a ++ ']' :: r = b ++ ']' :: s) : a = b := by
  induction a generalizing b with
  | nil =>
    cases b with
    | nil => rfl
    | cons c b =>
      simp only [List.nil_append, List.cons_append, List.cons.injEq] at h
      exact absurd h.1.symm (hb c (List.mem_cons_self _ _))
  | cons c a ih =>
    cases b with
    | nil =>
      simp only [List.nil_append, List.cons_append, List.cons.injEq] at h
      exact absurd h.1 (ha c (List.mem_cons_self _ _))
    | cons d b =>
      simp only [List.cons_append, List.cons.injEq] at h
      rw [h.1, ih b (fun x hx => ha x (List.mem_cons_of_mem _ hx))
        (fun x hx => hb x (List.mem_cons_of_mem _ hx)) h.2]

theorem element_name_injective (name : String) (i k : Nat) (x y : String)
    (h : name ++ "[" ++ toString i ++ "]." ++ x = name ++ "[" ++ toString k ++ "]." ++ y) :
    i = k := by
  have hd := congrArg String.data h
  simp only [String.data_append, List.append_assoc, List.append_cancel_left_eq] at hd
  have hd' : (toString i).data ++ ']' :: ('.' :: x.data)
      = (toString k).data ++ ']' :: ('.' :: y.data) := by
    simpa using hd
  exact toString_nat_injective i k
    (append_bracket_cancel _ _ _ _ (toString_nat_no_bracket i) (toString_nat_no_bracket k) hd')

/-! ## Offsets of the elements of a struct array -/

theorem lastWrite_elements (pre : Nat → String) (d : Nat → Nat)
    (hsep : ∀ i k x y, pre i ++ x = pre k ++ y → i = k)
    (ws : List (String × Variable)) (k : Nat) (q : String) (is : List Nat) :
    lastWrite (is.flatMap (fun i => ws.map (relocate (pre i) (d i)))) (pre k ++ q)
      = if k ∈ is then
          (lastWrite ws q).map (fun v => { v with location := v.location + d k })
        else none := by
  induction is with
  | nil => rfl
  | cons i is ih =>
    rw [List.flatMap_cons, lastWrite_append, ih]
    by_cases hi : i = k
    · subst hi
      rw [lastWrite_relocate, if_pos (List.mem_cons_self _ _)]
      by_cases hk : i ∈ is
      · rw [if_pos hk]
        rcases lastWrite ws q with _ | v <;> rfl
      · rw [if_neg hk]
    · have hnone : lastWrite (ws.map (relocate (pre i) (d i))) (pre k ++ q) = none := by
        apply lastWrite_eq_none
        intro w hw
        obtain ⟨w0, _, hw0⟩ := List.mem_map.1 hw
        rw [← hw0]
        intro h
        exact hi (hsep i k _ _ h)
      rw [hnone]
      by_cases hk : k ∈ is
      · rw [if_pos hk, if_pos (List.mem_cons_of_mem _ hk)]
        rcases lastWrite ws q with _ | v <;> rfl
      · rw [if_neg hk, if_neg]
        intro h
        rcases List.mem_cons.1 h with h | h
        · exact hi h.symm
        · exact hk h

theorem lastWrite_memberWrites :
    ∀ (ms : MemberList) (elements structSize : Nat) (name : String) (offset k : Nat)
      (q : String), k < elements →
      lastWrite (memberWrites ms elements structSize name offset)
          (name ++ "[" ++ toString k ++ "]." ++ q)
        = (lastWrite (scratchWrites ms) q).map
            (fun v => { v with location := v.location + (offset + structSize * k) })
  | .nil, _, _, _, _, _, _, _ => by
    unfold memberWrites scratchWrites
    rfl
  | .cons memberName pMember rest, elements, structSize, name, offset, k, q, hk => by
    unfold memberWrites scratchWrites
    rw [lastWrite_append, lastWrite_append,
      lastWrite_memberWrites rest elements structSize name offset k q hk,
      if_pos (by omega)]
    have hf : (fun i => typeWrites pMember (name ++ "[" ++ toString i ++ "]." ++ memberName)
          (offset + structSize * i))
        = (fun i => (typeWrites pMember memberName 0).map
            (relocate (name ++ "[" ++ toString i ++ "].") (offset + structSize * i))) := by
      funext i
      rw [← typeWrites_relocate]
      congr 1
      omega
    rw [hf, lastWrite_elements (fun i => name ++ "[" ++ toString i ++ "].")
      (fun i => offset + structSize * i)
      (fun i k x y h => element_name_injective name i k x y h)
      (typeWrites pMember memberName 0) k q (List.range elements),
      if_pos (List.mem_range.2 hk)]
    rcases lastWrite (scratchWrites rest) q with _ | v
    · rfl
    · rfl

/-- C9: a struct node with `Elements = K` is flattened under `name` at caller
base `offset`; `B = offset + typeDesc.Offset` is the running offset and `S` is
`calcStructSize` of the members flattened into the scratch map at offset 0.
For every `k < K` and every leaf `q` of one element, held by the scratch map
as `v` at relative offset `v.location`, the destination map holds under
`name[k].q` the same leaf at location `B + k * S + v.location`. -/
theorem reflectType_struct_array_offsets (typeDesc : D3D_SHADER_TYPE_DESC)
    (members : MemberList) (varMap : VariableMap) (name : String) (offset k : Nat)
    (q : String) (v : Variable)
    (hstruct : typeDesc.Class = D3D_SHADER_VARIABLE_CLASS.D3D_SVC_STRUCT)
    (hk : k < typeDesc.Elements)
    (hleaf : StdMap.find (reflectStructMembers members []) q = some v) :
    StdMap.find (reflectType (.mk typeDesc members) varMap name offset)
        (name ++ "[" ++ toString k ++ "]." ++ q)
      = some { v with
          location := (offset + typeDesc.Offset)
            + k * calcStructSize (reflectStructMembers members []) + v.location } := by
  have hscratch : lastWrite (scratchWrites members) q = some v := by
    rw [reflectStructMembers_eq_applyWrites, find_applyWrites] at hleaf
    rcases hl : lastWrite (scratchWrites members) q with _ | v'
    · rw [hl] at hleaf
      simp [StdMap.find] at hleaf
    · rw [hl] at hleaf
      exact hleaf
  rw [reflectType_eq_applyWrites, find_applyWrites]
  unfold typeWrites
  simp only []
  rw [if_pos hstruct, lastWrite_memberWrites members _ _ name _ k q hk, hscratch]
  simp only [Option.map_some']
  congr 2
  rw [Nat.mul_comm]
  omega

/-- Witness of C9: element 2 of `Light lights[3]` flattened at base 64; the
element size is 32 and `intensity` sits at 16 inside an element. -/
theorem reflectType_struct_array_offsets_witness :
    StdMap.find (reflectType lightArray [] "lights" 64) "lights[2].intensity"
      = some { location := 144, type := .Float4 } :=
  reflectType_struct_array_offsets ⟨.D3D_SVC_STRUCT, .D3D_SVT_VOID, 1, 8, 3, 0⟩
    (.cons "position" (float4At 0) (.cons "intensity" (float4At 16) .nil))
    [] "lights" 64 2 "intensity" { location := 16, type := .Float4 }
    rfl (by decide) (by decide)

/-! ## The names produced by the type walker -/

theorem lastWrite_isSome_iff (ws : List (String × Variable)) (k : String) :
    (lastWrite ws k).isSome = true ↔ k ∈ ws.map Prod.fst := by
  induction ws with
  | nil => simp [lastWrite]
  | cons w ws ih =>
    rw [lastWrite, List.map_cons, List.mem_cons]
    rcases hl : lastWrite ws k with _ | v
    · rw [hl] at ih
      simp only []
      by_cases hk : w.1 = k
      · rw [if_pos hk]
        simp [hk]
      · rw [if_neg hk]
        constructor
        · intro h; simp at h
        · rintro (h | h)
          · exact absurd h.symm hk
          · exact absurd (ih.2 h) (by simp)
    · rw [hl] at ih
      simp only [Option.isSome_some, true_iff]
      exact Or.inr (ih.1 rfl)

theorem typeWrites_keys_offset (t : ShaderReflectionType) (name : String) (offset : Nat) :
    (typeWrites t name offset).map Prod.fst = (typeWrites t name 0).map Prod.fst := by
  have h := typeWrites_relocate t "" name 0 offset
  have h1 : "" ++ name = name := by
    apply String.ext
    simp
  rw [h1, Nat.zero_add] at h
  rw [h, List.map_map]
  apply List.map_congr_left
  intro w _
  show "" ++ w.1 = w.1
  apply String.ext
  simp

theorem find_reflectType_isSome (t : ShaderReflectionType) (vm : VariableMap)
    (name : String) (offset : Nat) (key : String) :
    (StdMap.find (reflectType t vm name offset) key).isSome = true
      ↔ (StdMap.find vm key).isSome = true ∨ key ∈ (typeWrites t name 0).map Prod.fst := by
  rw [reflectType_eq_applyWrites, find_applyWrites, ← typeWrites_keys_offset t name offset,
    ← lastWrite_isSome_iff]
  rcases lastWrite (typeWrites t name offset) key with _ | v
  · simp
  · simp

theorem find_reflectType_empty_isSome (t : ShaderReflectionType) (name : String)
    (offset : Nat) (key : String) :
    (StdMap.find (reflectType t [] name offset) key).isSome = true
      ↔ key ∈ (typeWrites t name 0).map Prod.fst := by
  rw [find_reflectType_isSome]
  simp [StdMap.find]

theorem mem_memberWrites_keys :
    ∀ (ms : MemberList) (elements structSize : Nat) (name : String) (offset : Nat)
      (key : String),
      key ∈ (memberWrites ms elements structSize name offset).map Prod.fst
        ↔ ∃ m ∈ ms.toList,
            if elements = 0 then
              key ∈ (typeWrites m.2 (name ++ "." ++ m.1) 0).map Prod.fst
            else
              ∃ i < elements,
                key ∈ (typeWrites m.2 (name ++ "[" ++ toString i ++ "]." ++ m.1) 0).map Prod.fst
  | .nil, _, _, _, _, _ => by
    unfold memberWrites MemberList.toList
    simp
  | .cons memberName pMember rest, elements, structSize, name, offset, key => by
    unfold memberWrites MemberList.toList
    rw [List.map_append, List.mem_append,
      mem_memberWrites_keys rest elements structSize name offset key]
    simp only [List.mem_cons, exists_eq_or_imp]
    apply or_congr_left
    by_cases he : elements = 0
    · rw [if_neg (by omega), if_pos he, typeWrites_keys_offset]
    · rw [if_pos (by omega), if_neg he]
      simp only [List.mem_map, List.mem_flatMap, List.mem_range]
      constructor
      · rintro ⟨w, ⟨i, hi, hw⟩, hkey⟩
        refine ⟨i, hi, ?_⟩
        have : key ∈ (typeWrites pMember (name ++ "[" ++ toString i ++ "]." ++ memberName)
            (offset + structSize * i)).map Prod.fst := List.mem_map.2 ⟨w, hw, hkey⟩
        rw [typeWrites_keys_offset] at this
        exact List.mem_map.1 this
      · rintro ⟨i, hi, hmem⟩
        have : key ∈ (typeWrites pMember (name ++ "[" ++ toString i ++ "]." ++ memberName)
            (offset + structSize * i)).map Prod.fst := by
          rw [typeWrites_keys_offset]
          exact List.mem_map.2 hmem
        obtain ⟨w, hw, hkey⟩ := List.mem_map.1 this
        exact ⟨w, ⟨i, hi, hw⟩, hkey⟩

/-- The names added by flattening a struct node are the names added by
flattening each member under `name.member`, or under `name[i].member` for every
element `i` of an array. -/
theorem find_reflectType_struct (typeDesc : D3D_SHADER_TYPE_DESC) (members : MemberList)
    (varMap : VariableMap) (name : String) (offset : Nat) (key : String)
    (hstruct : typeDesc.Class = D3D_SHADER_VARIABLE_CLASS.D3D_SVC_STRUCT) :
    (StdMap.find (reflectType (.mk typeDesc members) varMap name offset) key).isSome = true
      ↔ (StdMap.find varMap key).isSome = true
        ∨ ∃ m ∈ members.toList,
            if typeDesc.Elements = 0 then
              (StdMap.find (reflectType m.2 [] (name ++ "." ++ m.1) 0) key).isSome = true
            else
              ∃ i < typeDesc.Elements,
                (StdMap.find
                  (reflectType m.2 [] (name ++ "[" ++ toString i ++ "]." ++ m.1) 0) key).isSome
                  = true := by
  rw [find_reflectType_isSome]
  apply or_congr_right
  unfold typeWrites
  simp only []
  rw [if_pos hstruct, mem_memberWrites_keys]
  simp only [find_reflectType_empty_isSome]

theorem typeWrites_leaf (t : ShaderReflectionType) (name : String) (offset : Nat)
    (hleaf : t.typeDesc.Class ≠ D3D_SHADER_VARIABLE_CLASS.D3D_SVC_STRUCT) :
    (typeWrites t name offset).map Prod.fst = [name] := by
  obtain ⟨typeDesc, members⟩ := t
  have hleaf' : ¬ typeDesc.Class = D3D_SHADER_VARIABLE_CLASS.D3D_SVC_STRUCT := hleaf
  unfold typeWrites
  simp only []
  rw [if_neg hleaf']
  rfl

theorem length_set_of_find_none {κ α : Type} [DecidableEq κ] [MapKey κ]
    (m : StdMap κ α) (k : κ) (v : α) (h : m.find k = none) :
    (m.set k v).length = m.length + 1 := by
  induction m with
  | nil => rfl
  | cons a m ih =>
    obtain ⟨k1, v1⟩ := a
    unfold StdMap.find at h
    by_cases hk : k = k1
    · rw [if_pos hk] at h
      exact absurd h (by simp)
    · rw [if_neg hk] at h
      unfold StdMap.set
      split
      · rfl
      · rw [List.length_cons, ih h, List.length_cons]

theorem length_applyWrites (ws : List (String × Variable)) :
    ∀ vm : VariableMap, (ws.map Prod.fst).Nodup → (∀ w ∈ ws, StdMap.find vm w.1 = none) →
      (applyWrites vm ws).length = vm.length + ws.length := by
  induction ws with
  | nil => intro vm _ _; rfl
  | cons w ws ih =>
    intro vm hnd hnone
    rw [List.map_cons, List.nodup_cons] at hnd
    have h : applyWrites vm (w :: ws) = applyWrites (StdMap.set vm w.1 w.2) ws := rfl
    rw [h, ih _ hnd.2, length_set_of_find_none vm w.1 w.2 (hnone w (List.mem_cons_self _ _)),
      List.length_cons]
    · omega
    · intro w' hw'
      have hne : w'.1 ≠ w.1 := by
        intro heq
        exact hnd.1 (heq ▸ List.mem_map_of_mem Prod.fst hw')
      rw [StdMap.find_set_of_ne _ _ _ _ hne]
      exact hnone w' (List.mem_cons_of_mem _ hw')

theorem element_name_member_injective (name : String) (i k : Nat) (x y : String)
    (h : name ++ "[" ++ toString i ++ "]." ++ x = name ++ "[" ++ toString k ++ "]." ++ y) :
    i = k ∧ x = y := by
  have hik := element_name_injective name i k x y h
  subst hik
  exact ⟨rfl, string_append_left_cancel _ _ _ h⟩

theorem memberWrites_leaf_keys :
    ∀ (ms : MemberList) (elements structSize : Nat) (name : String) (offset : Nat),
      (∀ m ∈ ms.toList, m.2.typeDesc.Class ≠ D3D_SHADER_VARIABLE_CLASS.D3D_SVC_STRUCT) →
      (memberWrites ms elements structSize name offset).map Prod.fst
        = (ms.toList.map Prod.fst).flatMap (fun memberName =>
            if elements > 0 then
              (List.range elements).map (fun i => name ++ "[" ++ toString i ++ "]." ++ memberName)
            else [name ++ "." ++ memberName])
  | .nil, _, _, _, _, _ => by
    unfold memberWrites MemberList.toList
    rfl
  | .cons memberName pMember rest, elements, structSize, name, offset, hleaves => by
    have hrest := memberWrites_leaf_keys rest elements structSize name offset
      (fun m hm => hleaves m (by unfold MemberList.toList; exact List.mem_cons_of_mem _ hm))
    have hleaf : pMember.typeDesc.Class ≠ D3D_SHADER_VARIABLE_CLASS.D3D_SVC_STRUCT :=
      hleaves (memberName, pMember) (by unfold MemberList.toList; exact List.mem_cons_self _ _)
    unfold memberWrites MemberList.toList
    rw [List.map_append, hrest, List.map_cons, List.flatMap_cons]
    congr 1
    split
    · rw [List.map_flatMap]
      have hf : (fun i => (typeWrites pMember (name ++ "[" ++ toString i ++ "]." ++ memberName)
            (offset + structSize * i)).map Prod.fst)
          = (fun i => [name ++ "[" ++ toString i ++ "]." ++ memberName]) := by
        funext i
        exact typeWrites_leaf pMember _ _ hleaf
      rw [hf]
      induction List.range elements with
      | nil => rfl
      | cons i is ih => rw [List.flatMap_cons, ih]; rfl
    · exact typeWrites_leaf pMember _ _ hleaf

theorem member_keys_nodup (name : String) (elements : Nat) (names : List String)
    (hnd : names.Nodup) :
    (names.flatMap (fun memberName =>
        if elements > 0 then
          (List.range elements).map (fun i => name ++ "[" ++ toString i ++ "]." ++ memberName)
        else [name ++ "." ++ memberName])).Nodup
    ∧ (names.flatMap (fun memberName =>
        if elements > 0 then
          (List.range elements).map (fun i => name ++ "[" ++ toString i ++ "]." ++ memberName)
        else [name ++ "." ++ memberName])).length
      = if elements = 0 then names.length else elements * names.length := by
  induction names with
  | nil => simp
  | cons mn names ih =>
    rw [List.nodup_cons] at hnd
    obtain ⟨ihnd, ihlen⟩ := ih hnd.2
    rw [List.flatMap_cons, List.length_append, ihlen]
    by_cases he : elements = 0
    · rw [if_neg (by omega), if_pos he, if_pos he]
      refine ⟨?_, by simp; omega⟩
      refine List.nodup_append.2 ⟨by simp, ihnd, ?_⟩
      intro key h1 h2
      rw [List.mem_singleton] at h1
      obtain ⟨mn', hmn', hkey⟩ := List.mem_flatMap.1 h2
      rw [if_neg (by omega), List.mem_singleton, h1] at hkey
      have : mn = mn' := by
        have h3 : (name ++ ".") ++ mn = (name ++ ".") ++ mn' := hkey
        exact string_append_left_cancel _ _ _ h3
      exact hnd.1 (this ▸ hmn')
    · rw [if_pos (by omega), if_neg he, if_neg he]
      refine ⟨?_, by simp [Nat.mul_succ]; ring⟩
      refine List.nodup_append.2 ⟨?_, ihnd, ?_⟩
      · apply List.Nodup.map _ (List.nodup_range elements)
        intro i k h
        exact (element_name_member_injective name i k mn mn h).1
      · intro key h1 h2
        obtain ⟨i, _, hi⟩ := List.mem_map.1 h1
        obtain ⟨mn', hmn', hkey⟩ := List.mem_flatMap.1 h2
        rw [if_pos (by omega)] at hkey
        obtain ⟨k, _, hk⟩ := List.mem_map.1 hkey
        have := (element_name_member_injective name i k mn mn' (hi.trans hk.symm)).2
        exact hnd.1 (this ▸ hmn')

theorem find_reflectType_leaf_isSome (t : ShaderReflectionType) (name key : String)
    (hleaf : t.typeDesc.Class ≠ D3D_SHADER_VARIABLE_CLASS.D3D_SVC_STRUCT) :
    (StdMap.find (reflectType t [] name 0) key).isSome = true ↔ key = name := by
  rw [find_reflectType_empty_isSome, typeWrites_leaf t name 0 hleaf, List.mem_singleton]

theorem string_ne_append (p x : String) (hx : 0 < x.length) : p ≠ p ++ x := by
  intro h
  have := congrArg String.length h
  rw [String.length_append] at this
  omega

/-- C10: flattening a struct node under the name `name` adds no key for the
struct itself; it adds the keys that flattening each member adds under
`name.member` (struct not an array) or under `name[i].member` for `i < K`
(array of `K > 0` elements), so nested structs compose their names.  When the
members are leaves with distinct names the added keys are exactly `name.mj`,
resp. `name[i].mj` for `i < K`, and on an empty destination the map then has
`n`, resp. `K * n` entries. -/
theorem reflectType_struct_names (typeDesc : D3D_SHADER_TYPE_DESC) (members : MemberList)
    (name : String) (offset : Nat)
    (hstruct : typeDesc.Class = D3D_SHADER_VARIABLE_CLASS.D3D_SVC_STRUCT) :
    (∀ (varMap : VariableMap) (key : String),
      (StdMap.find (reflectType (.mk typeDesc members) varMap name offset) key).isSome = true
        ↔ (StdMap.find varMap key).isSome = true
          ∨ ∃ m ∈ members.toList,
              if typeDesc.Elements = 0 then
                (StdMap.find (reflectType m.2 [] (name ++ "." ++ m.1) 0) key).isSome = true
              else
                ∃ i < typeDesc.Elements,
                  (StdMap.find (reflectType m.2 [] (name ++ "[" ++ toString i ++ "]." ++ m.1) 0)
                    key).isSome = true)
    ∧ (∀ varMap : VariableMap,
        StdMap.find (reflectType (.mk typeDesc members) varMap name offset) name
          = StdMap.find varMap name)
    ∧ ((∀ m ∈ members.toList,
          m.2.typeDesc.Class ≠ D3D_SHADER_VARIABLE_CLASS.D3D_SVC_STRUCT) →
        (members.toList.map Prod.fst).Nodup →
        (∀ (varMap : VariableMap) (key : String),
          (StdMap.find (reflectType (.mk typeDesc members) varMap name offset) key).isSome = true
            ↔ (StdMap.find varMap key).isSome = true
              ∨ ∃ memberName ∈ members.toList.map Prod.fst,
                  if typeDesc.Elements = 0 then key = name ++ "." ++ memberName
                  else ∃ i < typeDesc.Elements,
                    key = name ++ "[" ++ toString i ++ "]." ++ memberName)
        ∧ (reflectType (.mk typeDesc members) [] name offset).length
            = if typeDesc.Elements = 0 then members.toList.length
              else typeDesc.Elements * members.toList.length) := by
  refine ⟨fun varMap key => find_reflectType_struct typeDesc members varMap name offset key
    hstruct, ?_, ?_⟩
  · intro varMap
    rw [reflectType_eq_applyWrites, find_applyWrites]
    have hnone : lastWrite (typeWrites (.mk typeDesc members) name offset) name = none := by
      apply lastWrite_eq_none
      intro w hw hname
      have hmem : name ∈ (typeWrites (.mk typeDesc members) name offset).map Prod.fst := by
        have hfst := List.mem_map_of_mem Prod.fst hw
        rw [hname] at hfst
        exact hfst
      unfold typeWrites at hmem
      simp only [] at hmem
      rw [if_pos hstruct, mem_memberWrites_keys] at hmem
      obtain ⟨m, _, hm⟩ := hmem
      have hpre : ∀ (pre : String) (t : ShaderReflectionType),
          0 < pre.length → name ∉ (typeWrites t (name ++ pre) 0).map Prod.fst := by
        intro pre t hpre hin
        have hrel := typeWrites_relocate t (name ++ pre) "" 0 0
        have h1 : name ++ pre ++ "" = name ++ pre := by
          apply String.ext
          simp
        rw [h1] at hrel
        rw [hrel, List.map_map] at hin
        obtain ⟨w', _, hw'⟩ := List.mem_map.1 hin
        have h2 : name ++ (pre ++ w'.1) = name := by
          rw [← String.append_assoc]
          exact hw'
        exact string_ne_append name (pre ++ w'.1)
          (by rw [String.length_append]; omega) h2.symm
      by_cases he : typeDesc.Elements = 0
      · rw [if_pos he] at hm
        have h3 : name ++ "." ++ m.1 = name ++ ("." ++ m.1) := String.append_assoc _ _ _
        rw [h3] at hm
        have hlen : 0 < ("." ++ m.1).length := by
          have h1 : ".".length = 1 := rfl
          rw [String.length_append]
          omega
        exact hpre ("." ++ m.1) m.2 hlen hm
      · rw [if_neg he] at hm
        obtain ⟨i, _, hi⟩ := hm
        have h3 : name ++ "[" ++ toString i ++ "]." ++ m.1
            = name ++ ("[" ++ toString i ++ "]." ++ m.1) := by
          simp only [String.append_assoc]
        rw [h3] at hi
        have hlen : 0 < ("[" ++ toString i ++ "]." ++ m.1).length := by
          have h1 : "[".length = 1 := rfl
          simp only [String.length_append]
          omega
        exact hpre _ m.2 hlen hi
    rw [hnone]
  · intro hleaves hnodup
    constructor
    · intro varMap key
      rw [find_reflectType_struct typeDesc members varMap name offset key hstruct]
      apply or_congr_right
      constructor
      · rintro ⟨m, hm, h⟩
        refine ⟨m.1, List.mem_map_of_mem Prod.fst hm, ?_⟩
        by_cases he : typeDesc.Elements = 0
        · rw [if_pos he] at h ⊢
          exact (find_reflectType_leaf_isSome m.2 _ key (hleaves m hm)).1 h
        · rw [if_neg he] at h ⊢
          obtain ⟨i, hi, h⟩ := h
          exact ⟨i, hi, (find_reflectType_leaf_isSome m.2 _ key (hleaves m hm)).1 h⟩
      · rintro ⟨mn, hmn, h⟩
        obtain ⟨m, hm, hmn'⟩ := List.mem_map.1 hmn
        refine ⟨m, hm, ?_⟩
        by_cases he : typeDesc.Elements = 0
        · rw [if_pos he] at h ⊢
          rw [hmn']
          exact (find_reflectType_leaf_isSome m.2 _ key (hleaves m hm)).2 h
        · rw [if_neg he] at h ⊢
          obtain ⟨i, hi, h⟩ := h
          rw [hmn']
          exact ⟨i, hi, (find_reflectType_leaf_isSome m.2 _ key (hleaves m hm)).2 h⟩
    · rw [reflectType_eq_applyWrites]
      have hkeys : (typeWrites (.mk typeDesc members) name offset).map Prod.fst
          = (members.toList.map Prod.fst).flatMap (fun memberName =>
              if typeDesc.Elements > 0 then
                (List.range typeDesc.Elements).map
                  (fun i => name ++ "[" ++ toString i ++ "]." ++ memberName)
              else [name ++ "." ++ memberName]) := by
        unfold typeWrites
        simp only []
        rw [if_pos hstruct]
        exact memberWrites_leaf_keys members _ _ name _ hleaves
      have hnd := member_keys_nodup name typeDesc.Elements _ hnodup
      rw [← hkeys] at hnd
      rw [length_applyWrites _ [] hnd.1 (fun _ _ => rfl), List.length_nil, Nat.zero_add,
        ← List.length_map _ Prod.fst, hnd.2, List.length_map]

/-- Witness of C10: `Light lights[3]` has 2 leaf members and yields 3 * 2 keys
and no key `lights`; inside `Scene` the names compose to `scene.lights[2].intensity`. -/
theorem reflectType_struct_names_witness :
    (reflectType lightArray [] "lights" 0).length = 3 * 2
    ∧ StdMap.find (reflectType lightArray [] "lights" 0) "lights" = none
    ∧ (StdMap.find (reflectType lightArray [] "lights" 0) "lights[2].intensity").isSome = true
    ∧ (reflectType sceneStruct [] "scene" 0).map Prod.fst
        = ["scene.ambient",
           "scene.lights[0].intensity", "scene.lights[0].position",
           "scene.lights[1].intensity", "scene.lights[1].position",
           "scene.lights[2].intensity", "scene.lights[2].position"] :=
  have h := reflectType_struct_names ⟨.D3D_SVC_STRUCT, .D3D_SVT_VOID, 1, 8, 3, 0⟩
    (.cons "position" (float4At 0) (.cons "intensity" (float4At 16) .nil)) "lights" 0 rfl
  have hleaf := h.2.2 (by decide) (by decide)
  ⟨hleaf.2, h.2.1 [],
    (hleaf.1 [] "lights[2].intensity").2
      (Or.inr ⟨"intensity", by decide, 2, by decide, by decide⟩),
    by decide⟩

/-! ## `getVariableType` -/

theorem getVariableType_assert_iff (dxType : D3D_SHADER_VARIABLE_TYPE) (rows columns : Nat) :
    getVariableType_assert dxType rows columns = true
      ↔ (dxType, rows, columns) ∈ recognisedCombos := by
  constructor
  · intro h
    have hr : rows ≤ 4 := by
      cases dxType <;> simp [getVariableType_assert] at h <;> omega
    have hc : columns ≤ 4 := by
      cases dxType <;> simp [getVariableType_assert] at h <;> omega
    interval_cases rows <;> interval_cases columns <;> cases dxType <;> revert h <;> decide
  · intro h
    have hall : ∀ a ∈ recognisedCombos, getVariableType_assert a.1 a.2.1 a.2.2 = true := by
      decide
    exact hall _ h

/-- C11: `getVariableType` on the 25 recognised combinations: the table of its
values (the type of the same kind and shape), no value `Unknown`, and equal
values only for equal combinations. -/
theorem getVariableType_recognised
    (a b : D3D_SHADER_VARIABLE_TYPE × Nat × Nat)
    (ha : a ∈ recognisedCombos) (hb : b ∈ recognisedCombos) :
    recognisedCombos.length = 25
    ∧ recognisedCombos.map (fun x => (x, getVariableType x.1 x.2.1 x.2.2))
        = [((.D3D_SVT_BOOL, 1, 1), .Bool), ((.D3D_SVT_BOOL, 1, 2), .Bool2),
           ((.D3D_SVT_BOOL, 1, 3), .Bool3), ((.D3D_SVT_BOOL, 1, 4), .Bool4),
           ((.D3D_SVT_UINT, 1, 1), .Uint), ((.D3D_SVT_UINT, 1, 2), .Uint2),
           ((.D3D_SVT_UINT, 1, 3), .Uint3), ((.D3D_SVT_UINT, 1, 4), .Uint4),
           ((.D3D_SVT_INT, 1, 1), .Int), ((.D3D_SVT_INT, 1, 2), .Int2),
           ((.D3D_SVT_INT, 1, 3), .Int3), ((.D3D_SVT_INT, 1, 4), .Int4),
           ((.D3D_SVT_FLOAT, 1, 1), .Float), ((.D3D_SVT_FLOAT, 1, 2), .Float2),
           ((.D3D_SVT_FLOAT, 1, 3), .Float3), ((.D3D_SVT_FLOAT, 1, 4), .Float4),
           ((.D3D_SVT_FLOAT, 2, 2), .Float2x2), ((.D3D_SVT_FLOAT, 2, 3), .Float2x3),
           ((.D3D_SVT_FLOAT, 2, 4), .Float2x4),
           ((.D3D_SVT_FLOAT, 3, 2), .Float3x2), ((.D3D_SVT_FLOAT, 3, 3), .Float3x3),
           ((.D3D_SVT_FLOAT, 3, 4), .Float3x4),
           ((.D3D_SVT_FLOAT, 4, 2), .Float4x2), ((.D3D_SVT_FLOAT, 4, 3), .Float4x3),
           ((.D3D_SVT_FLOAT, 4, 4), .Float4x4)]
    ∧ getVariableType a.1 a.2.1 a.2.2 ≠ VariableType.Unknown
    ∧ (getVariableType a.1 a.2.1 a.2.2 = getVariableType b.1 b.2.1 b.2.2 → a = b) := by
  have hall : ∀ x ∈ recognisedCombos, ∀ y ∈ recognisedCombos,
      getVariableType x.1 x.2.1 x.2.2 ≠ VariableType.Unknown
      ∧ (getVariableType x.1 x.2.1 x.2.2 = getVariableType y.1 y.2.1 y.2.2 → x = y) := by
    decide
  exact ⟨by decide, by decide, (hall a ha b hb).1, (hall a ha b hb).2⟩

/-- Witness of C11: `float3x4` and `float4x3` are recognised and classified apart. -/
theorem getVariableType_recognised_witness :
    getVariableType .D3D_SVT_FLOAT 3 4 ≠ VariableType.Unknown
    ∧ (getVariableType .D3D_SVT_FLOAT 3 4 = getVariableType .D3D_SVT_FLOAT 4 3 →
        ((D3D_SHADER_VARIABLE_TYPE.D3D_SVT_FLOAT, 3, 4) : D3D_SHADER_VARIABLE_TYPE × Nat × Nat)
          = (.D3D_SVT_FLOAT, 4, 3)) :=
  (getVariableType_recognised (.D3D_SVT_FLOAT, 3, 4) (.D3D_SVT_FLOAT, 4, 3)
    (by decide) (by decide)).2.2

/-! ## Leaves of the type tree -/

theorem StdMap.mem_of_find_isSome {κ α : Type} [DecidableEq κ] (m : StdMap κ α) (k : κ)
    (h : (m.find k).isSome = true) : ∃ a ∈ m, a.1 = k := by
  induction m with
  | nil => simp [StdMap.find] at h
  | cons b m ih =>
    obtain ⟨k1, v1⟩ := b
    unfold StdMap.find at h
    by_cases hk : k = k1
    · exact ⟨(k1, v1), List.mem_cons_self _ _, hk.symm⟩
    · rw [if_neg hk] at h
      obtain ⟨a, ha, hak⟩ := ih h
      exact ⟨a, List.mem_cons_of_mem _ ha, hak⟩

theorem StdMap.length_set_of_find_isSome {κ α : Type} [DecidableEq κ] [MapKey κ]
    (hκ : LawfulMapKey κ) (m : StdMap κ α) (k : κ) (v : α) (hm : m.Sorted)
    (h : (m.find k).isSome = true) : (m.set k v).length = m.length := by
  induction m with
  | nil => simp [StdMap.find] at h
  | cons b m ih =>
    obtain ⟨k1, v1⟩ := b
    have hm' := List.pairwise_cons.1 hm
    by_cases hk : k = k1
    · subst hk
      unfold StdMap.set
      rw [if_neg (by rw [hκ.irrefl]; exact Bool.false_ne_true), if_pos rfl]
      rfl
    · unfold StdMap.find at h
      rw [if_neg hk] at h
      obtain ⟨a, ha, hak⟩ := StdMap.mem_of_find_isSome m k h
      have hlt : MapKey.keyLt k1 k = true := hak ▸ hm'.1 a ha
      have hnlt : ¬ MapKey.keyLt k k1 = true := by
        intro hlt'
        have := hκ.trans _ _ _ hlt hlt'
        rw [hκ.irrefl] at this
        exact Bool.false_ne_true this
      unfold StdMap.set
      rw [if_neg hnlt, if_neg hk, List.length_cons, ih hm'.2 h, List.length_cons]

/-- C12: a node whose class is not `D3D_SVC_STRUCT`, flattened under `name` at
caller base `offset` into a well-formed map, leaves under `name` the single
variable with location `offset + typeDesc.Offset`, array size `Elements`,
row-major flag set exactly for `D3D_SVC_MATRIX_ROWS` and the type given by
`getVariableType`; every other key keeps its value, and the map grows by one
entry exactly when `name` was absent (a leaf array is one entry). -/
theorem reflectType_leaf (typeDesc : D3D_SHADER_TYPE_DESC) (members : MemberList)
    (varMap : VariableMap) (name : String) (offset : Nat)
    (hleaf : typeDesc.Class ≠ D3D_SHADER_VARIABLE_CLASS.D3D_SVC_STRUCT)
    (hsorted : StdMap.Sorted varMap) :
    StdMap.find (reflectType (.mk typeDesc members) varMap name offset) name
        = some { location := offset + typeDesc.Offset
                 arraySize := typeDesc.Elements
                 arrayStride := 0
                 isRowMajor :=
                   decide (typeDesc.Class = D3D_SHADER_VARIABLE_CLASS.D3D_SVC_MATRIX_ROWS)
                 type := getVariableType typeDesc.Type_ typeDesc.Rows typeDesc.Columns }
    ∧ (∀ key : String, key ≠ name →
        StdMap.find (reflectType (.mk typeDesc members) varMap name offset) key
          = StdMap.find varMap key)
    ∧ (reflectType (.mk typeDesc members) varMap name offset).length
        = (if (StdMap.find varMap name).isSome = true then varMap.length
           else varMap.length + 1) := by
  have hdef : reflectType (.mk typeDesc members) varMap name offset
      = StdMap.set varMap name
          { location := offset + typeDesc.Offset
            arraySize := typeDesc.Elements
            arrayStride := 0
            isRowMajor :=
              decide (typeDesc.Class = D3D_SHADER_VARIABLE_CLASS.D3D_SVC_MATRIX_ROWS)
            type := getVariableType typeDesc.Type_ typeDesc.Rows typeDesc.Columns } := by
    unfold reflectType
    simp only []
    rw [if_neg hleaf]
  rw [hdef]
  refine ⟨StdMap.find_set_self _ _ _, fun key hkey => StdMap.find_set_of_ne _ _ _ _ hkey, ?_⟩
  by_cases hin : (StdMap.find varMap name).isSome = true
  · rw [if_pos hin]
    exact StdMap.length_set_of_find_isSome lawfulMapKey_string _ _ _ hsorted hin
  · rw [if_neg hin]
    apply length_set_of_find_none
    simpa using hin

/-- Witness of C12: a row-major `float3x3 m[4]` at offset 16 of its parent,
flattened at base 32 into a map that holds `a`. -/
theorem reflectType_leaf_witness :
    StdMap.find
        (reflectType (.mk ⟨.D3D_SVC_MATRIX_ROWS, .D3D_SVT_FLOAT, 3, 3, 4, 16⟩ .nil)
          [("a", { location := 0, type := .Float4 })] "m" 32) "m"
      = some { location := 48, arraySize := 4, arrayStride := 0, isRowMajor := true,
               type := .Float3x3 }
    ∧ (reflectType (.mk ⟨.D3D_SVC_MATRIX_ROWS, .D3D_SVT_FLOAT, 3, 3, 4, 16⟩ .nil)
          [("a", { location := 0, type := .Float4 })] "m" 32).length = 2 :=
  have h := reflectType_leaf ⟨.D3D_SVC_MATRIX_ROWS, .D3D_SVT_FLOAT, 3, 3, 4, 16⟩ .nil
    [("a", { location := 0, type := .Float4 })] "m" 32 (by decide) (by decide)
  ⟨h.1, h.2.2⟩

/-! ## Leaves that `getVariableType` does not classify -/

/-- C13, as stated, fails: the buffer `Globals` with one `float` leaf of 2 rows
and 1 column reaches `should_not_get_here()` in `getVariableType`, and with the
assertions compiled out `reflectBuffers` returns true, leaves the log empty and
stores the variable with type `Unknown`. -/
theorem reflectBuffers_unclassified_leaf_accepted :
    getVariableType_assert .D3D_SVT_FLOAT 2 1 = false
    ∧ reflectBuffers [some (leafStage .D3D_SVC_MATRIX_COLUMNS .D3D_SVT_FLOAT 2 1 32)] {} ""
        = some (true,
            { mBuffersConstant :=
                { descMap := [(0,
                    { name := "Globals", regIndex := 0, type := .Constant, sizeInBytes := 32,
                      variableCount := 1,
                      varMap := [("v", { location := 0, type := VariableType.Unknown })],
                      shaderMask := 1 })],
                  nameMap := [("Globals", 0)] } },
            "") := by
  decide

theorem getVariableType_unclassified (kind : D3D_SHADER_VARIABLE_TYPE) (rows columns : Nat)
    (h : (kind, rows, columns) ∉ recognisedCombos) :
    getVariableType kind rows columns = VariableType.Unknown
    ∨ (rows ≠ 1
        ∧ (kind = .D3D_SVT_BOOL ∨ kind = .D3D_SVT_UINT ∨ kind = .D3D_SVT_INT)
        ∧ getVariableType kind rows columns = getVariableType kind 1 columns
        ∧ (kind, 1, columns) ∈ recognisedCombos) := by
  by_cases hc : columns ≤ 4
  · by_cases hr : rows ≤ 4
    · interval_cases rows <;> interval_cases columns <;> cases kind <;> revert h <;> decide
    · have hr5 : ∃ r, rows = r + 5 := ⟨rows - 5, by omega⟩
      obtain ⟨r, rfl⟩ := hr5
      interval_cases columns <;> cases kind <;>
        first
        | (left; rfl)
        | (right; exact ⟨by omega, by decide, rfl, by decide⟩)
  · have hc5 : ∃ c, columns = c + 5 := ⟨columns - 5, by omega⟩
    obtain ⟨c, rfl⟩ := hc5
    left
    cases kind with
    | D3D_SVT_FLOAT =>
      by_cases hr : rows ≤ 4
      · interval_cases rows <;> rfl
      · have hr5 : ∃ r, rows = r + 5 := ⟨rows - 5, by omega⟩
        obtain ⟨r, rfl⟩ := hr5
        rfl
    | _ => rfl

/-- The body of the probe loop on a declaration whose name is not in the name
index: the entry is created from the flattened map, whatever its leaves are,
the stage bit is set, and the log is not touched. -/
theorem reflectBuffer_new_name (pReflection : ShaderReflection) (shader : Nat)
    (pBuffer : ShaderReflectionConstantBuffer) (self : ProgramReflection) (log : String)
    (bindDesc : D3D_SHADER_INPUT_BIND_DESC)
    (hbind : pReflection.GetResourceBindingDescByName pBuffer.Name = some bindDesc)
    (hfresh : (self.mBuffers
        (if pBuffer.Type_ = D3D_CBUFFER_TYPE.D3D_CT_CBUFFER then BufferType.Constant
          else BufferType.UnorderedAccess)).nameMap.find pBuffer.Name = none) :
    reflectBuffer pReflection shader pBuffer self log
      = some (true,
          self.setBuffers
            (if pBuffer.Type_ = D3D_CBUFFER_TYPE.D3D_CT_CBUFFER then BufferType.Constant
              else BufferType.UnorderedAccess)
            { nameMap := (self.mBuffers
                (if pBuffer.Type_ = D3D_CBUFFER_TYPE.D3D_CT_CBUFFER then BufferType.Constant
                  else BufferType.UnorderedAccess)).nameMap.set pBuffer.Name
                  bindDesc.BindPoint
              descMap := ((self.mBuffers
                (if pBuffer.Type_ = D3D_CBUFFER_TYPE.D3D_CT_CBUFFER then BufferType.Constant
                  else BufferType.UnorderedAccess)).descMap.set bindDesc.BindPoint
                  { name := pBuffer.Name
                    regIndex := bindDesc.BindPoint
                    type := BufferType.Constant
                    sizeInBytes := pBuffer.Size
                    variableCount := pBuffer.Variables
                    varMap := initializeBufferVariables pBuffer [] }).set bindDesc.BindPoint
                  { name := pBuffer.Name
                    regIndex := bindDesc.BindPoint
                    type := BufferType.Constant
                    sizeInBytes := pBuffer.Size
                    variableCount := pBuffer.Variables
                    varMap := initializeBufferVariables pBuffer []
                    shaderMask := 0 ||| (1 <<< shader) } },
          log) := by
  unfold reflectBuffer
  rw [hbind]
  simp only []
  rw [hfresh]
  simp only [updateShaderMask, StdMap.find_set_self]

/-- C13, amended: a leaf whose combination is not one of the 25 recognised
ones violates an assertion of `getVariableType` (`assert(rows == 1)` or
`should_not_get_here()`); with the assertions compiled out it is classified as
`Unknown`, or, for bool, uint and int with more than one row and 1..4 columns,
as the vector of that column count, and `reflectBuffers` on the buffer returns
true, appends nothing to the log and stores the variable with that type. -/
theorem reflectBuffers_unclassified_leaf (cls : D3D_SHADER_VARIABLE_CLASS)
    (kind : D3D_SHADER_VARIABLE_TYPE) (rows columns size : Nat) (log : String)
    (hcls : cls ≠ D3D_SHADER_VARIABLE_CLASS.D3D_SVC_STRUCT)
    (hun : (kind, rows, columns) ∉ recognisedCombos) :
    getVariableType_assert kind rows columns = false
    ∧ (getVariableType kind rows columns = VariableType.Unknown
        ∨ (rows ≠ 1
            ∧ (kind = .D3D_SVT_BOOL ∨ kind = .D3D_SVT_UINT ∨ kind = .D3D_SVT_INT)
            ∧ getVariableType kind rows columns = getVariableType kind 1 columns
            ∧ (kind, 1, columns) ∈ recognisedCombos))
    ∧ reflectBuffers [some (leafStage cls kind rows columns size)] {} log
        = some (true,
            { mBuffersConstant :=
                { descMap := [(0,
                    { name := "Globals", regIndex := 0, type := .Constant,
                      sizeInBytes := size, variableCount := 1,
                      varMap := [("v",
                        { location := 0
                          arraySize := 0
                          isRowMajor :=
                            decide (cls = D3D_SHADER_VARIABLE_CLASS.D3D_SVC_MATRIX_ROWS)
                          type := getVariableType kind rows columns })],
                      shaderMask := 1 })],
                  nameMap := [("Globals", 0)] } },
            log) := by
  refine ⟨?_, getVariableType_unclassified kind rows columns hun, ?_⟩
  · rcases h : getVariableType_assert kind rows columns with _ | _
    · rfl
    · exact absurd ((getVariableType_assert_iff kind rows columns).1 h) hun
  · have hinit : initializeBufferVariables (leafBuffer cls kind rows columns size) []
        = [("v",
            { location := 0
              arraySize := 0
              isRowMajor := decide (cls = D3D_SHADER_VARIABLE_CLASS.D3D_SVC_MATRIX_ROWS)
              type := getVariableType kind rows columns })] := by
      unfold initializeBufferVariables reflectVariable leafBuffer
      simp only [List.foldl]
      unfold reflectType
      simp only []
      rw [if_neg hcls]
      rfl
    have hbody := reflectBuffer_new_name (leafStage cls kind rows columns size) 0
      (leafBuffer cls kind rows columns size) {} log (cbufferBinding "Globals" 0)
      rfl rfl
    rw [hinit] at hbody
    unfold reflectBuffers
    rw [reflectBuffersFrom]
    have hstage : reflectStageBuffers (leafStage cls kind rows columns size) 0 0
        (leafStage cls kind rows columns size).constantBuffers {} log
        = some (true,
            { mBuffersConstant :=
                { descMap := [(0,
                    { name := "Globals", regIndex := 0, type := .Constant,
                      sizeInBytes := size, variableCount := 1,
                      varMap := [("v",
                        { location := 0
                          arraySize := 0
                          isRowMajor :=
                            decide (cls = D3D_SHADER_VARIABLE_CLASS.D3D_SVC_MATRIX_ROWS)
                          type := getVariableType kind rows columns })],
                      shaderMask := 1 })],
                  nameMap := [("Globals", 0)] } },
            log) := by
      show reflectStageBuffers (leafStage cls kind rows columns size) 0 0
        [leafBuffer cls kind rows columns size] {} log = _
      rw [reflectStageBuffers,
        if_pos (show 0 < (leafStage cls kind rows columns size).ConstantBuffers
          from Nat.zero_lt_one),
        if_pos (show (leafBuffer cls kind rows columns size).Type_
              = D3D_CBUFFER_TYPE.D3D_CT_TBUFFER
            ∨ (leafBuffer cls kind rows columns size).Type_ = D3D_CBUFFER_TYPE.D3D_CT_CBUFFER
          from Or.inr rfl),
        hbody]
      simp only []
      rw [reflectStageBuffers_done _ _ _ _ _ _
        (show ¬ 0 + 1 < (leafStage cls kind rows columns size).ConstantBuffers
          from Nat.lt_irrefl 1)]
      rfl
    rw [hstage]
    rfl

/-- Witness of C13 (amended): a `double` scalar, and a `bool` with 2 rows and
2 columns, which is stored as `Bool2`. -/
theorem reflectBuffers_unclassified_leaf_witness :
    reflectBuffers [some (leafStage .D3D_SVC_SCALAR .D3D_SVT_DOUBLE 1 1 8)] {} ""
        = some (true,
            { mBuffersConstant :=
                { descMap := [(0,
                    { name := "Globals", regIndex := 0, type := .Constant,
                      sizeInBytes := 8, variableCount := 1,
                      varMap := [("v", { location := 0, type := VariableType.Unknown })],
                      shaderMask := 1 })],
                  nameMap := [("Globals", 0)] } },
            "")
    ∧ reflectBuffers [some (leafStage .D3D_SVC_MATRIX_COLUMNS .D3D_SVT_BOOL 2 2 16)] {} ""
        = some (true,
            { mBuffersConstant :=
                { descMap := [(0,
                    { name := "Globals", regIndex := 0, type := .Constant,
                      sizeInBytes := 16, variableCount := 1,
                      varMap := [("v", { location := 0, type := VariableType.Bool2 })],
                      shaderMask := 1 })],
                  nameMap := [("Globals", 0)] } },
            "") :=
  ⟨(reflectBuffers_unclassified_leaf .D3D_SVC_SCALAR .D3D_SVT_DOUBLE 1 1 8 ""
      (by decide) (by decide)).2.2,
   (reflectBuffers_unclassified_leaf .D3D_SVC_MATRIX_COLUMNS .D3D_SVT_BOOL 2 2 16 ""
      (by decide) (by decide)).2.2⟩

/-! ## The size check on a buffer with a nonzero offset -/

/-- The size check of `initializeBufferVariables` on a buffer whose flattened
map has the positive largest location `m`, first reached by the entry `e`: it
holds exactly for the declared size `m + 16 * rows(e.type)`. -/
theorem initializeBufferVariables_assert_iff (pReflector : ShaderReflectionConstantBuffer)
    (m : Nat) (e : String × Variable)
    (hmax : ∀ a ∈ initializeBufferVariables pReflector [], a.2.location ≤ m)
    (hfirst : (initializeBufferVariables pReflector []).find? (fun a => a.2.location == m)
      = some e)
    (hpos : 0 < m) :
    initializeBufferVariables_assert pReflector = true
      ↔ pReflector.Size = m + 16 * getRowCountFromType e.2.type := by
  unfold initializeBufferVariables_assert
  rw [calcStructSize_eq_of_max _ m e hmax hfirst hpos]
  simp only [beq_iff_eq]
  exact eq_comm

/-- C14: for `cbuffer Pair { float a; float b; }` (`a` at 0, `b` at 4) the
largest location is 4 and `calcStructSize` returns `4 + 1 * 16 = 20`; the size
check of `initializeBufferVariables` fails for the declared size 16 and holds
for the declared size 20, which is not a multiple of 16. -/
theorem initializeBufferVariables_assert_pair :
    initializeBufferVariables (pairBuffer 16) []
        = [("a", { location := 0, type := .Float }), ("b", { location := 4, type := .Float })]
    ∧ calcStructSize (initializeBufferVariables (pairBuffer 16) []) = 20
    ∧ initializeBufferVariables_assert (pairBuffer 16) = false
    ∧ initializeBufferVariables_assert (pairBuffer 20) = true := by
  decide

/-! ## Register spaces -/

/-- C16: two stages bind `gTex` with the same kind, dimensions, return type,
bind point and array size, the driver reporting register space 0 for the first
and 1 for the second; both records get the default `registerSpace`, and
`reflectResources` returns true with an empty log. -/
theorem reflectResources_ignores_register_space :
    (makeResource (textureBindingInSpace 0)).registerSpace
        = (makeResource (textureBindingInSpace 1)).registerSpace
    ∧ reflectResources [some (textureStageInSpace 0), some (textureStageInSpace 1)] {} ""
        = (true,
            { mResources :=
                [("gTex",
                  { type := .Texture, dims := .Texture2D, retType := .Float, regIndex := 0,
                    registerSpace := 0, arraySize := 0, shaderMask := 3 })] },
            "") := by
  decide

/-! ## Two buffer names at one bind point -/

/-- C18: stage 0 declares `Globals` and stage 1 declares `Material`, both at
bind point 0.  `reflectBuffers` returns true; both names are in the name index
at bind point 0, where the table holds the entry of `Material` with mask
`1 <<< 1`.  The entry reached through `Globals` has bit 0 clear, although
stage 0 declared `Globals`, and bit 1 set, although stage 1 did not. -/
theorem reflectBuffers_shared_bind_point :
    reflectBuffers [some (globalsStage 0), some (materialStage 0)] {} ""
        = some (true,
            { mBuffersConstant :=
                { descMap := [(0,
                    { name := "Material", regIndex := 0, type := .Constant, sizeInBytes := 16,
                      variableCount := 1,
                      varMap := [("tint", { location := 0, type := .Float4 })],
                      shaderMask := 2 })],
                  nameMap := [("Globals", 0), ("Material", 0)] } },
            "")
    ∧ Nat.testBit 2 0 = false
    ∧ Nat.testBit 2 1 = true := by
  decide

/-! ## A declaration that fails validation -/

/-- The whole run when the body of the probe loop returns false at the
declaration that follows `before` in the stage after `pre`. -/
theorem reflectBuffers_fails_at
    (pre post : List (Option ShaderReflection)) (pReflection : ShaderReflection)
    (before after : List ShaderReflectionConstantBuffer)
    (pBuffer : ShaderReflectionConstantBuffer)
    (self0 self self1 : ProgramReflection) (log0 log log1 : String)
    (hsplit : pReflection.constantBuffers = before ++ pBuffer :: after)
    (hkind : isBufferKind pBuffer = true)
    (hreach : before.countP isBufferKind < pReflection.ConstantBuffers)
    (hcut : reflectBuffers (pre ++ [some (pReflection.cutAt before)]) self0 log0
      = some (true, self, log))
    (hfail : reflectBuffer pReflection (0 + pre.length) pBuffer self log
      = some (false, self1, log1)) :
    reflectBuffers (pre ++ some pReflection :: post) self0 log0 = some (false, self1, log1) := by
  unfold reflectBuffers at hcut ⊢
  obtain ⟨selfA, logA, hpre, hlast⟩ := reflectBuffersFrom_append_inv _ _ _ _ _ _ _ hcut
  rw [reflectBuffersFrom_append _ _ _ _ _ _ _ hpre, reflectBuffersFrom, hsplit]
  rw [reflectBuffersFrom] at hlast
  have hstage : reflectStageBuffers (pReflection.cutAt before) (0 + pre.length) 0 before
      selfA logA = some (true, self, log) := by
    rcases hst : reflectStageBuffers (pReflection.cutAt before) (0 + pre.length) 0
        (pReflection.cutAt before).constantBuffers selfA logA with _ | ⟨go, selfB, logB⟩
    · rw [hst] at hlast; simp at hlast
    · rw [hst] at hlast
      cases go with
      | false => simp at hlast
      | true =>
        simp only [reflectBuffersFrom, Option.some.injEq, Prod.mk.injEq, true_and] at hlast
        rw [← hlast.1, ← hlast.2]
        exact hst
  rw [reflectStageBuffers_append pReflection (pReflection.cutAt before) rfl _ before 0
    selfA logA self log (pBuffer :: after) (by simp [ShaderReflection.cutAt]) hstage
    (by omega)]
  have hkind' : pBuffer.Type_ = D3D_CBUFFER_TYPE.D3D_CT_TBUFFER
      ∨ pBuffer.Type_ = D3D_CBUFFER_TYPE.D3D_CT_CBUFFER := by
    simpa [isBufferKind] using hkind
  rw [reflectStageBuffers, if_pos (by omega), if_pos hkind', hfail]

/-- C19: a program is cut right before one buffer declaration of a stage, and
the cut program is accepted with table `self` and log `log`.  When the name of
the declaration is in the name index of `self` at the declaration's own bind
point, `pPrevBuffer` is the entry at that bind point and
`validateBufferDeclaration` returns false on it, `reflectBuffers` on the whole
program returns false, the log gains the message that names the buffer followed
by the text the validator produced, and the table it leaves is `self`: the
existing entry and its shader mask are unchanged. -/
theorem reflectBuffers_validation_failure
    (pre post : List (Option ShaderReflection)) (pReflection : ShaderReflection)
    (before after : List ShaderReflectionConstantBuffer)
    (pBuffer : ShaderReflectionConstantBuffer) (bindDesc : D3D_SHADER_INPUT_BIND_DESC)
    (pPrevBuffer : BufferReflection)
    (self0 self : ProgramReflection) (log0 log : String)
    (hsplit : pReflection.constantBuffers = before ++ pBuffer :: after)
    (hkind : isBufferKind pBuffer = true)
    (hreach : before.countP isBufferKind < pReflection.ConstantBuffers)
    (hbind : pReflection.GetResourceBindingDescByName pBuffer.Name = some bindDesc)
    (hcut : reflectBuffers (pre ++ [some (pReflection.cutAt before)]) self0 log0
      = some (true, self, log))
    (hname : (self.mBuffers
        (if pBuffer.Type_ = D3D_CBUFFER_TYPE.D3D_CT_CBUFFER then BufferType.Constant
          else BufferType.UnorderedAccess)).nameMap.find pBuffer.Name
        = some bindDesc.BindPoint)
    (hentry : (self.mBuffers
        (if pBuffer.Type_ = D3D_CBUFFER_TYPE.D3D_CT_CBUFFER then BufferType.Constant
          else BufferType.UnorderedAccess)).descMap.find bindDesc.BindPoint
        = some pPrevBuffer)
    (hinvalid : (validateBufferDeclaration pPrevBuffer
        (initializeBufferVariables pBuffer []) "").1 = false) :
    reflectBuffers (pre ++ some pReflection :: post) self0 log0
      = some (false, self,
          log ++ ("Constant buffer '" ++ pBuffer.Name ++ "' has different definitions between different shader stages. "
            ++ (validateBufferDeclaration pPrevBuffer
                  (initializeBufferVariables pBuffer []) "").2)) := by
  apply reflectBuffers_fails_at pre post pReflection before after pBuffer self0 self self
    log0 log _ hsplit hkind hreach hcut
  unfold reflectBuffer
  rw [hbind]
  simp only []
  rw [hname]
  simp only []
  rw [if_neg (by simp), hentry]
  simp only []
  rw [if_pos hinvalid]

/-- Witness of C19: the vertex stage declares `Globals` with `float4 color`, the
fragment stage declares `Globals` at the same bind point with `float color`. -/
theorem reflectBuffers_validation_failure_witness :
    reflectBuffers [some (globalsStage 0), some (scalarGlobalsStage 0)] {} ""
      = some (false,
          { mBuffersConstant :=
              { descMap := [(0, globalsEntry 1)], nameMap := [("Globals", 0)] } },
          "" ++ ("Constant buffer '" ++ scalarGlobalsBuffer.Name ++ "' has different definitions between different shader stages. "
            ++ (validateBufferDeclaration (globalsEntry 1)
                  (initializeBufferVariables scalarGlobalsBuffer []) "").2))
    ∧ (validateBufferDeclaration (globalsEntry 1)
          (initializeBufferVariables scalarGlobalsBuffer []) "").2
        = "color Type mismatch.\n" :=
  ⟨reflectBuffers_validation_failure [some (globalsStage 0)] [] (scalarGlobalsStage 0)
      [] [] scalarGlobalsBuffer (cbufferBinding "Globals" 0) (globalsEntry 1) {}
      { mBuffersConstant := { descMap := [(0, globalsEntry 1)], nameMap := [("Globals", 0)] } }
      "" "" rfl (by decide) (by decide) (by decide) (by decide) (by decide) (by decide)
      (by decide),
    by decide⟩

/-! ## The probe loop -/

theorem reflectStageBuffers_eq_list (pReflection : ShaderReflection) (shader : Nat)
    (buffers : List ShaderReflectionConstantBuffer) :
    ∀ (found : Nat) (self : ProgramReflection) (log : String),
      pReflection.ConstantBuffers - found ≤ buffers.countP isBufferKind →
      reflectStageBuffers pReflection shader found buffers self log
        = reflectBufferList pReflection shader
            ((buffers.filter isBufferKind).take (pReflection.ConstantBuffers - found))
            self log := by
  induction buffers with
  | nil =>
    intro found self log h
    rw [reflectStageBuffers_done _ _ _ _ _ _ (by simp at h; omega), List.filter_nil,
      List.take_nil]
    rfl
  | cons b rest ih =>
    intro found self log h
    by_cases hf : found < pReflection.ConstantBuffers
    · by_cases hb : isBufferKind b = true
      · have hb' : b.Type_ = D3D_CBUFFER_TYPE.D3D_CT_TBUFFER
            ∨ b.Type_ = D3D_CBUFFER_TYPE.D3D_CT_CBUFFER := by simpa [isBufferKind] using hb
        rw [List.countP_cons_of_pos _ _ hb] at h
        have hN : pReflection.ConstantBuffers - found
            = (pReflection.ConstantBuffers - (found + 1)) + 1 := by omega
        rw [reflectStageBuffers, if_pos hf, if_pos hb', List.filter_cons_of_pos hb, hN,
          List.take_succ_cons, reflectBufferList]
        rcases reflectBuffer pReflection shader b self log with _ | ⟨go, self1, log1⟩
        · rfl
        · cases go with
          | false => rfl
          | true => exact ih (found + 1) self1 log1 (by omega)
      · have hb' : ¬ (b.Type_ = D3D_CBUFFER_TYPE.D3D_CT_TBUFFER
            ∨ b.Type_ = D3D_CBUFFER_TYPE.D3D_CT_CBUFFER) := by simpa [isBufferKind] using hb
        rw [List.countP_cons_of_neg _ _ hb] at h
        rw [reflectStageBuffers, if_pos hf, if_neg hb', List.filter_cons_of_neg hb]
        exact ih found self log h
    · rw [reflectStageBuffers_done _ _ _ _ _ _ hf]
      have h0 : pReflection.ConstantBuffers - found = 0 := by omega
      rw [h0, List.take_zero]
      rfl

theorem reflectBufferList_isSome (pReflection : ShaderReflection) (shader : Nat)
    (l : List ShaderReflectionConstantBuffer) :
    ∀ (self : ProgramReflection) (log : String),
      (∀ b ∈ l, ∀ (s : ProgramReflection) (lg : String),
        (reflectBuffer pReflection shader b s lg).isSome = true) →
      (reflectBufferList pReflection shader l self log).isSome = true := by
  induction l with
  | nil => intro self log _; rfl
  | cons b rest ih =>
    intro self log h
    have hb := h b (List.mem_cons_self _ _) self log
    rw [reflectBufferList]
    rcases hr : reflectBuffer pReflection shader b self log with _ | ⟨go, self1, log1⟩
    · rw [hr] at hb; simp at hb
    · cases go with
      | false => rfl
      | true => exact ih self1 log1 (fun b' hb' => h b' (List.mem_cons_of_mem _ hb'))

/-- C20: a stage reports `N = ConstantBuffers` buffers and its indexed sequence
`buffers` holds at least `N` entries of constant or texture-buffer kind.  The
probe loop then gives the result of running its body on the first `N` entries
of matching kind, in index order, the other entries being skipped without
being counted; it returns whenever the body returns on those entries; and the
result is the same for every sequence that agrees with `buffers` up to a
position by which `N` matching entries have been seen, the empty continuation
included, so nothing behind the `N`-th matching entry is probed. -/
theorem reflectStageBuffers_probe (pReflection : ShaderReflection) (shader : Nat)
    (buffers : List ShaderReflectionConstantBuffer) (self : ProgramReflection) (log : String)
    (hN : pReflection.ConstantBuffers ≤ buffers.countP isBufferKind) :
    reflectStageBuffers pReflection shader 0 buffers self log
        = reflectBufferList pReflection shader
            ((buffers.filter isBufferKind).take pReflection.ConstantBuffers) self log
    ∧ ((buffers.filter isBufferKind).take pReflection.ConstantBuffers).length
        = pReflection.ConstantBuffers
    ∧ ((∀ b ∈ (buffers.filter isBufferKind).take pReflection.ConstantBuffers,
          ∀ (s : ProgramReflection) (lg : String),
            (reflectBuffer pReflection shader b s lg).isSome = true) →
        (reflectStageBuffers pReflection shader 0 buffers self log).isSome = true)
    ∧ (∀ (k : Nat) (continuation : List ShaderReflectionConstantBuffer),
        pReflection.ConstantBuffers ≤ (buffers.take k).countP isBufferKind →
        reflectStageBuffers pReflection shader 0 (buffers.take k ++ continuation) self log
          = reflectStageBuffers pReflection shader 0 buffers self log) := by
  have hmain := reflectStageBuffers_eq_list pReflection shader buffers 0 self log
    (by omega)
  rw [Nat.sub_zero] at hmain
  refine ⟨hmain, ?_, ?_, ?_⟩
  · rw [List.length_take, ← List.countP_eq_length_filter]
    omega
  · intro hdef
    rw [hmain]
    exact reflectBufferList_isSome _ _ _ _ _ hdef
  · intro k continuation hk
    have hcount : pReflection.ConstantBuffers
        ≤ (buffers.take k ++ continuation).countP isBufferKind := by
      rw [List.countP_append]
      omega
    have hleft := reflectStageBuffers_eq_list pReflection shader
      (buffers.take k ++ continuation) 0 self log (by omega)
    rw [Nat.sub_zero] at hleft
    have hlen : pReflection.ConstantBuffers ≤ ((buffers.take k).filter isBufferKind).length := by
      rw [← List.countP_eq_length_filter]
      exact hk
    rw [hleft, hmain, List.filter_append, List.take_append_of_le_length hlen]
    have hsplit : buffers.filter isBufferKind
        = (buffers.take k).filter isBufferKind ++ (buffers.drop k).filter isBufferKind := by
      rw [← List.filter_append, List.take_append_drop]
    rw [hsplit, List.take_append_of_le_length hlen]

/-- Witness of C20: with 2 reported buffers the probe of `sparseStage` runs the
body on `Globals` and `Material`, skips the entry between them and never
reaches `PerFrame`. -/
theorem reflectStageBuffers_probe_witness :
    reflectStageBuffers sparseStage 0 0 sparseStage.constantBuffers {} ""
        = reflectBufferList sparseStage 0 [globalsBuffer, materialBuffer] {} ""
    ∧ (reflectStageBuffers sparseStage 0 0 sparseStage.constantBuffers {} "").isSome = true
    ∧ reflectStageBuffers sparseStage 0 0
          [globalsBuffer, bindInfoBuffer, materialBuffer] {} ""
        = reflectStageBuffers sparseStage 0 0 sparseStage.constantBuffers {} "" :=
  have h := reflectStageBuffers_probe sparseStage 0 sparseStage.constantBuffers {} ""
    (by decide)
  ⟨h.1, by decide, h.2.2.2 3 [] (by decide)⟩

/-! ## The loops of `reflectResources` -/

theorem reflectStageResources_append (shader : Nat) (before rest : List D3D_SHADER_INPUT_BIND_DESC) :
    ∀ (T : ResourceMap) (log : String),
      reflectStageResources shader (before ++ rest) T log
        = match reflectStageResources shader before T log with
          | (false, T1, log1) => (false, T1, log1)
          | (true, T1, log1) => reflectStageResources shader rest T1 log1 := by
  induction before with
  | nil => intro T log; rfl
  | cons d before ih =>
    intro T log
    rw [List.cons_append, reflectStageResources, reflectStageResources]
    rcases reflectResource shader d T log with ⟨go, T1, log1⟩
    cases go with
    | false => rfl
    | true => exact ih T1 log1

theorem reflectResourcesFrom_append (pre rest : List (Option ShaderReflection)) :
    ∀ (shader : Nat) (T : ResourceMap) (log : String),
      reflectResourcesFrom (pre ++ rest) shader T log
        = match reflectResourcesFrom pre shader T log with
          | (false, T1, log1) => (false, T1, log1)
          | (true, T1, log1) => reflectResourcesFrom rest (shader + pre.length) T1 log1 := by
  induction pre with
  | nil => intro shader T log; rfl
  | cons st pre ih =>
    intro shader T log
    have hlen : shader + (st :: pre).length = shader + 1 + pre.length := by
      rw [List.length_cons]; omega
    cases st with
    | none =>
      rw [List.cons_append, reflectResourcesFrom, reflectResourcesFrom, ih, hlen]
    | some pReflection =>
      rw [List.cons_append, reflectResourcesFrom, reflectResourcesFrom]
      rcases reflectStageResources shader pReflection.boundResources T log with ⟨go, T1, log1⟩
      cases go with
      | false => rfl
      | true =>
        simp only []
        rw [ih, hlen]

/-- The run of `reflectResources` up to the entry that follows `before` in the
stage after `pre`, when the program cut there is accepted. -/
theorem reflectResourcesFrom_at_cut
    (pre post : List (Option ShaderReflection)) (pReflection : ShaderReflection)
    (before after : List D3D_SHADER_INPUT_BIND_DESC) (d : D3D_SHADER_INPUT_BIND_DESC)
    (T0 T : ResourceMap) (log0 log : String)
    (hsplit : pReflection.boundResources = before ++ d :: after)
    (hcut : reflectResourcesFrom (pre ++ [some (pReflection.cutResourcesAt before)]) 0 T0 log0
      = (true, T, log)) :
    reflectResourcesFrom (pre ++ some pReflection :: post) 0 T0 log0
      = match reflectStageResources (0 + pre.length) (d :: after) T log with
        | (false, T1, log1) => (false, T1, log1)
        | (true, T1, log1) => reflectResourcesFrom post (0 + pre.length + 1) T1 log1 := by
  rw [reflectResourcesFrom_append] at hcut ⊢
  rcases hpre : reflectResourcesFrom pre 0 T0 log0 with ⟨go, T1, log1⟩
  rw [hpre] at hcut
  cases go with
  | false => simp at hcut
  | true =>
    simp only [] at hcut ⊢
    rw [reflectResourcesFrom] at hcut ⊢
    have hb : (pReflection.cutResourcesAt before).boundResources = before := rfl
    rw [hb] at hcut
    rw [hsplit, reflectStageResources_append]
    rcases hst : reflectStageResources (0 + pre.length) before T1 log1 with ⟨go2, T2, log2⟩
    rw [hst] at hcut
    cases go2 with
    | false => simp at hcut
    | true =>
      simp only [reflectResourcesFrom, Prod.mk.injEq, true_and] at hcut
      simp only []
      rw [hcut.1, hcut.2]

theorem string_empty_append (s : String) : "" ++ s = s := by
  apply String.ext
  simp

theorem test_resource_field_eq (differs : Bool) (field : String) (s : Bool × String) :
    test_resource_field differs field s
      = (s.1 && !differs, s.2 ++ (if differs = true then error_msg field else "")) := by
  unfold test_resource_field
  cases differs
  · simp
  · simp

/-- The body of the loop of `reflectResources` on a texture whose name is in
the table as a texture of other dimensions. -/
theorem reflectResource_dims_mismatch (shader : Nat) (d : D3D_SHADER_INPUT_BIND_DESC)
    (T : ResourceMap) (log : String) (prev : Resource)
    (hfound : StdMap.find T d.Name = some prev)
    (htex1 : prev.type = ResourceType.Texture)
    (htex2 : d.Type_ = D3D_SHADER_INPUT_TYPE.D3D_SIT_TEXTURE)
    (hdims : prev.dims ≠ getResourceDimensions d.Dimension) :
    ∃ rest : String,
      reflectResource shader d T log
        = (false, T,
            log ++ ("Shader resource '" ++ d.Name ++ "' has different definitions between different shader stages. "
              ++ ("dims mismatch.\n" ++ rest))) := by
  have htype : (makeResource d).type = ResourceType.Texture := by
    simp [makeResource, htex2, getResourceType]
  have hmdims : (makeResource d).dims = getResourceDimensions d.Dimension := by
    simp [makeResource, htex2, getResourceType]
  have hne : ¬ d.Type_ = D3D_SHADER_INPUT_TYPE.D3D_SIT_CBUFFER := by
    rw [htex2]; decide
  have hverify : verifyResourceDefinition prev (makeResource d) ""
      = (false, "dims mismatch.\n" ++
          ((if (prev.retType != (makeResource d).retType) = true then error_msg "retType" else "")
            ++ ((if (prev.regIndex != (makeResource d).regIndex) = true
                  then error_msg "regIndex" else "")
              ++ ((if (prev.registerSpace != (makeResource d).registerSpace) = true
                    then error_msg "registerSpace" else "")
                ++ (if (prev.arraySize != (makeResource d).arraySize) = true
                    then error_msg "arraySize" else ""))))) := by
    have h1 : (prev.type != (makeResource d).type) = false := by
      rw [htype, htex1]; rfl
    have h2 : (prev.dims != (makeResource d).dims) = true := by
      rw [hmdims]; simpa using hdims
    have hmsg : error_msg "dims" = "dims mismatch.\n" := by decide
    unfold verifyResourceDefinition
    simp only [test_resource_field_eq, h1, h2, hmsg]
    simp [String.append_assoc, string_empty_append]
  unfold reflectResource
  rw [if_neg hne]
  simp only []
  rw [hfound]
  simp only []
  rw [hverify]
  simp only []
  exact ⟨_, rfl⟩

/-- C15: a program is cut right before one entry of a stage's binding table,
and the cut program is accepted with table `self` and log `log`.  When that
entry binds as a texture a name that `self` holds as a texture of other
dimensions, `reflectResources` on the whole program returns false, leaves the
table `self`, and appends the message that names the resource followed by the
validator's text, which starts with the line `dims mismatch.`. -/
theorem reflectResources_dims_mismatch
    (pre post : List (Option ShaderReflection)) (pReflection : ShaderReflection)
    (before after : List D3D_SHADER_INPUT_BIND_DESC) (d : D3D_SHADER_INPUT_BIND_DESC)
    (prev : Resource) (self0 self : ProgramReflection) (log0 log : String)
    (hsplit : pReflection.boundResources = before ++ d :: after)
    (hcut : reflectResources (pre ++ [some (pReflection.cutResourcesAt before)]) self0 log0
      = (true, self, log))
    (hfound : StdMap.find self.mResources d.Name = some prev)
    (htex1 : prev.type = ResourceType.Texture)
    (htex2 : d.Type_ = D3D_SHADER_INPUT_TYPE.D3D_SIT_TEXTURE)
    (hdims : prev.dims ≠ getResourceDimensions d.Dimension) :
    ∃ rest : String,
      reflectResources (pre ++ some pReflection :: post) self0 log0
        = (false, self,
            log ++ ("Shader resource '" ++ d.Name ++ "' has different definitions between different shader stages. "
              ++ ("dims mismatch.\n" ++ rest))) := by
  unfold reflectResources at hcut ⊢
  simp only [Prod.mk.injEq] at hcut
  obtain ⟨hgo, hself, hlog⟩ := hcut
  have hrun : reflectResourcesFrom (pre ++ [some (pReflection.cutResourcesAt before)]) 0
      self0.mResources log0 = (true, self.mResources, log) := by
    rw [← hself, ← hlog, ← hgo]
  obtain ⟨rest, hbody⟩ := reflectResource_dims_mismatch (0 + pre.length) d self.mResources log
    prev hfound htex1 htex2 hdims
  refine ⟨rest, ?_⟩
  rw [reflectResourcesFrom_at_cut pre post pReflection before after d _ _ _ _ hsplit hrun,
    reflectStageResources, hbody]
  simp only [Prod.mk.injEq, true_and, and_true]
  rw [← hself]

/-- Witness of C15: `gTex` is a 2D texture in the first stage and a cube
texture in the second. -/
theorem reflectResources_dims_mismatch_witness :
    ∃ rest : String,
      reflectResources
          [some (textureStage .D3D_SRV_DIMENSION_TEXTURE2D),
            some (textureStage .D3D_SRV_DIMENSION_TEXTURECUBE)] {} ""
        = (false,
            { mResources :=
                [("gSampler", { type := .Sampler, regIndex := 0, shaderMask := 1 }),
                 ("gTex",
                  { type := .Texture, dims := .Texture2D, retType := .Float, regIndex := 0,
                    shaderMask := 1 })] },
            "" ++ ("Shader resource '" ++ (textureBinding .D3D_SRV_DIMENSION_TEXTURECUBE).Name ++ "' has different definitions between different shader stages. "
              ++ ("dims mismatch.\n" ++ rest))) :=
  reflectResources_dims_mismatch [some (textureStage .D3D_SRV_DIMENSION_TEXTURE2D)] []
    (textureStage .D3D_SRV_DIMENSION_TEXTURECUBE) []
    [samplerBinding] (textureBinding .D3D_SRV_DIMENSION_TEXTURECUBE)
    { type := .Texture, dims := .Texture2D, retType := .Float, regIndex := 0, shaderMask := 1 }
    {}
    { mResources :=
        [("gSampler", { type := .Sampler, regIndex := 0, shaderMask := 1 }),
         ("gTex",
          { type := .Texture, dims := .Texture2D, retType := .Float, regIndex := 0,
            shaderMask := 1 })] }
    "" "" rfl (by decide) (by decide) (by decide) (by decide) (by decide)

/-! ## Shader masks of the resource table -/

theorem testBit_or_stage_bit (m shader s : Nat) :
    (m ||| (1 <<< shader)).testBit s = true ↔ m.testBit s = true ∨ shader = s := by
  rw [Nat.testBit_or, Nat.one_shiftLeft, Nat.testBit_two_pow]
  simp

theorem masksTrack_step (T T' : ResourceMap) (W : List (Nat × D3D_SHADER_INPUT_BIND_DESC))
    (shader : Nat) (d : D3D_SHADER_INPUT_BIND_DESC) (r' : Resource) (m0 : Nat)
    (h : masksTrack T W)
    (hfind : ∀ n, StdMap.find T' n = if n = d.Name then some r' else StdMap.find T n)
    (hmask : r'.shaderMask = m0 ||| (1 <<< shader))
    (hm0 : (StdMap.find T d.Name = none ∧ m0 = 0)
      ∨ (∃ prev, StdMap.find T d.Name = some prev ∧ m0 = prev.shaderMask)) :
    masksTrack T' (W ++ [(shader, d)]) := by
  constructor
  · intro w hw
    rw [hfind]
    by_cases hn : w.2.Name = d.Name
    · rw [if_pos hn]; rfl
    · rw [if_neg hn]
      rcases List.mem_append.1 hw with hw | hw
      · exact h.1 w hw
      · rw [List.mem_singleton.1 hw] at hn
        exact absurd rfl hn
  · intro n r hr s
    rw [hfind] at hr
    by_cases hn : n = d.Name
    · rw [if_pos hn] at hr
      rw [← Option.some.inj hr, hmask, testBit_or_stage_bit]
      have hold : m0.testBit s = true ↔ ∃ w ∈ W, w.1 = s ∧ w.2.Name = n := by
        rcases hm0 with ⟨hnone, hz⟩ | ⟨prev, hprev, hz⟩
        · rw [hz, Nat.zero_testBit]
          constructor
          · intro hf; exact absurd hf Bool.false_ne_true
          · rintro ⟨w, hw, _, hwn⟩
            have := h.1 w hw
            rw [hwn, hn, hnone] at this
            exact absurd this Bool.false_ne_true
        · rw [hz]
          exact h.2 n prev (hn ▸ hprev) s
      rw [hold]
      constructor
      · rintro (⟨w, hw, hws, hwn⟩ | hs)
        · exact ⟨w, List.mem_append_left _ hw, hws, hwn⟩
        · exact ⟨(shader, d), List.mem_append_right _ (List.mem_singleton.2 rfl), hs, hn.symm⟩
      · rintro ⟨w, hw, hws, hwn⟩
        rcases List.mem_append.1 hw with hw | hw
        · exact Or.inl ⟨w, hw, hws, hwn⟩
        · rw [List.mem_singleton.1 hw] at hws
          exact Or.inr hws
    · rw [if_neg hn] at hr
      rw [h.2 n r hr s]
      constructor
      · rintro ⟨w, hw, hws, hwn⟩
        exact ⟨w, List.mem_append_left _ hw, hws, hwn⟩
      · rintro ⟨w, hw, hws, hwn⟩
        rcases List.mem_append.1 hw with hw | hw
        · exact ⟨w, hw, hws, hwn⟩
        · rw [List.mem_singleton.1 hw] at hwn
          exact absurd hwn.symm hn

theorem find_updateResourceMask_full (T : ResourceMap) (name : String) (shader : Nat)
    (n : String) :
    StdMap.find (updateResourceMask T name shader) n
      = if n = name then
          some { (StdMap.find T name).getD {} with
            shaderMask := ((StdMap.find T name).getD {}).shaderMask ||| (1 <<< shader) }
        else StdMap.find T n := by
  unfold updateResourceMask
  by_cases h : n = name
  · subst h
    rw [StdMap.find_set_self, if_pos rfl]
  · rw [StdMap.find_set_of_ne _ _ _ _ h, if_neg h]

theorem makeResource_shaderMask (d : D3D_SHADER_INPUT_BIND_DESC) :
    (makeResource d).shaderMask = 0 := by
  unfold makeResource
  simp only []
  split <;> rfl

theorem reflectResource_masks (shader : Nat) (d : D3D_SHADER_INPUT_BIND_DESC)
    (T : ResourceMap) (log : String) (W : List (Nat × D3D_SHADER_INPUT_BIND_DESC))
    (hd : isResourceBinding d = true) (h : masksTrack T W)
    (hgo : (reflectResource shader d T log).1 = true) :
    masksTrack (reflectResource shader d T log).2.1 (W ++ [(shader, d)]) := by
  have hd' : ¬ d.Type_ = D3D_SHADER_INPUT_TYPE.D3D_SIT_CBUFFER := by
    simpa [isResourceBinding] using hd
  unfold reflectResource at hgo ⊢
  rw [if_neg hd'] at hgo ⊢
  simp only [] at hgo ⊢
  rcases hfind : StdMap.find T d.Name with _ | prev
  · simp only []
    apply masksTrack_step T _ W shader d
      { makeResource d with shaderMask := (makeResource d).shaderMask ||| (1 <<< shader) } 0 h
    · intro n
      rw [find_updateResourceMask_full]
      by_cases hn : n = d.Name
      · rw [if_pos hn, if_pos hn, StdMap.find_set_self]
        rfl
      · rw [if_neg hn, if_neg hn, StdMap.find_set_of_ne _ _ _ _ hn]
    · show (makeResource d).shaderMask ||| (1 <<< shader) = 0 ||| (1 <<< shader)
      rw [makeResource_shaderMask]
    · exact Or.inl ⟨hfind, rfl⟩
  · rw [hfind] at hgo
    simp only [] at hgo ⊢
    by_cases hv : (verifyResourceDefinition prev (makeResource d) "").1 = false
    · rw [if_pos hv] at hgo
      exact absurd hgo Bool.false_ne_true
    · rw [if_neg hv]
      apply masksTrack_step T _ W shader d
        { prev with shaderMask := prev.shaderMask ||| (1 <<< shader) } prev.shaderMask h
      · intro n
        rw [find_updateResourceMask_full, hfind]
        rfl
      · rfl
      · exact Or.inr ⟨prev, hfind, rfl⟩

theorem reflectStageResources_masks (shader : Nat) (L : List D3D_SHADER_INPUT_BIND_DESC) :
    ∀ (T : ResourceMap) (log : String) (W : List (Nat × D3D_SHADER_INPUT_BIND_DESC)),
      masksTrack T W →
      (reflectStageResources shader L T log).1 = true →
      masksTrack (reflectStageResources shader L T log).2.1
        (W ++ (L.filter isResourceBinding).map (fun d => (shader, d))) := by
  induction L with
  | nil =>
    intro T log W h _
    simpa [reflectStageResources] using h
  | cons d L ih =>
    intro T log W h hgo
    by_cases hd : isResourceBinding d = true
    · have hstep := reflectResource_masks shader d T log W hd h
      rw [reflectStageResources] at hgo ⊢
      rcases hres : reflectResource shader d T log with ⟨go, T1, log1⟩
      rw [hres] at hgo hstep
      cases go with
      | false => exact absurd hgo Bool.false_ne_true
      | true =>
        simp only [] at hgo hstep ⊢
        have := ih T1 log1 _ (hstep trivial) hgo
        rw [List.filter_cons_of_pos hd, List.map_cons]
        simpa using this
    · have hd' : isResourceBinding d = false := by simpa using hd
      rw [reflectStageResources, reflectResource_skip shader d T log hd'] at hgo ⊢
      rw [List.filter_cons_of_neg hd]
      exact ih T log W h hgo

theorem reflectResourcesFrom_masks (stages : List (Option ShaderReflection)) :
    ∀ (shader : Nat) (T : ResourceMap) (log : String)
      (W : List (Nat × D3D_SHADER_INPUT_BIND_DESC)),
      masksTrack T W →
      (reflectResourcesFrom stages shader T log).1 = true →
      masksTrack (reflectResourcesFrom stages shader T log).2.1
        (W ++ stageBindings stages shader) := by
  induction stages with
  | nil =>
    intro shader T log W h _
    simpa [reflectResourcesFrom, stageBindings] using h
  | cons st stages ih =>
    intro shader T log W h hgo
    cases st with
    | none =>
      rw [reflectResourcesFrom] at hgo ⊢
      rw [stageBindings]
      exact ih _ T log W h hgo
    | some pReflection =>
      have hstage := reflectStageResources_masks shader pReflection.boundResources T log W h
      rw [reflectResourcesFrom] at hgo ⊢
      rcases hres : reflectStageResources shader pReflection.boundResources T log
        with ⟨go, T1, log1⟩
      rw [hres] at hgo hstage
      cases go with
      | false => exact absurd hgo Bool.false_ne_true
      | true =>
        simp only [] at hgo hstage ⊢
        rw [stageBindings, ← List.append_assoc]
        exact ih _ T1 log1 _ (hstage trivial) hgo

theorem mem_stageBindings (stages : List (Option ShaderReflection)) :
    ∀ (shader s : Nat) (d : D3D_SHADER_INPUT_BIND_DESC),
      (s, d) ∈ stageBindings stages shader
        ↔ ∃ pReflection, shader ≤ s ∧ stages[s - shader]? = some (some pReflection)
            ∧ d ∈ pReflection.boundResources
            ∧ d.Type_ ≠ D3D_SHADER_INPUT_TYPE.D3D_SIT_CBUFFER := by
  induction stages with
  | nil => intro shader s d; simp [stageBindings]
  | cons st stages ih =>
    intro shader s d
    have hshift : ∀ pReflection : ShaderReflection,
        (shader + 1 ≤ s ∧ stages[s - (shader + 1)]? = some (some pReflection))
          ↔ (shader ≤ s ∧ s ≠ shader ∧ (st :: stages)[s - shader]? = some (some pReflection)) := by
      intro pReflection
      constructor
      · rintro ⟨h1, h2⟩
        have : s - shader = (s - (shader + 1)) + 1 := by omega
        refine ⟨by omega, by omega, ?_⟩
        rw [this, List.getElem?_cons_succ]
        exact h2
      · rintro ⟨h1, h2, h3⟩
        have : s - shader = (s - (shader + 1)) + 1 := by omega
        rw [this, List.getElem?_cons_succ] at h3
        exact ⟨by omega, h3⟩
    cases st with
    | none =>
      rw [stageBindings, ih]
      constructor
      · rintro ⟨pR, h1, h2, h3⟩
        obtain ⟨h4, _, h5⟩ := (hshift pR).1 ⟨h1, h2⟩
        exact ⟨pR, h4, h5, h3⟩
      · rintro ⟨pR, h1, h2, h3⟩
        by_cases hs : s = shader
        · subst hs
          simp at h2
        · obtain ⟨h4, h5⟩ := (hshift pR).2 ⟨h1, hs, h2⟩
          exact ⟨pR, h4, h5, h3⟩
    | some p0 =>
      rw [stageBindings, List.mem_append, ih]
      constructor
      · rintro (hm | ⟨pR, h1, h2, h3⟩)
        · obtain ⟨d', hd', heq⟩ := List.mem_map.1 hm
          simp only [Prod.mk.injEq] at heq
          obtain ⟨hs, hdd⟩ := heq
          subst hs hdd
          rw [List.mem_filter] at hd'
          exact ⟨p0, Nat.le_refl _, by simp, hd'.1, by simpa [isResourceBinding] using hd'.2⟩
        · obtain ⟨h4, _, h5⟩ := (hshift pR).1 ⟨h1, h2⟩
          exact ⟨pR, h4, h5, h3⟩
      · rintro ⟨pR, h1, h2, h3, h4⟩
        by_cases hs : s = shader
        · subst hs
          left
          simp only [Nat.sub_self, List.getElem?_cons_zero, Option.some.injEq] at h2
          subst h2
          exact List.mem_map.2 ⟨d, List.mem_filter.2 ⟨h3, by simpa [isResourceBinding] using h4⟩,
            rfl⟩
        · right
          obtain ⟨h5, h6⟩ := (hshift pR).2 ⟨h1, hs, h2⟩
          exact ⟨pR, h5, h6, h3, h4⟩

/-- C17: after `reflectResources` has returned true on an empty resource table,
bit `s` of the shader mask of the entry of any name `n` in the table is set
exactly when the program has a shader at stage index `s` whose binding table
holds an entry named `n` that is not of constant-buffer kind. -/
theorem reflectResources_shader_masks (pProgVer : ProgramVersion) (self : ProgramReflection)
    (log : String) (n : String) (r : Resource) (s : Nat)
    (hempty : self.mResources = [])
    (htrue : (reflectResources pProgVer self log).1 = true)
    (hentry : StdMap.find (reflectResources pProgVer self log).2.1.mResources n = some r) :
    r.shaderMask.testBit s = true
      ↔ ∃ pReflection, pProgVer[s]? = some (some pReflection)
          ∧ ∃ d ∈ pReflection.boundResources,
              d.Type_ ≠ D3D_SHADER_INPUT_TYPE.D3D_SIT_CBUFFER ∧ d.Name = n := by
  have htrack0 : masksTrack ([] : ResourceMap) [] := by
    constructor
    · intro w hw; simp at hw
    · intro n r hr; simp [StdMap.find] at hr
  unfold reflectResources at htrue hentry
  rw [hempty] at htrue hentry
  simp only [] at htrue hentry
  have h := reflectResourcesFrom_masks pProgVer 0 [] log [] htrack0 htrue
  rw [List.nil_append] at h
  rw [h.2 n r hentry s]
  constructor
  · rintro ⟨w, hw, hws, hwn⟩
    obtain ⟨ws, wd⟩ := w
    simp only [] at hws hwn
    subst hws
    obtain ⟨pR, _, h2, h3, h4⟩ := (mem_stageBindings pProgVer 0 ws wd).1 hw
    exact ⟨pR, by simpa using h2, wd, h3, h4, hwn⟩
  · rintro ⟨pR, h1, d, h2, h3, h4⟩
    exact ⟨(s, d), (mem_stageBindings pProgVer 0 s d).2 ⟨pR, Nat.zero_le _, by simpa using h1,
      h2, h3⟩, rfl, h4⟩

/-- Witness of C17: `gTex` bound by the stages 0 and 2 of three, stage 1 being
absent; the mask is `0b101` and bit 2 is set. -/
theorem reflectResources_shader_masks_witness :
    Nat.testBit 5 2 = true
      ↔ ∃ pReflection,
          [some (textureStage .D3D_SRV_DIMENSION_TEXTURE2D), none,
            some (textureStage .D3D_SRV_DIMENSION_TEXTURE2D)][2]? = some (some pReflection)
          ∧ ∃ d ∈ pReflection.boundResources,
              d.Type_ ≠ D3D_SHADER_INPUT_TYPE.D3D_SIT_CBUFFER ∧ d.Name = "gTex" :=
  reflectResources_shader_masks
    [some (textureStage .D3D_SRV_DIMENSION_TEXTURE2D), none,
      some (textureStage .D3D_SRV_DIMENSION_TEXTURE2D)] {} "" "gTex"
    { type := .Texture, dims := .Texture2D, retType := .Float, regIndex := 0, shaderMask := 5 }
    2 rfl (by decide) (by decide)

/-! ## The text written by the two validators -/

theorem string_append_empty (s : String) : s ++ "" = s := by
  apply String.ext
  simp

theorem string_append_assoc (a b c : String) : a ++ b ++ c = a ++ (b ++ c) := by
  apply String.ext
  simp

theorem string_append_eq_self (p x : String) : p ++ x = p ↔ x = "" := by
  constructor
  · intro h
    have hlen := congrArg String.length h
    rw [String.length_append] at hlen
    apply String.ext
    have hx : x.data.length = 0 := by
      have : x.length = 0 := by omega
      simpa using this
    simpa using List.length_eq_zero.mp hx
  · intro h
    rw [h, string_append_empty]

theorem error_msg_ne_empty (msg : String) : error_msg msg ≠ "" := by
  intro h
  have hlen := congrArg String.length h
  rw [error_msg, String.length_append] at hlen
  have h11 : " mismatch.\n".length = 11 := rfl
  have h0 : "".length = 0 := rfl
  omega

theorem string_append_eq_empty (a b : String) : a ++ b = "" ↔ a = "" ∧ b = "" := by
  constructor
  · intro h
    have hd := congrArg String.data h
    simp only [String.data_append] at hd
    have := List.append_eq_nil.mp hd
    exact ⟨String.ext this.1, String.ext this.2⟩
  · rintro ⟨rfl, rfl⟩
    rfl

/-- C25: `verifyResourceDefinition` runs all six comparisons whatever the
earlier ones found: the text it appends to the log is, in the order type,
dims, retType, regIndex, registerSpace, arraySize, the line
`<field> mismatch.` for each field on which the two records differ and nothing
for the others; it returns true exactly when it appended nothing; and the
shader masks of the two records have no effect on the outcome. -/
theorem verifyResourceDefinition_report (prev current : Resource) (log : String) :
    (verifyResourceDefinition prev current log).2
        = log ++ ((if prev.type ≠ current.type then "type mismatch.\n" else "")
            ++ ((if prev.dims ≠ current.dims then "dims mismatch.\n" else "")
            ++ ((if prev.retType ≠ current.retType then "retType mismatch.\n" else "")
            ++ ((if prev.regIndex ≠ current.regIndex then "regIndex mismatch.\n" else "")
            ++ ((if prev.registerSpace ≠ current.registerSpace
                  then "registerSpace mismatch.\n" else "")
            ++ (if prev.arraySize ≠ current.arraySize
                  then "arraySize mismatch.\n" else ""))))))
      ∧ ((verifyResourceDefinition prev current log).1 = true
          ↔ (verifyResourceDefinition prev current log).2 = log)
      ∧ ((verifyResourceDefinition prev current log).1 = true
          ↔ (prev.type = current.type ∧ prev.dims = current.dims
              ∧ prev.retType = current.retType ∧ prev.regIndex = current.regIndex
              ∧ prev.registerSpace = current.registerSpace
              ∧ prev.arraySize = current.arraySize))
      ∧ ∀ m1 m2 : Nat,
          verifyResourceDefinition { prev with shaderMask := m1 }
              { current with shaderMask := m2 } log
            = verifyResourceDefinition prev current log := by
  have hform : verifyResourceDefinition prev current log
      = (decide (prev.type = current.type) && decide (prev.dims = current.dims)
          && decide (prev.retType = current.retType)
          && decide (prev.regIndex = current.regIndex)
          && decide (prev.registerSpace = current.registerSpace)
          && decide (prev.arraySize = current.arraySize),
         log ++ ((if prev.type ≠ current.type then error_msg "type" else "")
            ++ ((if prev.dims ≠ current.dims then error_msg "dims" else "")
            ++ ((if prev.retType ≠ current.retType then error_msg "retType" else "")
            ++ ((if prev.regIndex ≠ current.regIndex then error_msg "regIndex" else "")
            ++ ((if prev.registerSpace ≠ current.registerSpace
                  then error_msg "registerSpace" else "")
            ++ (if prev.arraySize ≠ current.arraySize
                  then error_msg "arraySize" else ""))))))) := by
    unfold verifyResourceDefinition
    simp only [test_resource_field_eq, string_append_assoc]
    by_cases h1 : prev.type = current.type <;>
    by_cases h2 : prev.dims = current.dims <;>
    by_cases h3 : prev.retType = current.retType <;>
    by_cases h4 : prev.regIndex = current.regIndex <;>
    by_cases h5 : prev.registerSpace = current.registerSpace <;>
    by_cases h6 : prev.arraySize = current.arraySize <;>
    simp [h1, h2, h3, h4, h5, h6]
  refine ⟨?_, ?_, ?_, ?_⟩
  · rw [hform]
    rfl
  · rw [hform]
    simp only [string_append_eq_self, string_append_eq_empty]
    by_cases h1 : prev.type = current.type <;>
    by_cases h2 : prev.dims = current.dims <;>
    by_cases h3 : prev.retType = current.retType <;>
    by_cases h4 : prev.regIndex = current.regIndex <;>
    by_cases h5 : prev.registerSpace = current.registerSpace <;>
    by_cases h6 : prev.arraySize = current.arraySize <;>
    simp [h1, h2, h3, h4, h5, h6, error_msg_ne_empty]
  · rw [hform]
    simp [and_assoc]
  · intro m1 m2
    rfl

/-! ## Return types and array sizes of bound resources -/

theorem reflectResource_log_of_true (shader : Nat) (d : D3D_SHADER_INPUT_BIND_DESC)
    (T : ResourceMap) (log : String) (h : (reflectResource shader d T log).1 = true) :
    (reflectResource shader d T log).2.2 = log := by
  unfold reflectResource at h ⊢
  by_cases hd : d.Type_ = D3D_SHADER_INPUT_TYPE.D3D_SIT_CBUFFER
  · rw [if_pos hd]
  · rw [if_neg hd] at h ⊢
    simp only [] at h ⊢
    rcases hfind : StdMap.find T d.Name with _ | prev
    · rfl
    · rw [hfind] at h
      simp only [] at h ⊢
      by_cases hv : (verifyResourceDefinition prev (makeResource d) "").1 = false
      · rw [if_pos hv] at h
        simp at h
      · rw [if_neg hv]

theorem reflectStageResources_log_of_true (shader : Nat)
    (l : List D3D_SHADER_INPUT_BIND_DESC) (T : ResourceMap) (log : String)
    (h : (reflectStageResources shader l T log).1 = true) :
    (reflectStageResources shader l T log).2.2 = log := by
  induction l generalizing T log with
  | nil => rfl
  | cons d rest ih =>
    rw [reflectStageResources] at h ⊢
    have hlog := reflectResource_log_of_true shader d T log
    rcases hres : reflectResource shader d T log with ⟨go, T1, log1⟩
    rw [hres] at h hlog
    cases go with
    | false => simp at h
    | true =>
      simp only [] at h ⊢
      rw [ih T1 log1 h]
      exact hlog rfl

theorem reflectResourcesFrom_log_of_true (stages : List (Option ShaderReflection))
    (shader : Nat) (T : ResourceMap) (log : String)
    (h : (reflectResourcesFrom stages shader T log).1 = true) :
    (reflectResourcesFrom stages shader T log).2.2 = log := by
  induction stages generalizing shader T log with
  | nil => rfl
  | cons s rest ih =>
    cases s with
    | none =>
      rw [reflectResourcesFrom] at h ⊢
      exact ih _ _ _ h
    | some pReflection =>
      rw [reflectResourcesFrom] at h ⊢
      have hlog := reflectStageResources_log_of_true shader pReflection.boundResources T log
      rcases hres : reflectStageResources shader pReflection.boundResources T log
        with ⟨go, T1, log1⟩
      rw [hres] at h hlog
      cases go with
      | false => simp at h
      | true =>
        simp only [] at h ⊢
        rw [ih _ T1 log1 h]
        exact hlog rfl

/-- C21: `getReturnType` maps the driver return types unorm, snorm and float to
`Float`, sint to `Int`, uint to `Uint` and double to `Double`.  Hence a texture
binding recorded with return type unorm and the same binding seen with return
type float give records that `verifyResourceDefinition` accepts without
writing a line, and `reflectResources` accepts the program whose first stage
binds the texture as unorm and whose second stage binds it as float, leaving
the log as it was. -/
theorem getReturnType_unorm_float (d : D3D_SHADER_INPUT_BIND_DESC) (log : String)
    (htex : d.Type_ = D3D_SHADER_INPUT_TYPE.D3D_SIT_TEXTURE) :
    getReturnType D3D_RESOURCE_RETURN_TYPE.D3D_RETURN_TYPE_UNORM = ReturnType.Float
      ∧ getReturnType D3D_RESOURCE_RETURN_TYPE.D3D_RETURN_TYPE_SNORM = ReturnType.Float
      ∧ getReturnType D3D_RESOURCE_RETURN_TYPE.D3D_RETURN_TYPE_FLOAT = ReturnType.Float
      ∧ getReturnType D3D_RESOURCE_RETURN_TYPE.D3D_RETURN_TYPE_SINT = ReturnType.Int
      ∧ getReturnType D3D_RESOURCE_RETURN_TYPE.D3D_RETURN_TYPE_UINT = ReturnType.Uint
      ∧ getReturnType D3D_RESOURCE_RETURN_TYPE.D3D_RETURN_TYPE_DOUBLE = ReturnType.Double
      ∧ (makeResource
            { d with ReturnType := D3D_RESOURCE_RETURN_TYPE.D3D_RETURN_TYPE_UNORM }).retType
          = ReturnType.Float
      ∧ verifyResourceDefinition
            (makeResource
              { d with ReturnType := D3D_RESOURCE_RETURN_TYPE.D3D_RETURN_TYPE_UNORM })
            (makeResource
              { d with ReturnType := D3D_RESOURCE_RETURN_TYPE.D3D_RETURN_TYPE_FLOAT }) log
          = (true, log)
      ∧ ∀ (n1 n2 : Nat) (cb1 cb2 : List ShaderReflectionConstantBuffer)
          (self : ProgramReflection), self.mResources = [] →
          (reflectResources
            [some { ConstantBuffers := n1, constantBuffers := cb1, boundResources :=
                [{ d with ReturnType := D3D_RESOURCE_RETURN_TYPE.D3D_RETURN_TYPE_UNORM }] },
             some { ConstantBuffers := n2, constantBuffers := cb2, boundResources :=
                [{ d with ReturnType := D3D_RESOURCE_RETURN_TYPE.D3D_RETURN_TYPE_FLOAT }] }]
            self log).1 = true
          ∧ (reflectResources
            [some { ConstantBuffers := n1, constantBuffers := cb1, boundResources :=
                [{ d with ReturnType := D3D_RESOURCE_RETURN_TYPE.D3D_RETURN_TYPE_UNORM }] },
             some { ConstantBuffers := n2, constantBuffers := cb2, boundResources :=
                [{ d with ReturnType := D3D_RESOURCE_RETURN_TYPE.D3D_RETURN_TYPE_FLOAT }] }]
            self log).2.2 = log := by
  have hmk : makeResource
        { d with ReturnType := D3D_RESOURCE_RETURN_TYPE.D3D_RETURN_TYPE_UNORM }
      = makeResource
        { d with ReturnType := D3D_RESOURCE_RETURN_TYPE.D3D_RETURN_TYPE_FLOAT } := by
    unfold makeResource
    simp only [htex, getResourceType, getReturnType]
  refine ⟨rfl, rfl, rfl, rfl, rfl, rfl, ?_, ?_, ?_⟩
  · unfold makeResource
    simp [htex, getResourceType, getReturnType]
  · rw [hmk]
    unfold verifyResourceDefinition test_resource_field
    simp
  · intro n1 n2 cb1 cb2 self hempty
    have hgo : (reflectResources
            [some { ConstantBuffers := n1, constantBuffers := cb1, boundResources :=
                [{ d with ReturnType := D3D_RESOURCE_RETURN_TYPE.D3D_RETURN_TYPE_UNORM }] },
             some { ConstantBuffers := n2, constantBuffers := cb2, boundResources :=
                [{ d with ReturnType := D3D_RESOURCE_RETURN_TYPE.D3D_RETURN_TYPE_FLOAT }] }]
            self log).1 = true := by
      rw [reflectResources_iff_bindingsAgree _ _ _ hempty]
      intro d1 h1 d2 h2 _
      have hall : ∀ x ∈ programBindings
          [some { ConstantBuffers := n1, constantBuffers := cb1, boundResources :=
                [{ d with ReturnType := D3D_RESOURCE_RETURN_TYPE.D3D_RETURN_TYPE_UNORM }] },
             some { ConstantBuffers := n2, constantBuffers := cb2, boundResources :=
                [{ d with ReturnType := D3D_RESOURCE_RETURN_TYPE.D3D_RETURN_TYPE_FLOAT }] }],
          makeResource x = makeResource
            { d with ReturnType := D3D_RESOURCE_RETURN_TYPE.D3D_RETURN_TYPE_FLOAT } := by
        intro x hx
        rw [mem_programBindings] at hx
        obtain ⟨s, hs, hxs, _⟩ := hx
        simp only [List.mem_cons, Option.some.injEq, List.mem_singleton, List.not_mem_nil,
          or_false] at hs
        rcases hs with rfl | rfl
        · simp only [List.mem_singleton] at hxs
          rw [hxs, hmk]
        · simp only [List.mem_singleton] at hxs
          rw [hxs]
      rw [hall d1 h1, hall d2 h2]
    refine ⟨hgo, ?_⟩
    unfold reflectResources at hgo ⊢
    exact reflectResourcesFrom_log_of_true _ _ _ _ hgo

/-- Witness of C21: the 2D texture `gTex`, bound as unorm in the first stage and
as float in the second. -/
theorem getReturnType_unorm_float_witness :
    (textureBinding D3D_SRV_DIMENSION.D3D_SRV_DIMENSION_TEXTURE2D).Type_
        = D3D_SHADER_INPUT_TYPE.D3D_SIT_TEXTURE
      ∧ verifyResourceDefinition
          (makeResource
            { textureBinding D3D_SRV_DIMENSION.D3D_SRV_DIMENSION_TEXTURE2D with
              ReturnType := D3D_RESOURCE_RETURN_TYPE.D3D_RETURN_TYPE_UNORM })
          (makeResource
            { textureBinding D3D_SRV_DIMENSION.D3D_SRV_DIMENSION_TEXTURE2D with
              ReturnType := D3D_RESOURCE_RETURN_TYPE.D3D_RETURN_TYPE_FLOAT }) ""
        = (true, "") :=
  ⟨rfl, (getReturnType_unorm_float
    (textureBinding D3D_SRV_DIMENSION.D3D_SRV_DIMENSION_TEXTURE2D) "" rfl).2.2.2.2.2.2.2.1⟩
theorem getLast?_append_singleton_char (l : List Char) (c : Char) :
    (l ++ [c]).getLast? = some c := by
  simp

theorem getLast?_eq_some_split (l : List Char) (c : Char) (h : l.getLast? = some c) :
    l = l.dropLast ++ [c] := by
  have hne : l ≠ [] := by
    intro h0
    rw [h0] at h
    simp at h
  have h1 := List.dropLast_append_getLast hne
  rw [List.getLast?_eq_getLast l hne] at h
  rw [Option.some.inj h] at h1
  exact h1.symm

/-- C22: for a bound resource with a non-empty name, the `arraySize` of the
record built by `reflectResources` is the driver's bind count when the last
character of the name is `]` and 0 otherwise, whatever the bind count; this is
the value found in the table after the loop body has recorded a resource whose
name was not in the table. -/
theorem makeResource_arraySize (d : D3D_SHADER_INPUT_BIND_DESC) (hne : d.Name ≠ "") :
    (makeResource d).arraySize
        = (if d.Name.data.getLast (fun h => hne (String.ext h)) = ']'
            then d.BindCount else 0)
      ∧ ((∃ stem : String, d.Name = stem ++ "]") → (makeResource d).arraySize = d.BindCount)
      ∧ ((¬ ∃ stem : String, d.Name = stem ++ "]") → (makeResource d).arraySize = 0)
      ∧ ∀ (shader : Nat) (T : ResourceMap) (log : String),
          d.Type_ ≠ D3D_SHADER_INPUT_TYPE.D3D_SIT_CBUFFER → StdMap.find T d.Name = none →
          ∃ r, StdMap.find (reflectResource shader d T log).2.1 d.Name = some r
            ∧ r.arraySize
              = (if d.Name.data.getLast (fun h => hne (String.ext h)) = ']'
                  then d.BindCount else 0) := by
  have hlast : d.Name.data.getLast? = some ']'
      ↔ d.Name.data.getLast (fun h => hne (String.ext h)) = ']' := by
    rw [List.getLast?_eq_getLast _ (fun h => hne (String.ext h))]
    simp
  have hsize : (makeResource d).arraySize
      = (if d.Name.data.getLast? = some ']' then d.BindCount else 0) := by
    unfold makeResource
    by_cases h : d.Name.data.getLast? = some ']'
    · simp [h]
    · simp [h]
  refine ⟨?_, ?_, ?_, ?_⟩
  · rw [hsize]
    simp only [hlast]
  · rintro ⟨stem, hstem⟩
    rw [hsize, if_pos]
    rw [hstem]
    exact getLast?_append_singleton_char stem.data ']'
  · intro hno
    rw [hsize, if_neg]
    intro hlast
    apply hno
    refine ⟨⟨d.Name.data.dropLast⟩, ?_⟩
    apply String.ext
    exact getLast?_eq_some_split _ _ hlast
  · intro shader T log hd hfresh
    unfold reflectResource
    rw [if_neg hd]
    simp only []
    rw [hfresh]
    simp only []
    unfold updateResourceMask
    rw [StdMap.find_set_self, StdMap.find_set_self]
    refine ⟨_, rfl, ?_⟩
    show (makeResource d).arraySize = _
    rw [hsize]
    simp only [hlast]

/-- Witness of C22: the texture array `gTex[0]` with bind count 4. -/
theorem makeResource_arraySize_witness :
    ({ textureBinding D3D_SRV_DIMENSION.D3D_SRV_DIMENSION_TEXTURE2D with
        Name := "gTex[0]", BindCount := 4 } : D3D_SHADER_INPUT_BIND_DESC).Name ≠ ""
      ∧ (makeResource { textureBinding D3D_SRV_DIMENSION.D3D_SRV_DIMENSION_TEXTURE2D with
          Name := "gTex[0]", BindCount := 4 }).arraySize = 4 :=
  ⟨by decide, (makeResource_arraySize
    { textureBinding D3D_SRV_DIMENSION.D3D_SRV_DIMENSION_TEXTURE2D with
      Name := "gTex[0]", BindCount := 4 } (by decide)).2.1 ⟨"gTex[0", rfl⟩⟩

/-! ## Constant-buffer entries in the bound-resource lists -/

theorem reflectStageResources_filter (shader : Nat) (l : List D3D_SHADER_INPUT_BIND_DESC)
    (T : ResourceMap) (log : String) :
    reflectStageResources shader (l.filter isResourceBinding) T log
      = reflectStageResources shader l T log := by
  induction l generalizing T log with
  | nil => rfl
  | cons d rest ih =>
    by_cases hd : isResourceBinding d = true
    · rw [List.filter_cons_of_pos hd, reflectStageResources, reflectStageResources]
      rcases reflectResource shader d T log with ⟨go, T1, log1⟩
      cases go with
      | false => rfl
      | true => exact ih T1 log1
    · have hd' : isResourceBinding d = false := by simpa using hd
      rw [List.filter_cons_of_neg hd, ih, reflectStageResources,
        reflectResource_skip shader d T log hd']

theorem reflectResourcesFrom_filter (stages : List (Option ShaderReflection))
    (shader : Nat) (T : ResourceMap) (log : String) :
    reflectResourcesFrom
        (stages.map (Option.map (fun s =>
          { s with boundResources := s.boundResources.filter isResourceBinding })))
        shader T log
      = reflectResourcesFrom stages shader T log := by
  induction stages generalizing shader T log with
  | nil => rfl
  | cons s rest ih =>
    cases s with
    | none =>
      rw [List.map_cons, Option.map_none', reflectResourcesFrom, reflectResourcesFrom]
      exact ih _ _ _
    | some pReflection =>
      rw [List.map_cons, Option.map_some', reflectResourcesFrom, reflectResourcesFrom]
      simp only []
      rw [reflectStageResources_filter]
      rcases reflectStageResources shader pReflection.boundResources T log
        with ⟨go, T1, log1⟩
      cases go with
      | false => rfl
      | true => exact ih _ T1 log1

/-- C28: the loop body of `reflectResources` leaves the table and the log as
they are on an entry of constant-buffer kind and goes on: it creates no entry,
validates nothing and changes no shader mask.  Hence `reflectResources` gives
the same return value, table and log on a program and on the program with the
entries of constant-buffer kind removed from the bound-resource list of every
stage. -/
theorem reflectResources_ignores_constant_buffers (pProgVer : ProgramVersion)
    (self : ProgramReflection) (log : String) :
    (∀ (shader : Nat) (d : D3D_SHADER_INPUT_BIND_DESC) (T : ResourceMap) (log1 : String),
        reflectResource shader { d with Type_ := D3D_SHADER_INPUT_TYPE.D3D_SIT_CBUFFER } T log1
          = (true, T, log1))
      ∧ reflectResources
          (pProgVer.map (Option.map (fun s =>
            { s with boundResources := (s.boundResources.filter
                (fun d => decide (d.Type_ ≠ D3D_SHADER_INPUT_TYPE.D3D_SIT_CBUFFER))) })))
          self log
        = reflectResources pProgVer self log := by
  constructor
  · intro shader d T log1
    exact reflectResource_skip shader _ T log1 (by simp [isResourceBinding])
  · unfold reflectResources
    have h := reflectResourcesFrom_filter pProgVer 0 self.mResources log
    unfold isResourceBinding at h
    rw [h]

/-! ## The message of a bind-point conflict -/

theorem newline_mem_error_msg (field : String) : '\n' ∈ (error_msg field).data := by
  unfold error_msg
  rw [String.data_append]
  exact List.mem_append_right _ (by decide)

theorem bind_conflict_message_no_newline (name : String) (hclean : '\n' ∉ name.data) :
    '\n' ∉ ("Constant buffer '" ++ name ++ "' has different bind locations between different shader stages. Falcor do not support that. Use explicit bind locations to avoid this error").data := by
  rw [String.data_append, String.data_append, List.mem_append, List.mem_append]
  intro h
  rcases h with (h | h) | h
  · exact absurd h (by decide)
  · exact hclean h
  · exact absurd h (by decide)

/-- C23: a program is cut right before one buffer declaration of a stage, and
the cut program is accepted with table `self` and log `log`.  When the name of
that declaration is in the name index of `self` at another bind point than the
declaration's, `reflectBuffers` on the whole program returns false and the
text it appends to the log is the sentence that the named constant buffer has
different bind locations between different shader stages, whatever the
variables of the declaration and of the recorded entry are.  For a name without
a line break that text has no line break, so it contains no line
`<field> mismatch.` of the validator. -/
theorem reflectBuffers_bind_conflict_text
    (pre post : List (Option ShaderReflection)) (pReflection : ShaderReflection)
    (before after : List ShaderReflectionConstantBuffer)
    (pBuffer : ShaderReflectionConstantBuffer) (bindDesc : D3D_SHADER_INPUT_BIND_DESC)
    (b : Nat) (self0 self : ProgramReflection) (log0 log : String)
    (hsplit : pReflection.constantBuffers = before ++ pBuffer :: after)
    (hkind : isBufferKind pBuffer = true)
    (hreach : before.countP isBufferKind < pReflection.ConstantBuffers)
    (hbind : pReflection.GetResourceBindingDescByName pBuffer.Name = some bindDesc)
    (hcut : reflectBuffers (pre ++ [some (pReflection.cutAt before)]) self0 log0
      = some (true, self, log))
    (hname : (self.mBuffers
        (if pBuffer.Type_ = D3D_CBUFFER_TYPE.D3D_CT_CBUFFER then BufferType.Constant
          else BufferType.UnorderedAccess)).nameMap.find pBuffer.Name = some b)
    (hne : bindDesc.BindPoint ≠ b)
    (hclean : '\n' ∉ pBuffer.Name.data) :
    ∃ appended : String,
      reflectBuffers (pre ++ some pReflection :: post) self0 log0
          = some (false, self, log ++ appended)
        ∧ appended = "Constant buffer '" ++ pBuffer.Name ++ "' has different bind locations between different shader stages. Falcor do not support that. Use explicit bind locations to avoid this error"
        ∧ '\n' ∉ appended.data
        ∧ ∀ field : String, ¬ (error_msg field).data <:+: appended.data := by
  refine ⟨_, reflectBuffers_fails_at pre post pReflection before after pBuffer self0 self self
    log0 log _ hsplit hkind hreach hcut
    (reflectBuffer_bind_conflict pReflection _ pBuffer self log bindDesc b hbind hname hne),
    rfl, bind_conflict_message_no_newline _ hclean, ?_⟩
  intro field hocc
  exact bind_conflict_message_no_newline _ hclean
    (hocc.subset (newline_mem_error_msg field))

/-- Witness of C23: the vertex stage declares `Globals { float4 color; }` at bind
point 0, the fragment stage declares `Globals { float4 tint; }` at bind point 2. -/
theorem reflectBuffers_bind_conflict_text_witness :
    ∃ appended : String,
      reflectBuffers [some (globalsStage 0), some (tintStage 2)] {} ""
          = some (false,
              { mBuffersConstant :=
                  { descMap := [(0, globalsEntry 1)], nameMap := [("Globals", 0)] } },
              "" ++ appended)
        ∧ appended = "Constant buffer '" ++ tintBuffer.Name ++ "' has different bind locations between different shader stages. Falcor do not support that. Use explicit bind locations to avoid this error"
        ∧ '\n' ∉ appended.data
        ∧ ∀ field : String, ¬ (error_msg field).data <:+: appended.data :=
  reflectBuffers_bind_conflict_text [some (globalsStage 0)] [] (tintStage 2)
    [] [] tintBuffer (cbufferBinding "Globals" 2) 0 {}
    { mBuffersConstant := { descMap := [(0, globalsEntry 1)], nameMap := [("Globals", 0)] } }
    "" "" rfl (by decide) (by decide) (by decide) (by decide) (by decide) (by decide)
    (by decide)

/-- C24, the claim as stated fails: `Globals` is declared at bind point 0 and
then at bind point 2, once by stages 0 and 1 and once by stages 2 and 4 of a
program without the other stages.  Both runs fail and the logs are the same
text, which names the buffer and no stage. -/
theorem reflectBuffers_conflict_message_without_stages :
    (reflectBuffers [some (globalsStage 0), some (globalsStage 2)] {} "").map (fun r => r.2.2)
        = some "Constant buffer 'Globals' has different bind locations between different shader stages. Falcor do not support that. Use explicit bind locations to avoid this error"
      ∧ (reflectBuffers [none, none, some (globalsStage 0), none, some (globalsStage 2)]
            {} "").map (fun r => r.2.2)
        = (reflectBuffers [some (globalsStage 0), some (globalsStage 2)] {} "").map
            (fun r => r.2.2) := by
  decide

/-- C24, amended: on a bind-point conflict the failure message that
`reflectBuffers` appends to the log is built from the buffer name alone.  Two
programs are each cut right before a buffer declaration whose name is recorded
at another bind point than the declaration's; when the two declarations have
the same name, both runs return false and append the same text, whatever the
stages involved are. -/
theorem reflectBuffers_conflict_message_by_name
    (pre post pre2 post2 : List (Option ShaderReflection))
    (pReflection pReflection2 : ShaderReflection)
    (before after before2 after2 : List ShaderReflectionConstantBuffer)
    (pBuffer pBuffer2 : ShaderReflectionConstantBuffer)
    (bindDesc bindDesc2 : D3D_SHADER_INPUT_BIND_DESC) (b b2 : Nat)
    (self0 self self02 self2 : ProgramReflection) (log0 log log02 log2 : String)
    (hsplit : pReflection.constantBuffers = before ++ pBuffer :: after)
    (hkind : isBufferKind pBuffer = true)
    (hreach : before.countP isBufferKind < pReflection.ConstantBuffers)
    (hbind : pReflection.GetResourceBindingDescByName pBuffer.Name = some bindDesc)
    (hcut : reflectBuffers (pre ++ [some (pReflection.cutAt before)]) self0 log0
      = some (true, self, log))
    (hname : (self.mBuffers
        (if pBuffer.Type_ = D3D_CBUFFER_TYPE.D3D_CT_CBUFFER then BufferType.Constant
          else BufferType.UnorderedAccess)).nameMap.find pBuffer.Name = some b)
    (hne : bindDesc.BindPoint ≠ b)
    (hsplit2 : pReflection2.constantBuffers = before2 ++ pBuffer2 :: after2)
    (hkind2 : isBufferKind pBuffer2 = true)
    (hreach2 : before2.countP isBufferKind < pReflection2.ConstantBuffers)
    (hbind2 : pReflection2.GetResourceBindingDescByName pBuffer2.Name = some bindDesc2)
    (hcut2 : reflectBuffers (pre2 ++ [some (pReflection2.cutAt before2)]) self02 log02
      = some (true, self2, log2))
    (hname2 : (self2.mBuffers
        (if pBuffer2.Type_ = D3D_CBUFFER_TYPE.D3D_CT_CBUFFER then BufferType.Constant
          else BufferType.UnorderedAccess)).nameMap.find pBuffer2.Name = some b2)
    (hne2 : bindDesc2.BindPoint ≠ b2)
    (hsame : pBuffer.Name = pBuffer2.Name) :
    reflectBuffers (pre ++ some pReflection :: post) self0 log0
        = some (false, self, log ++ ("Constant buffer '" ++ pBuffer.Name ++ "' has different bind locations between different shader stages. Falcor do not support that. Use explicit bind locations to avoid this error"))
      ∧ reflectBuffers (pre2 ++ some pReflection2 :: post2) self02 log02
        = some (false, self2, log2 ++ ("Constant buffer '" ++ pBuffer.Name ++ "' has different bind locations between different shader stages. Falcor do not support that. Use explicit bind locations to avoid this error")) := by
  constructor
  · exact reflectBuffers_fails_at pre post pReflection before after pBuffer self0 self self
      log0 log _ hsplit hkind hreach hcut
      (reflectBuffer_bind_conflict pReflection _ pBuffer self log bindDesc b hbind hname hne)
  · rw [hsame]
    exact reflectBuffers_fails_at pre2 post2 pReflection2 before2 after2 pBuffer2 self02 self2
      self2 log02 log2 _ hsplit2 hkind2 hreach2 hcut2
      (reflectBuffer_bind_conflict pReflection2 _ pBuffer2 self2 log2 bindDesc2 b2 hbind2
        hname2 hne2)

/-- Witness of the amended C24: the conflict on `Globals` between stages 0 and 1
of one program and between stages 2 and 4 of another. -/
theorem reflectBuffers_conflict_message_by_name_witness :
    reflectBuffers ([some (globalsStage 0)] ++ some (globalsStage 2) :: []) {} ""
        = some (false,
            { mBuffersConstant :=
                { descMap := [(0, globalsEntry 1)], nameMap := [("Globals", 0)] } },
            "" ++ ("Constant buffer '" ++ globalsBuffer.Name ++ "' has different bind locations between different shader stages. Falcor do not support that. Use explicit bind locations to avoid this error"))
      ∧ reflectBuffers ([none, none, some (globalsStage 0), none]
            ++ some (globalsStage 2) :: []) {} ""
        = some (false,
            { mBuffersConstant :=
                { descMap := [(0, globalsEntry 4)], nameMap := [("Globals", 0)] } },
            "" ++ ("Constant buffer '" ++ globalsBuffer.Name ++ "' has different bind locations between different shader stages. Falcor do not support that. Use explicit bind locations to avoid this error")) :=
  reflectBuffers_conflict_message_by_name [some (globalsStage 0)] []
    [none, none, some (globalsStage 0), none] [] (globalsStage 2) (globalsStage 2)
    [] [] [] [] globalsBuffer globalsBuffer (cbufferBinding "Globals" 2)
    (cbufferBinding "Globals" 2) 0 0 {}
    { mBuffersConstant := { descMap := [(0, globalsEntry 1)], nameMap := [("Globals", 0)] } }
    {}
    { mBuffersConstant := { descMap := [(0, globalsEntry 4)], nameMap := [("Globals", 0)] } }
    "" "" "" "" rfl (by decide) (by decide) (by decide) (by decide) (by decide) (by decide)
    rfl (by decide) (by decide) (by decide) (by decide) (by decide) (by decide) rfl

/-! ## The outcome of `validateBufferDeclaration` variable by variable -/

theorem test_field_eq (name : String) (differs : Bool) (msg : String) (s : Bool × String) :
    test_field name differs msg s
      = (s.1 && !differs,
         s.2 ++ (if differs = true then error_msg (name ++ " " ++ msg) else "")) := by
  unfold test_field
  cases differs
  · simp [string_append_empty]
  · simp

theorem validateBufferVariable_missing (varMap : VariableMap) (prevVar : String × Variable)
    (hfind : StdMap.find varMap prevVar.1 = none) :
    validateBufferVariable varMap (true, "") prevVar
      = (true, "Can't find variable '" ++ prevVar.1 ++ "' in the new definitions") := by
  unfold validateBufferVariable
  simp only []
  rw [hfind]
  simp only [string_empty_append]

theorem validateBufferVariable_found (varMap : VariableMap) (prevVar : String × Variable)
    (curVar : Variable) (hfind : StdMap.find varMap prevVar.1 = some curVar) :
    validateBufferVariable varMap (true, "") prevVar
      = (decide (prevVar.2.location = curVar.location)
          && decide (prevVar.2.arraySize = curVar.arraySize)
          && decide (prevVar.2.arrayStride = curVar.arrayStride)
          && decide (prevVar.2.isRowMajor = curVar.isRowMajor)
          && decide (prevVar.2.type = curVar.type),
         (if prevVar.2.location ≠ curVar.location
            then error_msg (prevVar.1 ++ " " ++ "offset") else "")
          ++ ((if prevVar.2.arraySize ≠ curVar.arraySize
            then error_msg (prevVar.1 ++ " " ++ "array size") else "")
          ++ ((if prevVar.2.arrayStride ≠ curVar.arrayStride
            then error_msg (prevVar.1 ++ " " ++ "array stride") else "")
          ++ ((if prevVar.2.isRowMajor ≠ curVar.isRowMajor
            then error_msg (prevVar.1 ++ " " ++ "row major") else "")
          ++ (if prevVar.2.type ≠ curVar.type
            then error_msg (prevVar.1 ++ " " ++ "Type") else ""))))) := by
  unfold validateBufferVariable
  simp only []
  rw [hfind]
  simp only [test_field_eq, string_append_assoc, string_empty_append]
  by_cases h1 : prevVar.2.location = curVar.location <;>
  by_cases h2 : prevVar.2.arraySize = curVar.arraySize <;>
  by_cases h3 : prevVar.2.arrayStride = curVar.arrayStride <;>
  by_cases h4 : prevVar.2.isRowMajor = curVar.isRowMajor <;>
  by_cases h5 : prevVar.2.type = curVar.type <;>
  simp [h1, h2, h3, h4, h5]

theorem validateBufferVariable_eq (varMap : VariableMap) (s : Bool × String)
    (prevVar : String × Variable) :
    validateBufferVariable varMap s prevVar
      = (s.1 && (validateBufferVariable varMap (true, "") prevVar).1,
         s.2 ++ (validateBufferVariable varMap (true, "") prevVar).2) := by
  unfold validateBufferVariable
  simp only []
  rcases StdMap.find varMap prevVar.1 with _ | curVar
  · simp only [string_empty_append, string_append_assoc, Bool.and_true]
  · simp only [test_field_eq, string_append_assoc, string_empty_append, Bool.true_and,
      Bool.and_assoc]

theorem validateBufferVariables_eq (varMap : VariableMap) (l : List (String × Variable))
    (s : Bool × String) :
    l.foldl (validateBufferVariable varMap) s
      = (s.1 && (l.foldl (validateBufferVariable varMap) (true, "")).1,
         s.2 ++ (l.foldl (validateBufferVariable varMap) (true, "")).2) := by
  induction l generalizing s with
  | nil => simp [string_append_empty]
  | cons a l ih =>
    rw [List.foldl_cons, List.foldl_cons, ih (validateBufferVariable varMap s a),
      ih (validateBufferVariable varMap (true, "") a), validateBufferVariable_eq varMap s a]
    simp only [string_append_assoc, Bool.and_assoc]

theorem validateBufferVariables_cons (varMap : VariableMap) (a : String × Variable)
    (l : List (String × Variable)) :
    (a :: l).foldl (validateBufferVariable varMap) (true, "")
      = ((validateBufferVariable varMap (true, "") a).1
          && (l.foldl (validateBufferVariable varMap) (true, "")).1,
         (validateBufferVariable varMap (true, "") a).2
          ++ (l.foldl (validateBufferVariable varMap) (true, "")).2) := by
  rw [List.foldl_cons, validateBufferVariables_eq]

theorem validateBufferDeclaration_eq (pPrevDesc : BufferReflection) (varMap : VariableMap)
    (log : String) :
    validateBufferDeclaration pPrevDesc varMap log
      = (decide (pPrevDesc.variableCount = varMap.length)
          && (pPrevDesc.varMap.foldl (validateBufferVariable varMap) (true, "")).1,
         log ++ ((if pPrevDesc.variableCount ≠ varMap.length
              then error_msg "Variable count" else "")
            ++ (pPrevDesc.varMap.foldl (validateBufferVariable varMap) (true, "")).2)) := by
  unfold validateBufferDeclaration
  simp only []
  rw [validateBufferVariables_eq]
  unfold BufferReflection.getVariableCount
  by_cases h : pPrevDesc.variableCount = varMap.length
  · simp [h, string_empty_append]
  · simp [h, string_append_assoc]

/-- C27: the vertex stage declares `Globals { float4 color; }` and the fragment
stage declares `Globals { float4 tint; }` at the same bind point, so the later
view lacks the recorded variable `color`.  The validator writes the line naming
`color` to its own text and returns true; `reflectBuffers` appends that text
only when the validator returns false, so it returns true and the caller's log
comes back as it was given, without the line. -/
theorem reflectBuffers_drops_missing_variable_line :
    (globalsEntry 1).varMap = [("color", { location := 0, type := .Float4 })]
    ∧ StdMap.find (initializeBufferVariables tintBuffer []) "color" = none
    ∧ (validateBufferDeclaration (globalsEntry 1)
          (initializeBufferVariables tintBuffer []) "").2
        = "Can't find variable 'color' in the new definitions"
    ∧ ∀ log : String,
        reflectBuffers [some (globalsStage 0), some (tintStage 0)] {} log
          = some (true,
              { mBuffersConstant :=
                  { descMap := [(0, globalsEntry 3)], nameMap := [("Globals", 0)] } },
              log) := by
  refine ⟨rfl, by decide, by decide, ?_⟩
  intro log
  rfl

/-! ## The kind of a recorded buffer -/

/-- C29, the claim as stated fails: a stage declares the texture buffer `Noise`.
The assertion `d3dBufDesc.Type == D3D_CT_CBUFFER` of the loop body fails on it
(the bind count and the size are as asserted), and with the assertion compiled
out the entry filed for `Noise` has the kind `Constant`, not
`UnorderedAccess`. -/
theorem reflectBuffers_texture_buffer :
    noiseBuffer.Type_ = D3D_CBUFFER_TYPE.D3D_CT_TBUFFER
    ∧ reflectBuffer_assert noiseStage noiseBuffer = false
    ∧ initializeBufferVariables_assert noiseBuffer = true
    ∧ reflectBuffers [some noiseStage] {} ""
        = some (true,
            { mBuffersUnorderedAccess :=
                { descMap := [(0,
                    { name := "Noise", regIndex := 0, type := BufferType.Constant,
                      sizeInBytes := 32, variableCount := 2,
                      varMap := [("bias", { location := 16, type := .Float4 }),
                                 ("scale", { location := 0, type := .Float4 })],
                      shaderMask := 1 })],
                  nameMap := [("Noise", 0)] } },
            "") := by
  decide

/-- C29, amended: a declared buffer of constant kind whose name is not yet in the
name index is recorded, under its bind point in the table of constant buffers,
as an entry of kind `Constant` that carries the declared name, bind point, size
and variable count; a declared buffer of texture-buffer kind violates the
assertion `d3dBufDesc.Type == D3D_CT_CBUFFER` of the loop body. -/
theorem reflectBuffer_constant_kind (pReflection : ShaderReflection) (shader : Nat)
    (pBuffer : ShaderReflectionConstantBuffer) (self : ProgramReflection) (log : String)
    (bindDesc : D3D_SHADER_INPUT_BIND_DESC)
    (hbind : pReflection.GetResourceBindingDescByName pBuffer.Name = some bindDesc)
    (hkind : pBuffer.Type_ = D3D_CBUFFER_TYPE.D3D_CT_CBUFFER)
    (hfresh : self.mBuffersConstant.nameMap.find pBuffer.Name = none) :
    (∃ self1 entry, reflectBuffer pReflection shader pBuffer self log = some (true, self1, log)
        ∧ self1.mBuffersConstant.descMap.find bindDesc.BindPoint = some entry
        ∧ self1.mBuffersConstant.nameMap.find pBuffer.Name = some bindDesc.BindPoint
        ∧ self1.mBuffersUnorderedAccess = self.mBuffersUnorderedAccess
        ∧ entry.type = BufferType.Constant
        ∧ entry.name = pBuffer.Name
        ∧ entry.regIndex = bindDesc.BindPoint
        ∧ entry.sizeInBytes = pBuffer.Size
        ∧ entry.variableCount = pBuffer.Variables)
      ∧ ∀ (pReflection2 : ShaderReflection) (pBuffer2 : ShaderReflectionConstantBuffer),
          pBuffer2.Type_ = D3D_CBUFFER_TYPE.D3D_CT_TBUFFER →
          reflectBuffer_assert pReflection2 pBuffer2 = false := by
  constructor
  · have hfresh' : (self.mBuffers
        (if pBuffer.Type_ = D3D_CBUFFER_TYPE.D3D_CT_CBUFFER then BufferType.Constant
          else BufferType.UnorderedAccess)).nameMap.find pBuffer.Name = none := by
      rw [if_pos hkind]
      exact hfresh
    have hrun := reflectBuffer_new_name pReflection shader pBuffer self log bindDesc hbind
      hfresh'
    simp only [if_pos hkind, ProgramReflection.setBuffers, ProgramReflection.mBuffers]
      at hrun
    refine ⟨_, (⟨pBuffer.Name, bindDesc.BindPoint, BufferType.Constant, pBuffer.Size,
        pBuffer.Variables, initializeBufferVariables pBuffer [], 0 ||| (1 <<< shader)⟩ :
        BufferReflection), hrun, ?_, ?_, rfl, rfl, rfl, rfl, rfl, rfl⟩
    · exact StdMap.find_set_self _ _ _
    · exact StdMap.find_set_self _ _ _
  · intro pReflection2 pBuffer2 h2
    unfold reflectBuffer_assert
    rw [h2]
    simp

/-- Witness of the amended C29: the constant buffer `Globals` declared by the
first stage of a program, on the empty table. -/
theorem reflectBuffer_constant_kind_witness :
    ∃ self1 entry, reflectBuffer (globalsStage 0) 0 globalsBuffer {} "" = some (true, self1, "")
        ∧ self1.mBuffersConstant.descMap.find 0 = some entry
        ∧ entry.type = BufferType.Constant :=
  match (reflectBuffer_constant_kind (globalsStage 0) 0 globalsBuffer {} ""
      (cbufferBinding "Globals" 0) (by decide) rfl rfl).1 with
  | ⟨self1, entry, h1, h2, _, _, h5, _⟩ => ⟨self1, entry, h1, h2, h5⟩

/-! ## Lookup in a well-formed map -/

theorem StdMap.mem_of_find {κ α : Type} [DecidableEq κ] (m : StdMap κ α) (k : κ) (v : α)
    (h : m.find k = some v) : (k, v) ∈ m := by
  induction m with
  | nil => simp [StdMap.find] at h
  | cons b m ih =>
    obtain ⟨k1, v1⟩ := b
    unfold StdMap.find at h
    by_cases hk : k = k1
    · rw [if_pos hk] at h
      rw [hk, ← Option.some.inj h]
      exact List.mem_cons_self _ _
    · rw [if_neg hk] at h
      exact List.mem_cons_of_mem _ (ih h)

theorem StdMap.find_of_mem {κ α : Type} [DecidableEq κ] [MapKey κ] (hκ : LawfulMapKey κ)
    (m : StdMap κ α) (k : κ) (v : α) (hm : m.Sorted) (h : (k, v) ∈ m) :
    m.find k = some v := by
  induction m with
  | nil => simp at h
  | cons b m ih =>
    obtain ⟨k1, v1⟩ := b
    have hm' := List.pairwise_cons.mp hm
    unfold StdMap.find
    rcases List.mem_cons.mp h with heq | hin
    · have h1 : k = k1 := congrArg Prod.fst heq
      have h2 : v = v1 := congrArg Prod.snd heq
      rw [if_pos h1, h2]
    · have hlt := hm'.1 (k, v) hin
      have hne : k ≠ k1 := by
        intro hk
        rw [hk] at hlt
        have := hκ.irrefl k1
        simp only [] at hlt
        rw [this] at hlt
        exact Bool.false_ne_true hlt
      rw [if_neg hne]
      exact ih hm'.2 hin

theorem StdMap.find_isSome_iff {κ α : Type} [DecidableEq κ] (m : StdMap κ α) (k : κ) :
    (m.find k).isSome = true ↔ k ∈ m.map Prod.fst := by
  induction m with
  | nil => simp [StdMap.find]
  | cons b m ih =>
    obtain ⟨k1, v1⟩ := b
    unfold StdMap.find
    by_cases hk : k = k1
    · rw [if_pos hk]
      simp [hk]
    · rw [if_neg hk, ih]
      simp [hk]

theorem StdMap.nodup_keys {κ α : Type} [MapKey κ] (hκ : LawfulMapKey κ)
    (m : StdMap κ α) (hm : m.Sorted) : (m.map Prod.fst).Nodup := by
  unfold List.Nodup
  rw [List.pairwise_map]
  refine List.Pairwise.imp ?_ hm
  intro a b hlt heq
  rw [heq, hκ.irrefl] at hlt
  exact Bool.false_ne_true hlt

/-! ## When `validateBufferDeclaration` accepts silently -/

theorem validateBufferVariable_silent_iff (varMap : VariableMap)
    (prevVar : String × Variable) :
    validateBufferVariable varMap (true, "") prevVar = (true, "")
      ↔ StdMap.find varMap prevVar.1 = some prevVar.2 := by
  rcases hfind : StdMap.find varMap prevVar.1 with _ | curVar
  · rw [validateBufferVariable_missing varMap prevVar hfind]
    simp only [Prod.mk.injEq, true_and]
    constructor
    · intro h
      have hlen := congrArg String.length h
      rw [String.length_append, String.length_append] at hlen
      have h21 : "Can't find variable '".length = 21 := rfl
      have h0 : "".length = 0 := rfl
      omega
    · intro h
      exact absurd h (by simp)
  · rw [validateBufferVariable_found varMap prevVar curVar hfind]
    obtain ⟨name, ⟨l1, a1, s1, r1, t1⟩⟩ := prevVar
    obtain ⟨l2, a2, s2, r2, t2⟩ := curVar
    simp only [Prod.mk.injEq, string_append_eq_empty, Option.some.injEq, Variable.mk.injEq]
    rw [show (l2 = l1) = (l1 = l2) from propext eq_comm,
      show (a2 = a1) = (a1 = a2) from propext eq_comm,
      show (s2 = s1) = (s1 = s2) from propext eq_comm,
      show (r2 = r1) = (r1 = r2) from propext eq_comm,
      show (t2 = t1) = (t1 = t2) from propext eq_comm]
    by_cases h1 : l1 = l2 <;> by_cases h2 : a1 = a2 <;> by_cases h3 : s1 = s2 <;>
    by_cases h4 : r1 = r2 <;> by_cases h5 : t1 = t2 <;>
    simp [h1, h2, h3, h4, h5, error_msg_ne_empty]

theorem validateBufferVariables_silent_iff (varMap : VariableMap)
    (l : List (String × Variable)) :
    l.foldl (validateBufferVariable varMap) (true, "") = (true, "")
      ↔ ∀ a ∈ l, StdMap.find varMap a.1 = some a.2 := by
  induction l with
  | nil => simp
  | cons a l ih =>
    rw [validateBufferVariables_cons, List.forall_mem_cons, ← ih,
      ← validateBufferVariable_silent_iff]
    rcases validateBufferVariable varMap (true, "") a with ⟨b1, t1⟩
    rcases List.foldl (validateBufferVariable varMap) (true, "") l with ⟨b2, t2⟩
    simp only [Prod.mk.injEq, Bool.and_eq_true, string_append_eq_empty]
    tauto

theorem validateBufferDeclaration_eq_true_log_iff (pPrevDesc : BufferReflection)
    (varMap : VariableMap) (log : String) :
    validateBufferDeclaration pPrevDesc varMap log = (true, log)
      ↔ pPrevDesc.variableCount = varMap.length
        ∧ ∀ a ∈ pPrevDesc.varMap, StdMap.find varMap a.1 = some a.2 := by
  rw [validateBufferDeclaration_eq, ← validateBufferVariables_silent_iff]
  rcases List.foldl (validateBufferVariable varMap) (true, "") pPrevDesc.varMap with ⟨b2, t2⟩
  simp only [Prod.mk.injEq, Bool.and_eq_true, decide_eq_true_eq, string_append_eq_self,
    string_append_eq_empty]
  by_cases hc : pPrevDesc.variableCount = varMap.length
  · simp [hc]
  · simp [hc, error_msg_ne_empty]

/-- C30: for a recorded buffer whose variable count is the number of entries of
its variable map, and well-formed (key-sorted) maps, `validateBufferDeclaration`
returns true and leaves the log as it was exactly when the recorded map and
the new map have the same variable names and every name has the same location,
array size, array stride, row-major flag and type in both. -/
theorem validateBufferDeclaration_silent (pPrevDesc : BufferReflection)
    (varMap : VariableMap) (log : String)
    (hcount : pPrevDesc.variableCount = pPrevDesc.varMap.length)
    (hprev : StdMap.Sorted pPrevDesc.varMap) (hnew : StdMap.Sorted varMap) :
    validateBufferDeclaration pPrevDesc varMap log = (true, log)
      ↔ (∀ name : String, (StdMap.find pPrevDesc.varMap name).isSome = true
            ↔ (StdMap.find varMap name).isSome = true)
        ∧ ∀ (name : String) (prevVar curVar : Variable),
            StdMap.find pPrevDesc.varMap name = some prevVar →
            StdMap.find varMap name = some curVar →
            prevVar.location = curVar.location ∧ prevVar.arraySize = curVar.arraySize
              ∧ prevVar.arrayStride = curVar.arrayStride
              ∧ prevVar.isRowMajor = curVar.isRowMajor ∧ prevVar.type = curVar.type := by
  rw [validateBufferDeclaration_eq_true_log_iff, hcount]
  have hnd1 := StdMap.nodup_keys lawfulMapKey_string _ hprev
  have hnd2 := StdMap.nodup_keys lawfulMapKey_string _ hnew
  constructor
  · rintro ⟨hlen, hall⟩
    have hsub : pPrevDesc.varMap.map Prod.fst ⊆ varMap.map Prod.fst := by
      intro k hk
      obtain ⟨a, ha, rfl⟩ := List.mem_map.mp hk
      rw [← StdMap.find_isSome_iff, hall a ha]
      rfl
    have hperm : (pPrevDesc.varMap.map Prod.fst).Perm (varMap.map Prod.fst) :=
      (List.subperm_of_subset hnd1 hsub).perm_of_length_le (by simp [hlen])
    constructor
    · intro name
      rw [StdMap.find_isSome_iff, StdMap.find_isSome_iff]
      exact hperm.mem_iff
    · intro name prevVar curVar hp hc
      have hmem := StdMap.mem_of_find _ _ _ hp
      have h := hall _ hmem
      simp only [] at h
      rw [hc] at h
      rw [Option.some.inj h]
      exact ⟨rfl, rfl, rfl, rfl, rfl⟩
  · rintro ⟨hnames, hfields⟩
    have hperm : (pPrevDesc.varMap.map Prod.fst).Perm (varMap.map Prod.fst) := by
      rw [List.perm_ext_iff_of_nodup hnd1 hnd2]
      intro k
      rw [← StdMap.find_isSome_iff, ← StdMap.find_isSome_iff]
      exact hnames k
    constructor
    · have := hperm.length_eq
      simpa using this
    · intro a ha
      have hp := StdMap.find_of_mem lawfulMapKey_string _ a.1 a.2 hprev ha
      have hsome := (hnames a.1).mp (by rw [hp]; rfl)
      rcases hc : StdMap.find varMap a.1 with _ | curVar
      · rw [hc] at hsome
        exact absurd hsome (by simp)
      · obtain ⟨h1, h2, h3, h4, h5⟩ := hfields a.1 a.2 curVar hp hc
        obtain ⟨name, ⟨l1, a1, s1, r1, t1⟩⟩ := a
        obtain ⟨l2, a2, s2, r2, t2⟩ := curVar
        simp only [] at h1 h2 h3 h4 h5
        rw [h1, h2, h3, h4, h5]

/-- Witness of C30: the recorded entry of `Globals` against the variable map of
the same declaration. -/
theorem validateBufferDeclaration_silent_witness :
    validateBufferDeclaration (globalsEntry 1) (initializeBufferVariables globalsBuffer []) ""
        = (true, "")
      ↔ (∀ name : String, (StdMap.find (globalsEntry 1).varMap name).isSome = true
            ↔ (StdMap.find (initializeBufferVariables globalsBuffer []) name).isSome = true)
        ∧ ∀ (name : String) (prevVar curVar : Variable),
            StdMap.find (globalsEntry 1).varMap name = some prevVar →
            StdMap.find (initializeBufferVariables globalsBuffer []) name = some curVar →
            prevVar.location = curVar.location ∧ prevVar.arraySize = curVar.arraySize
              ∧ prevVar.arrayStride = curVar.arrayStride
              ∧ prevVar.isRowMajor = curVar.isRowMajor ∧ prevVar.type = curVar.type :=
  validateBufferDeclaration_silent (globalsEntry 1)
    (initializeBufferVariables globalsBuffer []) "" rfl (by decide) (by decide)

/-! ## The lines written by `validateBufferDeclaration` -/

theorem endsInMismatch_nil : endsInMismatch [] = false := by
  decide

theorem endsInMismatch_after_line (x revLine : List Char) :
    endsInMismatch ((x ++ " mismatch.".data).reverse ++ revLine) = true := by
  unfold endsInMismatch
  rw [List.isPrefixOf_iff_prefix]
  refine ⟨[' '] ++ x.reverse ++ revLine, ?_⟩
  rw [List.reverse_append]
  have h : " mismatch.".data.reverse = "mismatch.".data.reverse ++ [' '] := by decide
  rw [h]
  simp

theorem endsInMismatch_after_missing (name revLine : List Char) :
    endsInMismatch (("Can't find variable '".data ++ name
      ++ "' in the new definitions".data).reverse ++ revLine) = false := by
  have h : "' in the new definitions".data.reverse
      = 's' :: "' in the new definition".data.reverse := by decide
  rw [List.reverse_append, h]
  have h2 : "mismatch.".data.reverse = '.' :: "mismatch".data.reverse := by decide
  unfold endsInMismatch
  rw [h2]
  simp [List.isPrefixOf]

theorem countMismatchLinesFrom_append (p : List Char) (hp : '\n' ∉ p) :
    ∀ (revLine rest : List Char),
      countMismatchLinesFrom revLine (p ++ rest)
        = countMismatchLinesFrom (p.reverse ++ revLine) rest := by
  induction p with
  | nil => intro revLine rest; rfl
  | cons c p ih =>
    intro revLine rest
    have hc : c ≠ '\n' := fun h => hp (h ▸ List.mem_cons_self _ _)
    have hp' : '\n' ∉ p := fun h => hp (List.mem_cons_of_mem _ h)
    rw [List.cons_append, countMismatchLinesFrom, if_neg hc, ih hp', List.reverse_cons,
      List.append_assoc]
    rfl

theorem writesMismatchLines_nil : writesMismatchLines [] 0 := by
  intro revLine h
  exact ⟨revLine, h, fun rest => by simp⟩

theorem writesMismatchLines_append (t1 t2 : List Char) (n1 n2 : Nat)
    (h1 : writesMismatchLines t1 n1) (h2 : writesMismatchLines t2 n2) :
    writesMismatchLines (t1 ++ t2) (n1 + n2) := by
  intro revLine h
  obtain ⟨r1, hr1, hc1⟩ := h1 revLine h
  obtain ⟨r2, hr2, hc2⟩ := h2 r1 hr1
  refine ⟨r2, hr2, fun rest => ?_⟩
  rw [List.append_assoc, hc1, hc2, Nat.add_assoc]

theorem writesMismatchLines_error_msg (msg : String) (hmsg : '\n' ∉ msg.data) :
    writesMismatchLines (error_msg msg).data 1 := by
  intro revLine _
  refine ⟨[], endsInMismatch_nil, fun rest => ?_⟩
  have hdata : (error_msg msg).data = (msg.data ++ " mismatch.".data) ++ ['\n'] := by
    unfold error_msg
    rw [String.data_append, List.append_assoc]
    rfl
  have hclean : '\n' ∉ msg.data ++ " mismatch.".data := by
    rw [List.mem_append]
    rintro (h | h)
    · exact hmsg h
    · exact absurd h (by decide)
  rw [hdata, List.append_assoc, countMismatchLinesFrom_append _ hclean, List.singleton_append,
    countMismatchLinesFrom, if_pos rfl, endsInMismatch_after_line, if_pos rfl]

theorem writesMismatchLines_missing (name : String) (hname : '\n' ∉ name.data) :
    writesMismatchLines
      ("Can't find variable '" ++ name ++ "' in the new definitions").data 0 := by
  intro revLine _
  have hdata : ("Can't find variable '" ++ name ++ "' in the new definitions").data
      = "Can't find variable '".data ++ name.data ++ "' in the new definitions".data := by
    rw [String.data_append, String.data_append]
  have hclean : '\n' ∉ "Can't find variable '".data ++ name.data
      ++ "' in the new definitions".data := by
    rw [List.mem_append, List.mem_append]
    rintro ((h | h) | h)
    · exact absurd h (by decide)
    · exact hname h
    · exact absurd h (by decide)
  refine ⟨_, endsInMismatch_after_missing name.data revLine, fun rest => ?_⟩
  rw [hdata, countMismatchLinesFrom_append _ hclean, Nat.zero_add]

theorem countMismatchLines_of_writes (text : String) (n : Nat)
    (h : writesMismatchLines text.data n) : countMismatchLines text = n := by
  obtain ⟨r, hr, hc⟩ := h [] endsInMismatch_nil
  have := hc []
  rw [List.append_nil] at this
  unfold countMismatchLines
  rw [this, countMismatchLinesFrom, hr]
  simp

theorem writesMismatchLines_test (name label : String) (differs : Prop) [Decidable differs]
    (hname : '\n' ∉ name.data) (hlabel : '\n' ∉ label.data) :
    writesMismatchLines
      (if differs then error_msg (name ++ " " ++ label) else "").data
      (if differs then 1 else 0) := by
  by_cases h : differs
  · rw [if_pos h, if_pos h]
    apply writesMismatchLines_error_msg
    rw [String.data_append, String.data_append, List.mem_append, List.mem_append]
    rintro ((h1 | h1) | h1)
    · exact hname h1
    · exact absurd h1 (by decide)
    · exact hlabel h1
  · rw [if_neg h, if_neg h]
    exact writesMismatchLines_nil

theorem writesMismatchLines_variable (varMap : VariableMap) (prevVar : String × Variable)
    (hname : '\n' ∉ prevVar.1.data) :
    writesMismatchLines (validateBufferVariable varMap (true, "") prevVar).2.data
      (match StdMap.find varMap prevVar.1 with
        | none => 0
        | some curVar => differingFields prevVar.2 curVar) := by
  rcases hfind : StdMap.find varMap prevVar.1 with _ | curVar
  · rw [validateBufferVariable_missing varMap prevVar hfind]
    exact writesMismatchLines_missing prevVar.1 hname
  · rw [validateBufferVariable_found varMap prevVar curVar hfind]
    simp only [String.data_append]
    unfold differingFields
    simp only [Nat.add_assoc]
    exact writesMismatchLines_append _ _ _ _
      (writesMismatchLines_test prevVar.1 "offset" _ hname (by decide))
      (writesMismatchLines_append _ _ _ _
        (writesMismatchLines_test prevVar.1 "array size" _ hname (by decide))
        (writesMismatchLines_append _ _ _ _
          (writesMismatchLines_test prevVar.1 "array stride" _ hname (by decide))
          (writesMismatchLines_append _ _ _ _
            (writesMismatchLines_test prevVar.1 "row major" _ hname (by decide))
            (writesMismatchLines_test prevVar.1 "Type" _ hname (by decide)))))

theorem writesMismatchLines_variables (varMap : VariableMap) (l : List (String × Variable))
    (hclean : ∀ a ∈ l, '\n' ∉ a.1.data) :
    writesMismatchLines (l.foldl (validateBufferVariable varMap) (true, "")).2.data
      (differingPairs l varMap) := by
  induction l with
  | nil => exact writesMismatchLines_nil
  | cons a l ih =>
    rw [validateBufferVariables_cons]
    simp only [String.data_append]
    unfold differingPairs
    rw [List.map_cons, List.sum_cons]
    exact writesMismatchLines_append _ _ _ _
      (writesMismatchLines_variable varMap a (hclean a (List.mem_cons_self _ _)))
      (ih (fun b hb => hclean b (List.mem_cons_of_mem _ hb)))

/-- C26: `validateBufferDeclaration` runs every comparison whatever the earlier
ones found.  The text it appends to the log is the text it writes on an empty
log, and for variable names without line breaks the number of lines ending in
`mismatch.` in that text is the number of (variable, field) pairs, over the
previous variables present in the new map and the five fields location, array
size, array stride, row-major flag and type, whose values differ, plus one
when the previous variable count differs from the size of the new map. -/
theorem validateBufferDeclaration_mismatch_lines (pPrevDesc : BufferReflection)
    (varMap : VariableMap) (log : String)
    (hclean : ∀ a ∈ pPrevDesc.varMap, '\n' ∉ a.1.data) :
    (validateBufferDeclaration pPrevDesc varMap log).2
        = log ++ (validateBufferDeclaration pPrevDesc varMap "").2
      ∧ countMismatchLines (validateBufferDeclaration pPrevDesc varMap "").2
        = differingPairs pPrevDesc.varMap varMap
          + (if pPrevDesc.variableCount ≠ varMap.length then 1 else 0) := by
  constructor
  · rw [validateBufferDeclaration_eq, validateBufferDeclaration_eq]
    simp only [string_empty_append]
  · apply countMismatchLines_of_writes
    rw [validateBufferDeclaration_eq]
    simp only [string_empty_append, String.data_append]
    rw [Nat.add_comm]
    refine writesMismatchLines_append _ _ _ _ ?_
      (writesMismatchLines_variables varMap pPrevDesc.varMap hclean)
    by_cases h : pPrevDesc.variableCount = varMap.length
    · simp only [h, ne_eq, not_true_eq_false, if_false]
      exact writesMismatchLines_nil
    · simp only [h, ne_eq, not_false_eq_true, if_true]
      exact writesMismatchLines_error_msg "Variable count" (by decide)

/-- Witness of C26: the recorded `Frame` has the variables `a`, `b`, `c`; the
later view moves and retypes `a`, lacks `b` and keeps `c`.  The text has three
lines ending in `mismatch.`: the variable count and the offset and type of `a`. -/
theorem validateBufferDeclaration_mismatch_lines_witness :
    (validateBufferDeclaration frameEntry laterFrameMap "").2
        = "Variable count mismatch.\na offset mismatch.\na Type mismatch.\nCan't find variable 'b' in the new definitions"
      ∧ countMismatchLines (validateBufferDeclaration frameEntry laterFrameMap "").2 = 3 :=
  ⟨by decide,
    (validateBufferDeclaration_mismatch_lines frameEntry laterFrameMap "" (by decide)).2.trans
      (by decide)⟩

/-! ## Row counts of the classified types -/

/-- C36: for every recognised combination of scalar kind, rows and columns the
row count that `getRowCountFromType` gives for the type chosen by
`getVariableType` is `rows`; and `getRowCountFromType` gives 0 exactly for
`Unknown` and for the value outside the classified set (`GpuPtr`), so for no
type that `getVariableType` chooses on a recognised combination. -/
theorem getRowCountFromType_getVariableType (dxType : D3D_SHADER_VARIABLE_TYPE)
    (rows columns : Nat) (type : VariableType)
    (h : (dxType, rows, columns) ∈ recognisedCombos) :
    getRowCountFromType (getVariableType dxType rows columns) = rows
      ∧ getRowCountFromType (getVariableType dxType rows columns) ≠ 0
      ∧ (getRowCountFromType type = 0
          ↔ type = VariableType.Unknown ∨ type = VariableType.GpuPtr)
      ∧ (getRowCountFromType type = 0
          ↔ type = VariableType.Unknown
            ∨ type ∉ recognisedCombos.map (fun a => getVariableType a.1 a.2.1 a.2.2)) := by
  have hall : ∀ a ∈ recognisedCombos,
      getRowCountFromType (getVariableType a.1 a.2.1 a.2.2) = a.2.1
        ∧ getRowCountFromType (getVariableType a.1 a.2.1 a.2.2) ≠ 0 := by
    decide
  refine ⟨(hall _ h).1, (hall _ h).2, ?_, ?_⟩
  · cases type <;> decide
  · cases type <;> decide

/-- Witness of C36: a float matrix with 3 rows and 4 columns. -/
theorem getRowCountFromType_getVariableType_witness :
    getRowCountFromType (getVariableType D3D_SHADER_VARIABLE_TYPE.D3D_SVT_FLOAT 3 4) = 3 :=
  (getRowCountFromType_getVariableType D3D_SHADER_VARIABLE_TYPE.D3D_SVT_FLOAT 3 4
    VariableType.Unknown (by decide)).1

/-! ## `ShaderStorageBuffer::readBlob` -/

theorem readBlob_copies_iff (self : ShaderStorageBuffer) (offset size : Nat) :
    (self.readBlob offset size).2.isSome = true
      ↔ (size + offset) % sizeModulus ≤ self.mSize := by
  unfold ShaderStorageBuffer.readBlob
  by_cases h : (size + offset) % sizeModulus > self.mSize
  · rw [if_pos h]
    simp only [Option.isSome_none, Bool.false_eq_true, false_iff]
    omega
  · rw [if_neg h]
    simp only [Option.isSome_some, true_iff]
    omega

theorem readBlob_without_wraparound (self : ShaderStorageBuffer) (offset size : Nat)
    (hfit : offset + size < sizeModulus) :
    (self.readBlob offset size).2.isSome = true ↔ offset + size ≤ self.mSize := by
  rw [readBlob_copies_iff, Nat.add_comm size offset, Nat.mod_eq_of_lt hfit]

/-- C37: a buffer of 16 bytes is asked for `2^64 - 4` bytes from offset 8.  Both
values are 64-bit values and the request ends far behind the buffer, but
`size + offset` wraps around to 4, so the guard of `readBlob` lets the request
through and the copy of `2^64 - 4` bytes from offset 8 is made. -/
theorem readBlob_wraparound :
    (8 : Nat) < sizeModulus ∧ sizeModulus - 4 < sizeModulus
    ∧ 16 < 8 + (sizeModulus - 4)
    ∧ (sizeModulus - 4 + 8) % sizeModulus = 4
    ∧ (ShaderStorageBuffer.readBlob { mSize := 16, mGpuCopyDirty := false } 8
        (sizeModulus - 4)).2 = some (8, sizeModulus - 4) := by
  decide

/-! ## `getD3DFeatureLevel` -/

theorem getD3DFeatureLevel_eq_cases (majorVersion minorVersion : Nat) :
    getD3DFeatureLevel majorVersion minorVersion
      = ((featureLevelCases.find? (fun e => decide (e.1 = (majorVersion, minorVersion)))).map
          Prod.snd).getD 0 := by
  unfold getD3DFeatureLevel
  by_cases h12 : majorVersion = 12
  · subst h12
    rcases minorVersion with _ | _ | n
    · rfl
    · rfl
    · simp [featureLevelCases, List.find?, Prod.mk.injEq]
  · by_cases h11 : majorVersion = 11
    · subst h11
      rcases minorVersion with _ | _ | n
      · rfl
      · rfl
      · simp [featureLevelCases, List.find?, Prod.mk.injEq]
    · by_cases h10 : majorVersion = 10
      · subst h10
        rcases minorVersion with _ | _ | n
        · rfl
        · rfl
        · simp [featureLevelCases, List.find?, Prod.mk.injEq]
      · by_cases h9 : majorVersion = 9
        · subst h9
          rcases minorVersion with _ | _ | _ | _ | n
          · rfl
          · rfl
          · rfl
          · rfl
          · simp [featureLevelCases, List.find?, Prod.mk.injEq]
        · rw [if_neg h12, if_neg h11, if_neg h10, if_neg h9]
          simp [featureLevelCases, List.find?, Prod.mk.injEq, Ne.symm h12, Ne.symm h11, Ne.symm h10, Ne.symm h9]

/-- C38: `getD3DFeatureLevel` returns the level 11_1 for the version 11.0 and the
level 11_0 for the version 11.1, two different values; the other seven
supported pairs give the level of their name and an unsupported pair gives 0. -/
theorem getD3DFeatureLevel_11_swapped :
    getD3DFeatureLevel 11 0 = D3D_FEATURE_LEVEL_11_1
    ∧ getD3DFeatureLevel 11 1 = D3D_FEATURE_LEVEL_11_0
    ∧ D3D_FEATURE_LEVEL_11_1 ≠ D3D_FEATURE_LEVEL_11_0
    ∧ getD3DFeatureLevel 12 0 = D3D_FEATURE_LEVEL_12_0
    ∧ getD3DFeatureLevel 12 1 = D3D_FEATURE_LEVEL_12_1
    ∧ getD3DFeatureLevel 10 0 = D3D_FEATURE_LEVEL_10_0
    ∧ getD3DFeatureLevel 10 1 = D3D_FEATURE_LEVEL_10_1
    ∧ getD3DFeatureLevel 9 1 = D3D_FEATURE_LEVEL_9_1
    ∧ getD3DFeatureLevel 9 2 = D3D_FEATURE_LEVEL_9_2
    ∧ getD3DFeatureLevel 9 3 = D3D_FEATURE_LEVEL_9_3
    ∧ getD3DFeatureLevel 9 0 = 0
    ∧ getD3DFeatureLevel 11 2 = 0
    ∧ getD3DFeatureLevel 13 0 = 0 := by
  decide

/-! ## The name index against the bind-point table -/

/-- C31: stage 0 declares `Globals` and stage 1 declares `Material`, both at
bind point 0, and `reflectBuffers` returns true on the empty table.  The name
index holds the pair (`Globals`, 0), and the entry stored at bind point 0
carries the name `Material`.  The same happens when one stage declares both
buffers at bind point 0. -/
theorem reflectBuffers_index_inconsistent :
    (∃ self1, reflectBuffers [some (globalsStage 0), some (materialStage 0)] {} ""
          = some (true, self1, "")
        ∧ StdMap.find self1.mBuffersConstant.nameMap "Globals" = some 0
        ∧ (StdMap.find self1.mBuffersConstant.descMap 0).map (fun e => e.name)
            = some "Material")
    ∧ ∃ self1, reflectBuffers [some sharedSlotStage] {} "" = some (true, self1, "")
        ∧ StdMap.find self1.mBuffersConstant.nameMap "Globals" = some 0
        ∧ (StdMap.find self1.mBuffersConstant.descMap 0).map (fun e => e.name)
            = some "Material" := by
  constructor
  · exact ⟨_, rfl, by decide, by decide⟩
  · exact ⟨_, rfl, by decide, by decide⟩

/-! ## The stride of an array of structs -/

/-- C32: the array `Probe probes[2]` of `struct Probe { float4 a; float4 b[3]; }`
is flattened with the stride 32, the offset of `b` plus one row of 16 bytes,
which is less than the end `16 + 16 * 1 * 3 = 64` of the leaf `b`.  The entry
`probes[1].a` is placed at 32, inside the bytes 16..63 of `probes[0].b`; and
the size check of `initializeBufferVariables` on the 128-byte buffer holding
the array is false. -/
theorem reflectType_stride_ignores_arrays :
    calcStructSize (reflectStructMembers
        (.cons "a" (float4At 0)
          (.cons "b" (.mk ⟨.D3D_SVC_VECTOR, .D3D_SVT_FLOAT, 1, 4, 3, 16⟩ .nil) .nil)) [])
      = 32
    ∧ reflectType probeArray [] "probes" 0
      = [("probes[0].a", { location := 0, type := .Float4 }),
         ("probes[0].b", { location := 16, arraySize := 3, type := .Float4 }),
         ("probes[1].a", { location := 32, type := .Float4 }),
         ("probes[1].b", { location := 48, arraySize := 3, type := .Float4 })]
    ∧ 32 < 16 + 16 * getRowCountFromType VariableType.Float4 * max 1 3
    ∧ calcStructSize (initializeBufferVariables probesBuffer []) = 64
    ∧ initializeBufferVariables_assert probesBuffer = false := by
  decide

/-! ## The maps passed to `calcStructSize` -/

theorem StdMap.set_ne_nil {κ α : Type} [DecidableEq κ] [MapKey κ] (m : StdMap κ α) (k : κ)
    (v : α) : m.set k v ≠ [] := by
  cases m with
  | nil => simp [StdMap.set]
  | cons b m =>
    obtain ⟨k1, v1⟩ := b
    unfold StdMap.set
    split
    · simp
    · split <;> simp

theorem applyWrites_ne_nil_of_ne_nil (ws : List (String × Variable)) :
    ∀ vm : VariableMap, vm ≠ [] → applyWrites vm ws ≠ [] := by
  induction ws with
  | nil => intro vm h; exact h
  | cons w ws ih =>
    intro vm _
    unfold applyWrites
    rw [List.foldl_cons]
    exact ih _ (StdMap.set_ne_nil vm w.1 w.2)

theorem applyWrites_ne_nil (ws : List (String × Variable)) (vm : VariableMap)
    (h : ws ≠ []) : applyWrites vm ws ≠ [] := by
  cases ws with
  | nil => exact absurd rfl h
  | cons w ws =>
    unfold applyWrites
    rw [List.foldl_cons]
    exact applyWrites_ne_nil_of_ne_nil ws _ (StdMap.set_ne_nil vm w.1 w.2)

mutual
theorem typeWrites_ne_nil :
    ∀ (t : ShaderReflectionType) (name : String) (offset : Nat),
      everyStructHasMembers t = true → typeWrites t name offset ≠ []
  | .mk typeDesc members, name, offset, h => by
    unfold typeWrites
    unfold everyStructHasMembers at h
    simp only []
    by_cases hs : typeDesc.Class = D3D_SHADER_VARIABLE_CLASS.D3D_SVC_STRUCT
    · rw [if_pos hs] at h ⊢
      rw [Bool.and_eq_true] at h
      exact memberWrites_ne_nil members _ _ name _
        (by
          intro hnil
          rw [hnil] at h
          exact Bool.false_ne_true h.1)
        h.2
    · rw [if_neg hs]
      exact List.cons_ne_nil _ _
theorem memberWrites_ne_nil :
    ∀ (ms : MemberList) (elements structSize : Nat) (name : String) (offset : Nat),
      ms ≠ MemberList.nil → everyMemberHasMembers ms = true →
      memberWrites ms elements structSize name offset ≠ []
  | .nil, _, _, _, _, hne, _ => absurd rfl hne
  | .cons memberName pMember rest, elements, structSize, name, offset, _, h => by
    unfold everyMemberHasMembers at h
    rw [Bool.and_eq_true] at h
    unfold memberWrites
    intro hnil
    have hhead := (List.append_eq_nil.mp hnil).1
    by_cases he : elements > 0
    · rw [if_pos he] at hhead
      obtain ⟨n, hn⟩ : ∃ n, elements = n + 1 := ⟨elements - 1, by omega⟩
      rw [hn, List.range_succ_eq_map, List.flatMap_cons] at hhead
      exact typeWrites_ne_nil pMember _ _ h.1 (List.append_eq_nil.mp hhead).1
    · rw [if_neg he] at hhead
      exact typeWrites_ne_nil pMember _ _ h.1 hhead
end

theorem scratchWrites_ne_nil (ms : MemberList) (hne : ms ≠ MemberList.nil)
    (h : everyMemberHasMembers ms = true) : scratchWrites ms ≠ [] := by
  cases ms with
  | nil => exact absurd rfl hne
  | cons memberName pMember rest =>
    unfold everyMemberHasMembers at h
    rw [Bool.and_eq_true] at h
    unfold scratchWrites
    intro hnil
    exact typeWrites_ne_nil pMember _ _ h.1 (List.append_eq_nil.mp hnil).1

mutual
theorem reflectType_defined_of_members :
    ∀ t : ShaderReflectionType, everyStructHasMembers t = true → reflectType_defined t = true
  | .mk typeDesc members, h => by
    unfold reflectType_defined
    unfold everyStructHasMembers at h
    by_cases hs : typeDesc.Class = D3D_SHADER_VARIABLE_CLASS.D3D_SVC_STRUCT
    · rw [if_pos hs] at h ⊢
      rw [Bool.and_eq_true] at h ⊢
      have hne : members ≠ MemberList.nil := by
        intro hnil
        rw [hnil] at h
        exact Bool.false_ne_true h.1
      refine ⟨reflectMembers_defined_of_members members h.2, ?_⟩
      unfold calcStructSize_defined
      rw [reflectStructMembers_eq_applyWrites]
      have := applyWrites_ne_nil _ [] (scratchWrites_ne_nil members hne h.2)
      cases hw : applyWrites [] (scratchWrites members) with
      | nil => exact absurd hw this
      | cons a l => rfl
    · rw [if_neg hs]
theorem reflectMembers_defined_of_members :
    ∀ ms : MemberList, everyMemberHasMembers ms = true → reflectMembers_defined ms = true
  | .nil, _ => by
    unfold reflectMembers_defined
    rfl
  | .cons memberName pMember rest, h => by
    unfold everyMemberHasMembers at h
    rw [Bool.and_eq_true] at h
    unfold reflectMembers_defined
    rw [Bool.and_eq_true]
    exact ⟨reflectType_defined_of_members pMember h.1,
      reflectMembers_defined_of_members rest h.2⟩
end

theorem initializeBufferVariables_fold_ne_nil (l : List ShaderReflectionVariable)
    (hall : ∀ pVar ∈ l, everyStructHasMembers pVar.pType = true) :
    ∀ vm : VariableMap, vm ≠ [] ∨ l ≠ [] →
      l.foldl (fun vm pVar => reflectVariable pVar vm) vm ≠ [] := by
  induction l with
  | nil =>
    intro vm h
    rcases h with h | h
    · exact h
    · exact absurd rfl h
  | cons pVar l ih =>
    intro vm _
    rw [List.foldl_cons]
    apply ih (fun q hq => hall q (List.mem_cons_of_mem _ hq))
    left
    unfold reflectVariable
    rw [reflectType_eq_applyWrites]
    exact applyWrites_ne_nil _ vm
      (typeWrites_ne_nil pVar.pType _ _ (hall pVar (List.mem_cons_self _ _)))

/-- The calls of `calcStructSize` on a buffer with at least one variable whose
type trees have at least one member in every struct all receive a non-empty map. -/
theorem initializeBufferVariables_defined_of_members
    (pReflector : ShaderReflectionConstantBuffer) (hvars : pReflector.variableList ≠ [])
    (hall : ∀ pVar ∈ pReflector.variableList, everyStructHasMembers pVar.pType = true) :
    initializeBufferVariables_defined pReflector = true := by
  unfold initializeBufferVariables_defined
  rw [Bool.and_eq_true, List.all_eq_true]
  refine ⟨fun pVar hp => reflectType_defined_of_members _ (hall pVar hp), ?_⟩
  unfold calcStructSize_defined initializeBufferVariables
  have := initializeBufferVariables_fold_ne_nil pReflector.variableList hall [] (Or.inr hvars)
  cases hw : List.foldl (fun vm pVar => reflectVariable pVar vm) [] pReflector.variableList with
  | nil => exact absurd hw this
  | cons a l => rfl

/-- C34: a struct node without members makes `reflectType` call `calcStructSize`
on the empty scratch map, whose `begin()` cannot be dereferenced; this happens
for the variable `tag` of the buffer `Tagged`, which has another variable and
so a non-empty flattened map.  A buffer without variables has the empty
flattened map, on which the size assertion of `initializeBufferVariables`
calls `calcStructSize`. -/
theorem calcStructSize_on_empty_map :
    reflectStructMembers MemberList.nil [] = []
    ∧ calcStructSize_defined (reflectStructMembers MemberList.nil []) = false
    ∧ reflectType_defined emptyStruct = false
    ∧ initializeBufferVariables taggedBuffer []
        = [("color", { location := 0, type := .Float4 })]
    ∧ initializeBufferVariables_defined taggedBuffer = false
    ∧ initializeBufferVariables nothingBuffer [] = []
    ∧ initializeBufferVariables_defined nothingBuffer = false := by
  decide

/-! ## Translation of the base offset -/

theorem StdMap.set_map_value {κ α : Type} [DecidableEq κ] [MapKey κ] (f : α → α)
    (m : StdMap κ α) (k : κ) (v : α) :
    (m.set k v).map (fun a => (a.1, f a.2)) = StdMap.set (m.map (fun a => (a.1, f a.2))) k (f v) := by
  induction m with
  | nil => rfl
  | cons b m ih =>
    obtain ⟨k1, v1⟩ := b
    unfold StdMap.set
    simp only [List.map_cons]
    by_cases h1 : MapKey.keyLt k k1 = true
    · rw [if_pos h1, if_pos h1]
      rfl
    · rw [if_neg h1, if_neg h1]
      by_cases h2 : k = k1
      · rw [if_pos h2, if_pos h2]
        rfl
      · rw [if_neg h2, if_neg h2, List.map_cons, ih]

theorem StdMap.find_map_value {κ α : Type} [DecidableEq κ] (f : α → α)
    (m : StdMap κ α) (k : κ) :
    StdMap.find (m.map (fun a => (a.1, f a.2))) k = (StdMap.find m k).map f := by
  induction m with
  | nil => rfl
  | cons b m ih =>
    obtain ⟨k1, v1⟩ := b
    simp only [List.map_cons]
    unfold StdMap.find
    by_cases h : k = k1
    · rw [if_pos h, if_pos h]
      rfl
    · rw [if_neg h, if_neg h, ih]

theorem applyWrites_translate (delta : Nat) (ws : List (String × Variable)) :
    ∀ vm : VariableMap,
      applyWrites (vm.map (fun a => (a.1, { a.2 with location := a.2.location + delta })))
          (ws.map (relocate "" delta))
        = (applyWrites vm ws).map
            (fun a => (a.1, { a.2 with location := a.2.location + delta })) := by
  induction ws with
  | nil => intro vm; rfl
  | cons w ws ih =>
    intro vm
    unfold applyWrites at ih ⊢
    rw [List.map_cons, List.foldl_cons, List.foldl_cons, ← ih (StdMap.set vm w.1 w.2),
      StdMap.set_map_value (fun v : Variable => { v with location := v.location + delta })]
    unfold relocate
    rw [string_empty_append]

/-- C33: flattening a type tree under a name at the base offset `B + d` into the
empty map gives the map flattened at `B` with `d` added to every location: the
same keys in the same order with equal type, array size, array stride and
row-major flag, and a lookup of any key finds the value found at `B` moved by
`d`.  The stride used for the elements of a struct array is `calcStructSize` of
the scratch map of the members, an expression in which neither the base offset
nor the name occurs. -/
theorem reflectType_translate (t : ShaderReflectionType) (name : String)
    (offset delta : Nat) (key : String) (typeDesc : D3D_SHADER_TYPE_DESC)
    (members : MemberList) (varMap : VariableMap) :
    reflectType t [] name (offset + delta)
        = (reflectType t [] name offset).map
            (fun a => (a.1, { a.2 with location := a.2.location + delta }))
      ∧ (reflectType t [] name (offset + delta)).map Prod.fst
          = (reflectType t [] name offset).map Prod.fst
      ∧ StdMap.find (reflectType t [] name (offset + delta)) key
          = (StdMap.find (reflectType t [] name offset) key).map
              (fun v => { v with location := v.location + delta })
      ∧ reflectType
            (.mk { typeDesc with Class := D3D_SHADER_VARIABLE_CLASS.D3D_SVC_STRUCT } members)
            varMap name offset
          = reflectMembers members typeDesc.Elements
              (calcStructSize (reflectStructMembers members [])) varMap name
              (offset + typeDesc.Offset) := by
  have hmap : reflectType t [] name (offset + delta)
        = (reflectType t [] name offset).map
            (fun a => (a.1, { a.2 with location := a.2.location + delta })) := by
    rw [reflectType_eq_applyWrites, reflectType_eq_applyWrites,
      ← applyWrites_translate delta (typeWrites t name offset) [],
      ← typeWrites_relocate t "" name offset delta, string_empty_append]
    rfl
  refine ⟨hmap, ?_, ?_, ?_⟩
  · rw [hmap, List.map_map]
    rfl
  · rw [hmap]
    exact StdMap.find_map_value
      (fun v : Variable => { v with location := v.location + delta }) _ key
  · unfold reflectType
    simp

/-! ## Return values and the caller's log -/

theorem reportsFailure_mono (opening : String) (named named1 : String → Prop)
    (log : String) (go : Bool) (log1 : String) (hsub : ∀ name, named name → named1 name)
    (h : reportsFailure opening named log go log1) :
    reportsFailure opening named1 log go log1 := by
  rcases h with h | ⟨hgo, name, hname, rest, hrest⟩
  · exact Or.inl h
  · exact Or.inr ⟨hgo, name, hsub name hname, rest, hrest⟩

theorem reportsFailure_true_iff (opening : String) (named : String → Prop)
    (log : String) (go : Bool) (log1 : String)
    (hopening : opening ≠ "") (h : reportsFailure opening named log go log1) :
    go = true ↔ log1 = log := by
  rcases h with ⟨hgo, hlog⟩ | ⟨hgo, name, _, rest, hrest⟩
  · exact ⟨fun _ => hlog, fun _ => hgo⟩
  · constructor
    · intro h
      rw [hgo] at h
      exact absurd h (by decide)
    · intro h
      rw [hrest, string_append_eq_self, string_append_eq_empty, string_append_eq_empty,
        string_append_eq_empty] at h
      exact absurd h.1.1.1 hopening

theorem message_shape (a n h d r : String) :
    a ++ n ++ (h ++ d) ++ r = a ++ n ++ h ++ (d ++ r) := by
  apply String.ext
  simp [List.append_assoc]

theorem reflectBuffer_reports (pReflection : ShaderReflection) (shader : Nat)
    (pBuffer : ShaderReflectionConstantBuffer) (self : ProgramReflection) (log : String)
    (go : Bool) (self1 : ProgramReflection) (log1 : String)
    (hrun : reflectBuffer pReflection shader pBuffer self log = some (go, self1, log1)) :
    reportsFailure "Constant buffer '" (fun name => name = pBuffer.Name) log go log1 := by
  have hsplit1 : "' has different bind locations between different shader stages. Falcor do not support that. Use explicit bind locations to avoid this error"
      = "' has different " ++ "bind locations between different shader stages. Falcor do not support that. Use explicit bind locations to avoid this error" := by
    decide
  have hsplit2 : "' has different definitions between different shader stages. "
      = "' has different " ++ "definitions between different shader stages. " := by
    decide
  unfold reflectBuffer at hrun
  rcases hbind : pReflection.GetResourceBindingDescByName pBuffer.Name with _ | bindDesc
  · rw [hbind] at hrun
    simp at hrun
  · rw [hbind] at hrun
    simp only [] at hrun
    split at hrun
    · split at hrun
      · simp only [Option.some.injEq, Prod.mk.injEq] at hrun
        obtain ⟨hgo, _, hlog⟩ := hrun
        right
        refine ⟨hgo.symm, pBuffer.Name, rfl, ?_⟩
        rw [← hlog, hsplit1, ← string_append_empty (_ ++ _ ++ (_ ++ _)), message_shape]
        exact ⟨_, rfl⟩
      · split at hrun
        · simp at hrun
        · split at hrun
          · simp only [Option.some.injEq, Prod.mk.injEq] at hrun
            obtain ⟨hgo, _, hlog⟩ := hrun
            right
            refine ⟨hgo.symm, pBuffer.Name, rfl, ?_⟩
            rw [← hlog, hsplit2, message_shape]
            exact ⟨_, rfl⟩
          · split at hrun
            · simp at hrun
            · simp only [Option.some.injEq, Prod.mk.injEq] at hrun
              exact Or.inl ⟨hrun.1.symm, hrun.2.2.symm⟩
    · split at hrun
      · simp at hrun
      · simp only [Option.some.injEq, Prod.mk.injEq] at hrun
        exact Or.inl ⟨hrun.1.symm, hrun.2.2.symm⟩

theorem reflectStageBuffers_reports (pReflection : ShaderReflection) (shader : Nat)
    (buffers : List ShaderReflectionConstantBuffer) :
    ∀ (found : Nat) (self : ProgramReflection) (log : String) (go : Bool)
      (self1 : ProgramReflection) (log1 : String),
      reflectStageBuffers pReflection shader found buffers self log = some (go, self1, log1) →
      reportsFailure "Constant buffer '" (fun name => ∃ b ∈ buffers, b.Name = name)
        log go log1 := by
  induction buffers with
  | nil =>
    intro found self log go self1 log1 hrun
    rw [reflectStageBuffers] at hrun
    by_cases hf : found < pReflection.ConstantBuffers
    · rw [if_pos hf] at hrun
      simp at hrun
    · rw [if_neg hf] at hrun
      simp only [Option.some.injEq, Prod.mk.injEq] at hrun
      exact Or.inl ⟨hrun.1.symm, hrun.2.2.symm⟩
  | cons pBuffer rest ih =>
    intro found self log go self1 log1 hrun
    rw [reflectStageBuffers] at hrun
    by_cases hf : found < pReflection.ConstantBuffers
    · rw [if_pos hf] at hrun
      by_cases hk : pBuffer.Type_ = D3D_CBUFFER_TYPE.D3D_CT_TBUFFER
          ∨ pBuffer.Type_ = D3D_CBUFFER_TYPE.D3D_CT_CBUFFER
      · rw [if_pos hk] at hrun
        rcases hbody : reflectBuffer pReflection shader pBuffer self log
          with _ | ⟨goA, selfA, logA⟩
        · rw [hbody] at hrun
          simp at hrun
        · rw [hbody] at hrun
          have hrep := reflectBuffer_reports pReflection shader pBuffer self log goA selfA
            logA hbody
          cases goA with
          | false =>
            simp only [Option.some.injEq, Prod.mk.injEq] at hrun
            rw [← hrun.1, ← hrun.2.2]
            exact reportsFailure_mono _ _ _ _ _ _
              (fun name hn => ⟨pBuffer, List.mem_cons_self _ _, hn.symm⟩) hrep
          | true =>
            simp only [] at hrun
            have hlog : logA = log := by
              rcases hrep with ⟨_, h⟩ | ⟨h, _⟩
              · exact h
              · exact absurd h (by decide)
            rw [hlog] at hrun
            exact reportsFailure_mono _ _ _ _ _ _
              (fun name ⟨b, hb, hn⟩ => ⟨b, List.mem_cons_of_mem _ hb, hn⟩)
              (ih _ _ _ _ _ _ hrun)
      · rw [if_neg hk] at hrun
        exact reportsFailure_mono _ _ _ _ _ _
          (fun name ⟨b, hb, hn⟩ => ⟨b, List.mem_cons_of_mem _ hb, hn⟩)
          (ih _ _ _ _ _ _ hrun)
    · rw [if_neg hf] at hrun
      simp only [Option.some.injEq, Prod.mk.injEq] at hrun
      exact Or.inl ⟨hrun.1.symm, hrun.2.2.symm⟩

theorem reflectBuffersFrom_reports (stages : List (Option ShaderReflection)) :
    ∀ (shader : Nat) (self : ProgramReflection) (log : String) (go : Bool)
      (self1 : ProgramReflection) (log1 : String),
      reflectBuffersFrom stages shader self log = some (go, self1, log1) →
      reportsFailure "Constant buffer '"
        (fun name => ∃ s, some s ∈ stages ∧ ∃ b ∈ s.constantBuffers, b.Name = name)
        log go log1 := by
  induction stages with
  | nil =>
    intro shader self log go self1 log1 hrun
    rw [reflectBuffersFrom] at hrun
    simp only [Option.some.injEq, Prod.mk.injEq] at hrun
    exact Or.inl ⟨hrun.1.symm, hrun.2.2.symm⟩
  | cons st stages ih =>
    intro shader self log go self1 log1 hrun
    cases st with
    | none =>
      rw [reflectBuffersFrom] at hrun
      exact reportsFailure_mono _ _ _ _ _ _
        (fun name ⟨s, hs, h⟩ => ⟨s, List.mem_cons_of_mem _ hs, h⟩) (ih _ _ _ _ _ _ hrun)
    | some pReflection =>
      rw [reflectBuffersFrom] at hrun
      rcases hstage : reflectStageBuffers pReflection shader 0 pReflection.constantBuffers
          self log with _ | ⟨goA, selfA, logA⟩
      · rw [hstage] at hrun
        simp at hrun
      · rw [hstage] at hrun
        have hrep := reflectStageBuffers_reports pReflection shader _ _ _ _ _ _ _ hstage
        cases goA with
        | false =>
          simp only [Option.some.injEq, Prod.mk.injEq] at hrun
          rw [← hrun.1, ← hrun.2.2]
          exact reportsFailure_mono _ _ _ _ _ _
            (fun name h => ⟨pReflection, List.mem_cons_self _ _, h⟩) hrep
        | true =>
          simp only [] at hrun
          have hlog : logA = log := by
            rcases hrep with ⟨_, h⟩ | ⟨h, _⟩
            · exact h
            · exact absurd h (by decide)
          rw [hlog] at hrun
          exact reportsFailure_mono _ _ _ _ _ _
            (fun name ⟨s, hs, h⟩ => ⟨s, List.mem_cons_of_mem _ hs, h⟩) (ih _ _ _ _ _ _ hrun)

theorem reflectResource_reports (shader : Nat) (d : D3D_SHADER_INPUT_BIND_DESC)
    (T : ResourceMap) (log : String) :
    reportsFailure "Shader resource '" (fun name => name = d.Name) log
      (reflectResource shader d T log).1 (reflectResource shader d T log).2.2 := by
  have hsplit : "' has different definitions between different shader stages. "
      = "' has different " ++ "definitions between different shader stages. " := by
    decide
  unfold reflectResource
  by_cases hd : d.Type_ = D3D_SHADER_INPUT_TYPE.D3D_SIT_CBUFFER
  · rw [if_pos hd]
    exact Or.inl ⟨rfl, rfl⟩
  · rw [if_neg hd]
    simp only []
    rcases StdMap.find T d.Name with _ | prev
    · exact Or.inl ⟨rfl, rfl⟩
    · simp only []
      by_cases hv : (verifyResourceDefinition prev (makeResource d) "").1 = false
      · rw [if_pos hv]
        right
        refine ⟨rfl, d.Name, rfl, ?_⟩
        simp only []
        rw [hsplit, message_shape]
        exact ⟨_, rfl⟩
      · rw [if_neg hv]
        exact Or.inl ⟨rfl, rfl⟩

theorem reflectStageResources_reports (shader : Nat) (l : List D3D_SHADER_INPUT_BIND_DESC) :
    ∀ (T : ResourceMap) (log : String),
      reportsFailure "Shader resource '" (fun name => ∃ d ∈ l, d.Name = name) log
        (reflectStageResources shader l T log).1 (reflectStageResources shader l T log).2.2 := by
  induction l with
  | nil => intro T log; exact Or.inl ⟨rfl, rfl⟩
  | cons d rest ih =>
    intro T log
    rw [reflectStageResources]
    have hrep := reflectResource_reports shader d T log
    rcases hres : reflectResource shader d T log with ⟨goA, TA, logA⟩
    rw [hres] at hrep
    cases goA with
    | false =>
      exact reportsFailure_mono _ _ _ _ _ _
        (fun name hn => ⟨d, List.mem_cons_self _ _, hn.symm⟩) hrep
    | true =>
      have hlog : logA = log := by
        rcases hrep with ⟨_, h⟩ | ⟨h, _⟩
        · exact h
        · exact absurd h Bool.noConfusion
      simp only []
      rw [hlog]
      exact reportsFailure_mono _ _ _ _ _ _
        (fun name ⟨b, hb, hn⟩ => ⟨b, List.mem_cons_of_mem _ hb, hn⟩) (ih TA log)

theorem reflectResourcesFrom_reports (stages : List (Option ShaderReflection)) :
    ∀ (shader : Nat) (T : ResourceMap) (log : String),
      reportsFailure "Shader resource '"
        (fun name => ∃ s, some s ∈ stages ∧ ∃ d ∈ s.boundResources, d.Name = name) log
        (reflectResourcesFrom stages shader T log).1
        (reflectResourcesFrom stages shader T log).2.2 := by
  induction stages with
  | nil => intro shader T log; exact Or.inl ⟨rfl, rfl⟩
  | cons st stages ih =>
    intro shader T log
    cases st with
    | none =>
      rw [reflectResourcesFrom]
      exact reportsFailure_mono _ _ _ _ _ _
        (fun name ⟨s, hs, h⟩ => ⟨s, List.mem_cons_of_mem _ hs, h⟩) (ih _ T log)
    | some pReflection =>
      rw [reflectResourcesFrom]
      have hrep := reflectStageResources_reports shader pReflection.boundResources T log
      rcases hres : reflectStageResources shader pReflection.boundResources T log
        with ⟨goA, TA, logA⟩
      rw [hres] at hrep
      cases goA with
      | false =>
        exact reportsFailure_mono _ _ _ _ _ _
          (fun name h => ⟨pReflection, List.mem_cons_self _ _, h⟩) hrep
      | true =>
        have hlog : logA = log := by
          rcases hrep with ⟨_, h⟩ | ⟨h, _⟩
          · exact h
          · exact absurd h Bool.noConfusion
        simp only []
        rw [hlog]
        exact reportsFailure_mono _ _ _ _ _ _
          (fun name ⟨s, hs, h⟩ => ⟨s, List.mem_cons_of_mem _ hs, h⟩) (ih _ TA log)

/-- C35: when `reflectBuffers` returns, it returns true exactly when the log it
leaves is the caller's log; a false return has appended a message that starts
with `Constant buffer '`, names a buffer declared by a stage of the program
and says what is different.  `reflectResources` returns true exactly when it
leaves the log as it was, and a false return has appended a message that
starts with `Shader resource '` and names a resource bound by a stage of the
program.  Text written by a validator that accepts is never appended. -/
theorem reflection_true_iff_log_unchanged (pProgVer : ProgramVersion)
    (self : ProgramReflection) (log : String) (go : Bool) (self1 : ProgramReflection)
    (log1 : String) (hrun : reflectBuffers pProgVer self log = some (go, self1, log1)) :
    (go = true ↔ log1 = log)
      ∧ (go = false → ∃ pReflection pBuffer, ∃ rest : String,
          some pReflection ∈ pProgVer ∧ pBuffer ∈ pReflection.constantBuffers
            ∧ log1 = log ++ ("Constant buffer '" ++ pBuffer.Name ++ "' has different " ++ rest))
      ∧ ((reflectResources pProgVer self log).1 = true
          ↔ (reflectResources pProgVer self log).2.2 = log)
      ∧ ((reflectResources pProgVer self log).1 = false →
          ∃ pReflection InputDesc, ∃ rest : String,
            some pReflection ∈ pProgVer ∧ InputDesc ∈ pReflection.boundResources
              ∧ (reflectResources pProgVer self log).2.2
                = log ++ ("Shader resource '" ++ InputDesc.Name ++ "' has different " ++ rest)) := by
  have hb := reflectBuffersFrom_reports pProgVer 0 self log go self1 log1 hrun
  have hr := reflectResourcesFrom_reports pProgVer 0 self.mResources log
  refine ⟨reportsFailure_true_iff _ _ _ _ _ (by decide) hb, ?_,
    reportsFailure_true_iff _ _ _ _ _ (by decide) hr, ?_⟩
  · intro hgo
    rcases hb with ⟨h, _⟩ | ⟨_, name, ⟨s, hs, b, hbm, hn⟩, rest, hrest⟩
    · rw [hgo] at h
      exact absurd h (by decide)
    · exact ⟨s, b, rest, hs, hbm, by rw [hn]; exact hrest⟩
  · intro hgo
    rcases hr with ⟨h, _⟩ | ⟨_, name, ⟨s, hs, d, hdm, hn⟩, rest, hrest⟩
    · exact absurd (h.symm.trans hgo) (by decide)
    · exact ⟨s, d, rest, hs, hdm, by rw [hn]; exact hrest⟩

/-- Witness of C35: `Globals` declared at bind point 0 and then at bind point 2. -/
theorem reflection_true_iff_log_unchanged_witness :
    reflectBuffers [some (globalsStage 0), some (globalsStage 2)] {} ""
        = some (false,
            { mBuffersConstant :=
                { descMap := [(0, globalsEntry 1)], nameMap := [("Globals", 0)] } },
            "Constant buffer 'Globals' has different bind locations between different shader stages. Falcor do not support that. Use explicit bind locations to avoid this error")
      ∧ (false = true
          ↔ "Constant buffer 'Globals' has different bind locations between different shader stages. Falcor do not support that. Use explicit bind locations to avoid this error"
            = "") :=
  ⟨by decide,
    (reflection_true_iff_log_unchanged [some (globalsStage 0), some (globalsStage 2)] {} ""
      false
      { mBuffersConstant := { descMap := [(0, globalsEntry 1)], nameMap := [("Globals", 0)] } }
      "Constant buffer 'Globals' has different bind locations between different shader stages. Falcor do not support that. Use explicit bind locations to avoid this error"
      (by decide)).1⟩

end Falcor
